import Mathlib

/-!
# Branch direction predictors: bimodal (BHT), GShare and tournament

A shallow embedding of `bht.cc`, `gshare.cc` and `tournament_predictor.cc`.

Conventions of the embedding.

* `uint64_t` values are natural numbers; every operation that can leave the
  64-bit range is reduced modulo `2 ^ 64` explicitly.  `int` values are
  integers; the conversions between `int` and `uint64_t` that the C++ code
  performs implicitly are the functions `u64_of_int` and `int_of_u64`.
* A `std::vector` is a list.  Reading or writing outside the vector is
  undefined behaviour in C++; the embedding reports it as
  `Fault.undefined_behaviour`, as it does for a division by zero and for a
  shift by a count outside `0 .. 63`.
* Counters are `int` (`int8_t` in the tournament predictor).  The code only
  increments a counter below `3` and only decrements a counter above `0`, so
  no counter operation can overflow and integers model them exactly.
* `std::map<uint64_t, SampleHist>` is an association list in which `emplace`
  keeps an existing entry, `at` fails on an absent key and `erase` removes
  the key.
* Every member function returns the pair of its outcome (a value or a fault)
  and the object state at the point where it returned or faulted.
-/

/-- Ways in which a call can fail to complete. -/
inductive Fault where
  /-- An `assert(...)` evaluated to false. -/
  | assertion_failed
  /-- The exception `std::out_of_range`, thrown by `std::map::at`. -/
  | out_of_range
  /-- The exception `std::length_error`, thrown by `std::vector::resize`. -/
  | length_error
  /-- Undefined behaviour: division by zero, bad shift count, index out of bounds. -/
  | undefined_behaviour
  deriving DecidableEq, Repr

/-! ## Machine integers and vectors -/

/-- Conversion of an `int` to `uint64_t` (value modulo `2 ^ 64`). -/
def u64_of_int (x : Int) : Nat := (x % 18446744073709551616).toNat

/-- Conversion of a `uint64_t` to a 32-bit `int` (two's complement truncation). -/
def int_of_u64 (n : Nat) : Int :=
  if n % 4294967296 < 2147483648 then ((n % 4294967296 : Nat) : Int)
  else ((n % 4294967296 : Nat) : Int) - 4294967296

/-- Conversion of a `uint64_t` to `uint32_t`. -/
def u32_of_u64 (n : Nat) : Nat := n % 4294967296

/-- The read `v[i]` of a vector, `i` already converted to `size_t`. -/
def vec_read (v : List Int) (i : Nat) : Except Fault Int :=
  match v[i]? with
  | some x => .ok x
  | none => .error .undefined_behaviour

/-- The vector after `f(v[i])` for an `f` that updates its reference argument. -/
def vec_modify (v : List Int) (i : Nat) (f : Int → Int) : Except Fault (List Int) :=
  match v[i]? with
  | some x => .ok (v.set i (f x))
  | none => .error .undefined_behaviour

/-- The vector after `v.resize(n, x)` with `n` an `int`: a negative `n` converts
to a `size_t` above `max_size()` and `resize` throws. -/
def vec_resize (v : List Int) (n : Int) (x : Int) : Except Fault (List Int) :=
  if 0 ≤ n then .ok (v.take n.toNat ++ List.replicate (n.toNat - v.length) x)
  else .error .length_error

/-- The 2-bit counter update shared by `BHTPredictor::update` and the internal
`GSHARE::update`: `if (dir) { if (state < 3) state++; } else { if (state > 0) state--; }`. -/
def counter_update (dir : Bool) (state : Int) : Int :=
  if dir then (if state < 3 then state + 1 else state)
  else (if state > 0 then state - 1 else state)

/-! ## Bimodal predictor (`bht.cc`) -/

/-- State of a `BHTPredictor`. -/
structure BHTPredictor where
  table : List Int
  deriving DecidableEq, Repr

namespace BHTPredictor

/-- Constructor `BHTPredictor(int table_size)`: `table.resize(table_size, 0)`. -/
def create (table_size : Int) : Except Fault BHTPredictor :=
  match vec_resize [] table_size 0 with
  | .ok t => .ok ⟨t⟩
  | .error e => .error e

/-- Member `get_index`: `return address % table.size();`. -/
def get_index (b : BHTPredictor) (address : Nat) : Except Fault Int :=
  if b.table.length = 0 then .error .undefined_behaviour
  else .ok (int_of_u64 (address % b.table.length))

/-- Member `predict`. -/
def predict (b : BHTPredictor) (_seq_no _piece pc : Nat) (_tage_sc_l_pred : Bool) :
    Except Fault Bool × BHTPredictor :=
  match b.get_index pc with
  | .error e => (.error e, b)
  | .ok index =>
    match vec_read b.table (u64_of_int index) with
    | .error e => (.error e, b)
    | .ok state => (.ok (decide (state ≥ 2)), b)

/-- Member `update`. -/
def update (b : BHTPredictor) (_seq_no _piece pc : Nat) (resolve_dir _pred_dir : Bool)
    (_next_pc : Nat) : Except Fault Unit × BHTPredictor :=
  match b.get_index pc with
  | .error e => (.error e, b)
  | .ok index =>
    match vec_modify b.table (u64_of_int index) (counter_update resolve_dir) with
    | .error e => (.error e, b)
    | .ok t => (.ok (), { b with table := t })

/-- Member `setup` (empty body). -/
def setup (b : BHTPredictor) : Except Fault Unit × BHTPredictor := (.ok (), b)

/-- Member `history_update` (empty body). -/
def history_update (b : BHTPredictor) (_seq_no _piece _pc : Nat) (_resolve_dir : Bool)
    (_next_pc : Nat) : Except Fault Unit × BHTPredictor := (.ok (), b)

/-- Member `terminate` (empty body). -/
def terminate (b : BHTPredictor) : Except Fault Unit × BHTPredictor := (.ok (), b)

end BHTPredictor

/-! ## GShare predictor (`gshare.cc`) -/

/-- The history snapshot `struct SampleHist`. -/
structure SampleHist where
  ghist : Nat
  tage_pred : Bool
  deriving DecidableEq, Repr

/-- The call `m.at(k)` of `std::map`: `none` stands for `std::out_of_range`. -/
def map_at (m : List (Nat × SampleHist)) (k : Nat) : Option SampleHist :=
  match m with
  | [] => none
  | (k', v) :: rest => if k' = k then some v else map_at rest k

/-- The call `m.emplace(k, v)` of `std::map`: no effect when `k` is present. -/
def map_emplace (m : List (Nat × SampleHist)) (k : Nat) (v : SampleHist) :
    List (Nat × SampleHist) :=
  match map_at m k with
  | some _ => m
  | none => (k, v) :: m

/-- The call `m.erase(k)` of `std::map`. -/
def map_erase (m : List (Nat × SampleHist)) (k : Nat) : List (Nat × SampleHist) :=
  m.filter (fun e => decide (e.1 ≠ k))

/-- The keys of a map. -/
def map_keys (m : List (Nat × SampleHist)) : List Nat := m.map Prod.fst

/-- State of a `GSHARE`. -/
structure GSHARE where
  table : List Int
  history_length : Int
  table_size : Int
  active_hist : SampleHist
  pred_time_histories : List (Nat × SampleHist)
  deriving DecidableEq, Repr

namespace GSHARE

/-- Constructor `GSHARE(int history_length, int table_size)`. -/
def create (history_length table_size : Int) : GSHARE :=
  { table := [], history_length := history_length, table_size := table_size,
    active_hist := { ghist := 0, tage_pred := false }, pred_time_histories := [] }

/-- Member `setup`: `table.resize(table_size, 0);`. -/
def setup (g : GSHARE) : Except Fault Unit × GSHARE :=
  match vec_resize g.table g.table_size 0 with
  | .ok t => (.ok (), { g with table := t })
  | .error e => (.error e, g)

/-- Member `terminate` (empty body). -/
def terminate (g : GSHARE) : Except Fault Unit × GSHARE := (.ok (), g)

/-- Member `get_unique_inst_id`: `assert(piece < 16); return (seq_no << 4) | (piece & 0x000F);`. -/
def get_unique_inst_id (seq_no piece : Nat) : Except Fault Nat :=
  if piece < 16 then .ok (((seq_no * 16) % 18446744073709551616) ||| (piece &&& 15))
  else .error .assertion_failed

/-- Member `get_index`:
`uint64_t pc_masked = pc & (table_size - 1); return (ghr ^ pc_masked) % table_size;`. -/
def get_index (g : GSHARE) (pc ghr : Nat) : Except Fault Int :=
  let pc_masked := pc &&& u64_of_int (g.table_size - 1)
  if u64_of_int g.table_size = 0 then .error .undefined_behaviour
  else .ok (int_of_u64 ((ghr ^^^ pc_masked) % u64_of_int g.table_size))

/-- Member `predict`. -/
def predict (g : GSHARE) (seq_no piece PC : Nat) (tage_pred : Bool) :
    Except Fault Bool × GSHARE :=
  let g1 := { g with active_hist := { g.active_hist with tage_pred := tage_pred } }
  match get_unique_inst_id seq_no piece with
  | .error e => (.error e, g1)
  | .ok inst_id =>
    let g2 := { g1 with
      pred_time_histories := map_emplace g1.pred_time_histories inst_id g1.active_hist }
    match g2.get_index PC g2.active_hist.ghist with
    | .error e => (.error e, g2)
    | .ok index =>
      match vec_read g2.table (u64_of_int index) with
      | .error e => (.error e, g2)
      | .ok state => (.ok (decide (state ≥ 2)), g2)

/-- Member `history_update`. -/
def history_update (g : GSHARE) (_seq_no _piece _PC : Nat) (taken : Bool) (_nextPC : Nat) :
    Except Fault Unit × GSHARE :=
  let h1 := (g.active_hist.ghist * 2) % 18446744073709551616
  let h2 := if taken then h1 ||| 1 else h1
  if 0 ≤ g.history_length ∧ g.history_length < 64 then
    (.ok (), { g with active_hist :=
      { g.active_hist with ghist := h2 &&& (2 ^ g.history_length.toNat - 1) } })
  else
    (.error .undefined_behaviour, { g with active_hist := { g.active_hist with ghist := h2 } })

/-- The private overload `update(PC, resolveDir, pred_taken, nextPC, hist_to_use)`. -/
def update_internal (g : GSHARE) (PC : Nat) (resolveDir _pred_taken : Bool) (_nextPC : Nat)
    (hist_to_use : SampleHist) : Except Fault Unit × GSHARE :=
  match g.get_index PC hist_to_use.ghist with
  | .error e => (.error e, g)
  | .ok index =>
    match vec_modify g.table (u64_of_int index) (counter_update resolveDir) with
    | .error e => (.error e, g)
    | .ok t => (.ok (), { g with table := t })

/-- The public member `update(seq_no, piece, PC, resolveDir, predDir, nextPC)`. -/
def update (g : GSHARE) (seq_no piece PC : Nat) (resolveDir predDir : Bool) (nextPC : Nat) :
    Except Fault Unit × GSHARE :=
  match get_unique_inst_id seq_no piece with
  | .error e => (.error e, g)
  | .ok pred_hist_key =>
    match map_at g.pred_time_histories pred_hist_key with
    | none => (.error .out_of_range, g)
    | some pred_time_history =>
      match g.update_internal PC resolveDir predDir nextPC pred_time_history with
      | (.error e, g1) => (.error e, g1)
      | (.ok _, g1) =>
        (.ok (), { g1 with
          pred_time_histories := map_erase g1.pred_time_histories pred_hist_key })

end GSHARE

/-! ## Tournament predictor (`tournament_predictor.cc`) -/

/-- The macro `LOG_LOCAL_PREDICTOR_SIZE`. -/
def LOG_LOCAL_PREDICTOR_SIZE : Nat := 14
/-- The macro `LOG_GLOBAL_PREDICTOR_SIZE`. -/
def LOG_GLOBAL_PREDICTOR_SIZE : Nat := 14
/-- The macro `LOG_CHOOSER_SIZE`. -/
def LOG_CHOOSER_SIZE : Nat := 14
/-- The macro `GLOBAL_HISTORY_LENGTH`. -/
def GLOBAL_HISTORY_LENGTH : Nat := 12

/-- State of a `TOURNAMENT_PREDICTOR`. -/
structure TOURNAMENT_PREDICTOR where
  local_predictor_table : List Int
  global_predictor_table : List Int
  chooser_table : List Int
  ghr : Nat
  deriving DecidableEq, Repr

namespace TOURNAMENT_PREDICTOR

/-- Helper `saturating_increment`: `if (counter < 3) counter++;`. -/
def saturating_increment (counter : Int) : Int :=
  if counter < 3 then counter + 1 else counter

/-- Helper `saturating_decrement`: `if (counter > 0) counter--;`. -/
def saturating_decrement (counter : Int) : Int :=
  if counter > 0 then counter - 1 else counter

/-- Constructor: three tables of `1 << 14` counters set to `1`, `ghr = 0`. -/
def create : TOURNAMENT_PREDICTOR :=
  { local_predictor_table := List.replicate (1 <<< LOG_LOCAL_PREDICTOR_SIZE) 1,
    global_predictor_table := List.replicate (1 <<< LOG_GLOBAL_PREDICTOR_SIZE) 1,
    chooser_table := List.replicate (1 <<< LOG_CHOOSER_SIZE) 1,
    ghr := 0 }

/-- The local index `pc % (1 << LOG_LOCAL_PREDICTOR_SIZE)`, stored in a `uint32_t`. -/
def local_index (pc : Nat) : Nat := u32_of_u64 (pc % (1 <<< LOG_LOCAL_PREDICTOR_SIZE))

/-- The mask `(1 << GLOBAL_HISTORY_LENGTH) - 1`. -/
def history_mask : Nat := (1 <<< GLOBAL_HISTORY_LENGTH) - 1

/-- The global index `(pc ^ (ghr & history_mask)) % (1 << LOG_GLOBAL_PREDICTOR_SIZE)`. -/
def global_index (t : TOURNAMENT_PREDICTOR) (pc : Nat) : Nat :=
  u32_of_u64 ((pc ^^^ (t.ghr &&& history_mask)) % (1 <<< LOG_GLOBAL_PREDICTOR_SIZE))

/-- The chooser index `pc % (1 << LOG_CHOOSER_SIZE)`. -/
def chooser_index (pc : Nat) : Nat := u32_of_u64 (pc % (1 <<< LOG_CHOOSER_SIZE))

/-- Member `get_cond_dir_prediction`. -/
def get_cond_dir_prediction (t : TOURNAMENT_PREDICTOR) (pc : Nat) :
    Except Fault Bool × TOURNAMENT_PREDICTOR :=
  match vec_read t.local_predictor_table (local_index pc) with
  | .error e => (.error e, t)
  | .ok lc =>
    let local_prediction := decide (lc ≥ 2)
    match vec_read t.global_predictor_table (t.global_index pc) with
    | .error e => (.error e, t)
    | .ok gc =>
      let global_prediction := decide (gc ≥ 2)
      match vec_read t.chooser_table (chooser_index pc) with
      | .error e => (.error e, t)
      | .ok cc =>
        let use_global_predictor := decide (cc ≥ 2)
        (.ok (if use_global_predictor then global_prediction else local_prediction), t)

/-- The chooser table after the chooser step of `update_predictor`. -/
def update_chooser (chooser : List Int) (chooser_index : Nat)
    (local_correct global_correct : Bool) : Except Fault (List Int) :=
  if global_correct && !local_correct then
    vec_modify chooser chooser_index saturating_increment
  else if !global_correct && local_correct then
    vec_modify chooser chooser_index saturating_decrement
  else .ok chooser

/-- Member `update_predictor`. -/
def update_predictor (t : TOURNAMENT_PREDICTOR) (pc : Nat) (taken _pred : Bool) :
    Except Fault Unit × TOURNAMENT_PREDICTOR :=
  match vec_read t.local_predictor_table (local_index pc) with
  | .error e => (.error e, t)
  | .ok lc =>
    let local_prediction := decide (lc ≥ 2)
    match vec_read t.global_predictor_table (t.global_index pc) with
    | .error e => (.error e, t)
    | .ok gc =>
      let global_prediction := decide (gc ≥ 2)
      let local_correct := local_prediction == taken
      let global_correct := global_prediction == taken
      match update_chooser t.chooser_table (chooser_index pc) local_correct global_correct with
      | .error e => (.error e, t)
      | .ok chooser =>
        let t1 := { t with chooser_table := chooser }
        let step := if taken then saturating_increment else saturating_decrement
        match vec_modify t1.local_predictor_table (local_index pc) step with
        | .error e => (.error e, t1)
        | .ok loc =>
          let t2 := { t1 with local_predictor_table := loc }
          match vec_modify t2.global_predictor_table (t.global_index pc) step with
          | .error e => (.error e, t2)
          | .ok glob =>
            let t3 := { t2 with global_predictor_table := glob }
            (.ok (), { t3 with
              ghr := ((t3.ghr * 2) % 18446744073709551616) ||| (if taken then 1 else 0) })

end TOURNAMENT_PREDICTOR

/-- Equality of outcomes is decidable. -/
instance instDecidableEqOutcome {α : Type} [DecidableEq α] : DecidableEq (Except Fault α)
  | .ok a, .ok b => if h : a = b then isTrue (by rw [h]) else isFalse (by intro e; cases e; exact h rfl)
  | .error a, .error b =>
    if h : a = b then isTrue (by rw [h]) else isFalse (by intro e; cases e; exact h rfl)
  | .ok _, .error _ => isFalse (by intro e; cases e)
  | .error _, .ok _ => isFalse (by intro e; cases e)

/-! ## Call sequences -/

/-- What a call sequence has produced: the predictions returned so far, the
fault that stopped it (if any) and the object state reached. -/
structure Run (σ : Type) where
  outputs : List Bool
  fault : Option Fault
  state : σ

/-- A call of the harness to a `BHTPredictor`. -/
inductive BCall where
  | predict (seq_no piece pc : Nat) (tage_sc_l_pred : Bool)
  | history_update (seq_no piece pc : Nat) (resolve_dir : Bool) (next_pc : Nat)
  | update (seq_no piece pc : Nat) (resolve_dir pred_dir : Bool) (next_pc : Nat)
  deriving DecidableEq, Repr

/-- A call of the harness to a `GSHARE`. -/
inductive GCall where
  | predict (seq_no piece PC : Nat) (tage_pred : Bool)
  | history_update (seq_no piece PC : Nat) (taken : Bool) (nextPC : Nat)
  | update (seq_no piece PC : Nat) (resolveDir predDir : Bool) (nextPC : Nat)
  deriving DecidableEq, Repr

/-- A call of the harness to a `TOURNAMENT_PREDICTOR`. -/
inductive TCall where
  | get_cond_dir_prediction (pc : Nat)
  | update_predictor (pc : Nat) (taken pred : Bool)
  deriving DecidableEq, Repr

/-- A `void` member seen as a step that returns no prediction. -/
def no_output {σ : Type} (r : Except Fault Unit × σ) : Except Fault (Option Bool) × σ :=
  (r.1.map (fun _ => none), r.2)

/-- A predicting member seen as a step that returns its prediction. -/
def with_output {σ : Type} (r : Except Fault Bool × σ) : Except Fault (Option Bool) × σ :=
  (r.1.map some, r.2)

/-- Runs the steps of a call sequence in order and stops at the first fault. -/
def run_calls {σ κ : Type} (step : σ → κ → Except Fault (Option Bool) × σ) :
    σ → List κ → Run σ
  | s, [] => { outputs := [], fault := none, state := s }
  | s, c :: cs =>
    match step s c with
    | (.error e, s1) => { outputs := [], fault := some e, state := s1 }
    | (.ok o, s1) =>
      let r := run_calls step s1 cs
      { outputs := o.toList ++ r.outputs, fault := r.fault, state := r.state }

/-- One call on a `BHTPredictor`. -/
def BHTPredictor.step (b : BHTPredictor) : BCall → Except Fault (Option Bool) × BHTPredictor
  | .predict s p pc h => with_output (b.predict s p pc h)
  | .history_update s p pc d n => no_output (b.history_update s p pc d n)
  | .update s p pc d q n => no_output (b.update s p pc d q n)

/-- A call sequence on a `BHTPredictor`. -/
def BHTPredictor.run (b : BHTPredictor) (cs : List BCall) : Run BHTPredictor :=
  run_calls BHTPredictor.step b cs

/-- One call on a `GSHARE`. -/
def GSHARE.step (g : GSHARE) : GCall → Except Fault (Option Bool) × GSHARE
  | .predict s p pc h => with_output (g.predict s p pc h)
  | .history_update s p pc d n => no_output (g.history_update s p pc d n)
  | .update s p pc d q n => no_output (g.update s p pc d q n)

/-- A call sequence on a `GSHARE`. -/
def GSHARE.run (g : GSHARE) (cs : List GCall) : Run GSHARE :=
  run_calls GSHARE.step g cs

/-- One call on a `TOURNAMENT_PREDICTOR`. -/
def TOURNAMENT_PREDICTOR.step (t : TOURNAMENT_PREDICTOR) :
    TCall → Except Fault (Option Bool) × TOURNAMENT_PREDICTOR
  | .get_cond_dir_prediction pc => with_output (t.get_cond_dir_prediction pc)
  | .update_predictor pc d q => no_output (t.update_predictor pc d q)

/-- A call sequence on a `TOURNAMENT_PREDICTOR`. -/
def TOURNAMENT_PREDICTOR.run (t : TOURNAMENT_PREDICTOR) (cs : List TCall) :
    Run TOURNAMENT_PREDICTOR :=
  run_calls TOURNAMENT_PREDICTOR.step t cs

/-! ## State predicates -/

/-- A `GSHARE` whose table has been allocated by `setup` for a positive
`table_size` (an `int`, hence below `2 ^ 31`). -/
def GSHARE.SetUp (g : GSHARE) : Prop :=
  0 < g.table_size ∧ g.table_size < 2147483648 ∧ g.table.length = g.table_size.toNat

instance (g : GSHARE) : Decidable g.SetUp := by
  unfold GSHARE.SetUp; infer_instance

/-- A `GSHARE` right after construction with the given parameters and `setup()`. -/
def GSHARE.fresh (history_length table_size : Int) : GSHARE :=
  (GSHARE.create history_length table_size).setup.2

/-- A `TOURNAMENT_PREDICTOR` whose three tables have the lengths the constructor
gives them. -/
def TOURNAMENT_PREDICTOR.Sized (t : TOURNAMENT_PREDICTOR) : Prop :=
  t.local_predictor_table.length = 1 <<< LOG_LOCAL_PREDICTOR_SIZE ∧
  t.global_predictor_table.length = 1 <<< LOG_GLOBAL_PREDICTOR_SIZE ∧
  t.chooser_table.length = 1 <<< LOG_CHOOSER_SIZE

instance (t : TOURNAMENT_PREDICTOR) : Decidable t.Sized := by
  unfold TOURNAMENT_PREDICTOR.Sized; infer_instance

/-- Every counter of a table lies in `[0, 3]`. -/
def counters_in_range (v : List Int) : Prop := ∀ x ∈ v, 0 ≤ x ∧ x ≤ 3

instance (v : List Int) : Decidable (counters_in_range v) := by
  unfold counters_in_range; infer_instance

/-- The identity a `GSHARE` call predicts or updates, when it has one. -/
def GCall.inst_id : GCall → Option Nat
  | .predict s p _ _ => (GSHARE.get_unique_inst_id s p).toOption
  | .update s p _ _ _ _ => (GSHARE.get_unique_inst_id s p).toOption
  | .history_update _ _ _ _ _ => none

/-- The table position that `GSHARE::get_index` yields when `table_size` is positive. -/
def GSHARE.position (g : GSHARE) (pc ghr : Nat) : Nat :=
  (ghr ^^^ (pc &&& (g.table_size.toNat - 1))) % g.table_size.toNat

/-! ## The harness protocol, stated on call sequences -/

/-- The identity a `predict` call stores a snapshot for. -/
def GCall.predict_id : GCall → Option Nat
  | .predict s p _ _ => (GSHARE.get_unique_inst_id s p).toOption
  | _ => none

/-- The identity an `update` call resolves. -/
def GCall.update_id : GCall → Option Nat
  | .update s p _ _ _ _ => (GSHARE.get_unique_inst_id s p).toOption
  | _ => none

/-- The `piece` argument of a `predict` or `update` call is below 16, so that the
call has an identity. -/
def GCall.piece_ok : GCall → Prop
  | .predict _ p _ _ => p < 16
  | .update _ p _ _ _ _ => p < 16
  | .history_update _ _ _ _ _ => True

instance (c : GCall) : Decidable c.piece_ok := by
  cases c <;> unfold GCall.piece_ok <;> infer_instance

/-- The identities predicted along a call sequence, one entry per `predict` call. -/
def predicted_ids (calls : List GCall) : List Nat := calls.filterMap GCall.predict_id

/-- The identities updated along a call sequence, one entry per `update` call. -/
def updated_ids (calls : List GCall) : List Nat := calls.filterMap GCall.update_id

/-- Every `update` of the sequence comes after a `predict` of the same identity: the
identity updated by the call at position `i` is among those predicted by the calls
before position `i`. -/
def predict_before_update (calls : List GCall) : Prop :=
  ∀ i, i < calls.length → ∀ id ∈ (calls[i]?).bind GCall.update_id,
    id ∈ predicted_ids (calls.take i)

instance (calls : List GCall) : Decidable (predict_before_update calls) := by
  unfold predict_before_update; infer_instance

/-- Two instructions in flight: `(1, 0)` is predicted, the history advances, `(2, 0)`
is predicted, then both are updated. -/
def GSHARE.two_in_flight : List GCall :=
  [.predict 1 0 5 false, .history_update 1 0 5 true 6, .predict 2 0 5 false,
   .update 1 0 5 true false 6, .update 2 0 5 false false 6]

/-! ## Call sequences up to the auxiliary hint -/

/-- The call with the auxiliary hint of `predict` replaced by `false`. -/
def BCall.erase_hint : BCall → BCall
  | .predict s p pc _ => .predict s p pc false
  | c => c

/-- The call with the auxiliary hint of `predict` replaced by `false`. -/
def GCall.erase_hint : GCall → GCall
  | .predict s p pc _ => .predict s p pc false
  | c => c

/-- The ledger without the stored hints: identity and history value of every entry. -/
def ledger_histories (m : List (Nat × SampleHist)) : List (Nat × Nat) :=
  m.map (fun e => (e.1, e.2.ghist))

/-- Two `GSHARE` states that agree on everything except the stored hints. -/
def GSHARE.hint_equiv (g1 g2 : GSHARE) : Prop :=
  g1.table = g2.table ∧ g1.history_length = g2.history_length ∧
  g1.table_size = g2.table_size ∧ g1.active_hist.ghist = g2.active_hist.ghist ∧
  ledger_histories g1.pred_time_histories = ledger_histories g2.pred_time_histories

/-- Two instructions in flight, as `GSHARE.two_in_flight`, with the other hint values. -/
def GSHARE.two_in_flight_hinted : List GCall :=
  [.predict 1 0 5 true, .history_update 1 0 5 true 6, .predict 2 0 5 true,
   .update 1 0 5 true false 6, .update 2 0 5 false false 6]

/-! ## The tournament predictor with a masked history register -/

/-- The variant of `update_predictor` that keeps the history register as the
specification describes it, for comparison with the source: `update_predictor` followed
by masking `ghr` to `GLOBAL_HISTORY_LENGTH` bits. -/
def TOURNAMENT_PREDICTOR.update_predictor_masked (t : TOURNAMENT_PREDICTOR) (pc : Nat)
    (taken pred : Bool) : Except Fault Unit × TOURNAMENT_PREDICTOR :=
  match t.update_predictor pc taken pred with
  | (.ok u, t1) => (.ok u, { t1 with ghr := t1.ghr &&& TOURNAMENT_PREDICTOR.history_mask })
  | (.error e, t1) => (.error e, t1)

/-- One call on the variant with the masked history register. -/
def TOURNAMENT_PREDICTOR.step_masked (t : TOURNAMENT_PREDICTOR) :
    TCall → Except Fault (Option Bool) × TOURNAMENT_PREDICTOR
  | .get_cond_dir_prediction pc => with_output (t.get_cond_dir_prediction pc)
  | .update_predictor pc d q => no_output (t.update_predictor_masked pc d q)

/-- A call sequence on the variant with the masked history register. -/
def TOURNAMENT_PREDICTOR.run_masked (t : TOURNAMENT_PREDICTOR) (cs : List TCall) :
    Run TOURNAMENT_PREDICTOR :=
  run_calls TOURNAMENT_PREDICTOR.step_masked t cs

/-! ## Concrete scenarios -/

/-- The shipped configuration `GSHARE cond_predictor_impl(12, 4096)` after `setup()`. -/
def GSHARE.shipped : GSHARE :=
  { table := List.replicate 4096 0, history_length := 12, table_size := 4096,
    active_hist := { ghist := 0, tage_pred := false }, pred_time_histories := [] }

/-- The shipped `GSHARE` after instruction `(seq_no, piece) = (1, 0)` at `PC = 5` has
been predicted with history `0` and the history has advanced by one taken branch. -/
def GSHARE.one_pending : GSHARE :=
  { GSHARE.shipped with
    active_hist := { ghist := 1, tage_pred := false },
    pred_time_histories := [(16, { ghist := 0, tage_pred := false })] }

/-- The calls that resolve one branch at address `0` alternately taken and not taken,
five times, starting with taken. -/
def TOURNAMENT_PREDICTOR.alternating_calls : List TCall :=
  [.update_predictor 0 true false, .update_predictor 0 false false,
   .update_predictor 0 true false, .update_predictor 0 false false,
   .update_predictor 0 true false]

/-- The state after the first of the alternating calls. -/
def TOURNAMENT_PREDICTOR.alternating_1 : TOURNAMENT_PREDICTOR :=
  { local_predictor_table := TOURNAMENT_PREDICTOR.create.local_predictor_table.set 0 2,
    global_predictor_table := TOURNAMENT_PREDICTOR.create.global_predictor_table.set 0 2,
    chooser_table := TOURNAMENT_PREDICTOR.create.chooser_table,
    ghr := 1 }

/-- The state after the second of the alternating calls. -/
def TOURNAMENT_PREDICTOR.alternating_2 : TOURNAMENT_PREDICTOR :=
  { local_predictor_table := TOURNAMENT_PREDICTOR.alternating_1.local_predictor_table.set 0 1,
    global_predictor_table := TOURNAMENT_PREDICTOR.alternating_1.global_predictor_table.set 1 0,
    chooser_table := TOURNAMENT_PREDICTOR.alternating_1.chooser_table.set 0 2,
    ghr := 2 }

/-- The state after the third of the alternating calls. -/
def TOURNAMENT_PREDICTOR.alternating_3 : TOURNAMENT_PREDICTOR :=
  { local_predictor_table := TOURNAMENT_PREDICTOR.alternating_2.local_predictor_table.set 0 2,
    global_predictor_table := TOURNAMENT_PREDICTOR.alternating_2.global_predictor_table.set 2 2,
    chooser_table := TOURNAMENT_PREDICTOR.alternating_2.chooser_table,
    ghr := 5 }

/-- The state after the fourth of the alternating calls. -/
def TOURNAMENT_PREDICTOR.alternating_4 : TOURNAMENT_PREDICTOR :=
  { local_predictor_table := TOURNAMENT_PREDICTOR.alternating_3.local_predictor_table.set 0 1,
    global_predictor_table := TOURNAMENT_PREDICTOR.alternating_3.global_predictor_table.set 5 0,
    chooser_table := TOURNAMENT_PREDICTOR.alternating_3.chooser_table.set 0 3,
    ghr := 10 }

/-- The state after the five alternating calls: the chooser counter of address `0` is
saturated at `3`, the local counter of address `0` predicts taken and the global
counter selected by the history predicts not-taken. -/
def TOURNAMENT_PREDICTOR.alternating_5 : TOURNAMENT_PREDICTOR :=
  { local_predictor_table := TOURNAMENT_PREDICTOR.alternating_4.local_predictor_table.set 0 2,
    global_predictor_table := TOURNAMENT_PREDICTOR.alternating_4.global_predictor_table.set 10 2,
    chooser_table := TOURNAMENT_PREDICTOR.alternating_4.chooser_table,
    ghr := 21 }

/-- A tournament state in which the chooser counter of address `0` is `1`, the local
counter of address `0` predicts not-taken and the global counter selected by the
history `1` predicts taken. -/
def TOURNAMENT_PREDICTOR.disagreeing : TOURNAMENT_PREDICTOR :=
  { local_predictor_table := List.replicate 16384 1,
    global_predictor_table := (List.replicate 16384 1).set 1 2,
    chooser_table := List.replicate 16384 1,
    ghr := 1 }

/-- The shipped configuration `BHTPredictor cond_predictor_impl(1024)`. -/
def BHTPredictor.shipped : BHTPredictor := { table := List.replicate 1024 0 }

/-- The value of `(ghr << 1) | taken` computed in 64 bits, the assignment at the end of
`update_predictor`. -/
def TOURNAMENT_PREDICTOR.shifted_history (ghr : Nat) (taken : Bool) : Nat :=
  ((ghr * 2) % 18446744073709551616) ||| (if taken then 1 else 0)

/-- The history register after a call sequence, from the register before it: every
`update_predictor` applies `shifted_history`, a prediction leaves it. -/
def TOURNAMENT_PREDICTOR.history_after (ghr : Nat) : List TCall → Nat
  | [] => ghr
  | .get_cond_dir_prediction _ :: cs => TOURNAMENT_PREDICTOR.history_after ghr cs
  | .update_predictor _ taken _ :: cs =>
    TOURNAMENT_PREDICTOR.history_after (TOURNAMENT_PREDICTOR.shifted_history ghr taken) cs

/-- Thirteen taken resolutions of the branch at address `0`. -/
def TOURNAMENT_PREDICTOR.thirteen_taken : List TCall :=
  List.replicate 13 (.update_predictor 0 true false)

/-- The call is a prediction (`get_cond_dir_prediction`), not a resolution. -/
def TCall.is_prediction : TCall → Bool
  | .get_cond_dir_prediction _ => true
  | .update_predictor _ _ _ => false

/-- The constructed predictor after `update_predictor(2, true, _)`: the branch at
address `2` has resolved taken, so `ghr` is `1`. -/
def TOURNAMENT_PREDICTOR.after_other_branch : TOURNAMENT_PREDICTOR :=
  { local_predictor_table := TOURNAMENT_PREDICTOR.create.local_predictor_table.set 2 2,
    global_predictor_table := TOURNAMENT_PREDICTOR.create.global_predictor_table.set 2 2,
    chooser_table := TOURNAMENT_PREDICTOR.create.chooser_table,
    ghr := 1 }

/-! ## Machine integers and vectors: lemmas -/

theorem u64_of_int_natCast (n : Nat) (h : n < 18446744073709551616) :
    u64_of_int (n : Int) = n := by
  unfold u64_of_int
  omega

theorem int_of_u64_small (n : Nat) (h : n < 2147483648) : int_of_u64 n = (n : Int) := by
  unfold int_of_u64
  have h1 : n % 4294967296 = n := Nat.mod_eq_of_lt (by omega)
  rw [h1, if_pos h]

theorem vec_read_of_lt (v : List Int) (i : Nat) (h : i < v.length) :
    vec_read v i = .ok (v.getD i 0) := by
  simp [vec_read, List.getD_eq_getElem?_getD, List.getElem?_eq_getElem h]

theorem vec_modify_of_lt (v : List Int) (i : Nat) (f : Int → Int) (h : i < v.length) :
    vec_modify v i f = .ok (v.set i (f (v.getD i 0))) := by
  simp [vec_modify, List.getD_eq_getElem?_getD, List.getElem?_eq_getElem h]

theorem getD_of_getElem? (v : List Int) (i : Nat) (x : Int) (h : v[i]? = some x) :
    v.getD i 0 = x := by
  simp [List.getD_eq_getElem?_getD, h]

/-! ## GShare: index, ledger and member functions on a set-up table -/

theorem GSHARE.position_lt (g : GSHARE) (hs : g.SetUp) (pc ghr : Nat) :
    g.position pc ghr < g.table.length := by
  obtain ⟨h0, h1, h2⟩ := hs
  rw [h2]
  exact Nat.mod_lt _ (by omega)

/-- Under `SetUp` the index is `(ghr ^ (pc & (table_size - 1))) % table_size` without
any wrap-around in the conversions. -/
theorem GSHARE.get_index_of_setUp (g : GSHARE) (hs : g.SetUp) (pc ghr : Nat) :
    g.get_index pc ghr = .ok (g.position pc ghr : Int) ∧
      u64_of_int (g.position pc ghr : Int) = g.position pc ghr := by
  have hlt := g.position_lt hs pc ghr
  obtain ⟨h0, h1, h2⟩ := hs
  have e1 : u64_of_int g.table_size = g.table_size.toNat := by
    unfold u64_of_int; omega
  have e2 : u64_of_int (g.table_size - 1) = g.table_size.toNat - 1 := by
    unfold u64_of_int; omega
  constructor
  · unfold GSHARE.get_index
    simp only [e1, e2]
    rw [if_neg (by omega)]
    have : g.position pc ghr < 2147483648 := by omega
    unfold GSHARE.position at this ⊢
    rw [int_of_u64_small _ this]
  · apply u64_of_int_natCast
    omega

theorem map_erase_cons (k' : Nat) (v : SampleHist) (rest : List (Nat × SampleHist)) (k : Nat) :
    map_erase ((k', v) :: rest) k =
      if k' = k then map_erase rest k else (k', v) :: map_erase rest k := by
  by_cases h : k' = k <;> simp [map_erase, h]

theorem map_at_cons (k' : Nat) (v : SampleHist) (rest : List (Nat × SampleHist)) (k : Nat) :
    map_at ((k', v) :: rest) k = if k' = k then some v else map_at rest k := rfl

theorem map_at_erase_self (m : List (Nat × SampleHist)) (k : Nat) :
    map_at (map_erase m k) k = none := by
  induction m with
  | nil => rfl
  | cons e rest ih =>
    obtain ⟨k', v⟩ := e
    rw [map_erase_cons]
    by_cases h : k' = k
    · rw [if_pos h]; exact ih
    · rw [if_neg h, map_at_cons, if_neg h]; exact ih

theorem map_at_erase_other (m : List (Nat × SampleHist)) (k j : Nat) (h : j ≠ k) :
    map_at (map_erase m k) j = map_at m j := by
  induction m with
  | nil => rfl
  | cons e rest ih =>
    obtain ⟨k', v⟩ := e
    rw [map_erase_cons, map_at_cons]
    by_cases hk : k' = k
    · have hj : ¬ k' = j := fun e => h (e ▸ hk ▸ rfl)
      rw [if_pos hk, if_neg hj]; exact ih
    · rw [if_neg hk, map_at_cons]
      by_cases hj : k' = j
      · rw [if_pos hj, if_pos hj]
      · rw [if_neg hj, if_neg hj]; exact ih

theorem map_at_emplace_self (m : List (Nat × SampleHist)) (k : Nat) (v : SampleHist)
    (h : map_at m k = none) : map_at (map_emplace m k v) k = some v := by
  simp [map_emplace, h, map_at]

theorem map_at_emplace_other (m : List (Nat × SampleHist)) (k j : Nat) (v : SampleHist)
    (h : j ≠ k) : map_at (map_emplace m k v) j = map_at m j := by
  unfold map_emplace
  cases hm : map_at m k with
  | some w => rfl
  | none =>
    have hk : ¬ k = j := fun e => h e.symm
    simp [map_at, hk]

theorem map_at_eq_none_iff (m : List (Nat × SampleHist)) (k : Nat) :
    map_at m k = none ↔ k ∉ map_keys m := by
  induction m with
  | nil => simp [map_at, map_keys]
  | cons e rest ih =>
    obtain ⟨k', v⟩ := e
    by_cases h : k' = k
    · simp [map_at, map_keys, h]
    · have h' : ¬ k = k' := fun e => h e.symm
      simp only [map_at, h, if_false, ih, map_keys, List.map_cons, List.mem_cons, h', false_or]

/-- On a set-up table `predict` completes: it stores the hint, emplaces the live
history under the identity and returns the threshold test of the counter at the
position of the live history. -/
theorem GSHARE.predict_of_setUp (g : GSHARE) (hs : g.SetUp) (seq_no piece PC : Nat)
    (tage_pred : Bool) (id : Nat) (hid : GSHARE.get_unique_inst_id seq_no piece = .ok id) :
    g.predict seq_no piece PC tage_pred =
      (.ok (decide (g.table.getD (g.position PC g.active_hist.ghist) 0 ≥ 2)),
       { g with
         active_hist := { g.active_hist with tage_pred := tage_pred },
         pred_time_histories := map_emplace g.pred_time_histories id
           { g.active_hist with tage_pred := tage_pred } }) := by
  have hlt := g.position_lt hs PC g.active_hist.ghist
  obtain ⟨hidx, hu⟩ := g.get_index_of_setUp hs PC g.active_hist.ghist
  have hidx1 : ∀ (a : SampleHist) (l : List (Nat × SampleHist)),
      GSHARE.get_index { g with active_hist := a, pred_time_histories := l } PC
        g.active_hist.ghist = .ok (g.position PC g.active_hist.ghist : Int) :=
    fun _ _ => hidx
  unfold GSHARE.predict
  simp only [hid, hidx1, hu, vec_read_of_lt _ _ hlt]

/-- With a history length in `0 .. 63` the member `history_update` completes and
only rewrites the live history value. -/
theorem GSHARE.history_update_of_valid (g : GSHARE) (h0 : 0 ≤ g.history_length)
    (h1 : g.history_length < 64) (seq_no piece PC : Nat) (taken : Bool) (nextPC : Nat) :
    g.history_update seq_no piece PC taken nextPC =
      (.ok (), { g with active_hist := { g.active_hist with
        ghist := (if taken then (g.active_hist.ghist * 2) % 18446744073709551616 ||| 1
                  else (g.active_hist.ghist * 2) % 18446744073709551616) &&&
                 (2 ^ g.history_length.toNat - 1) } }) := by
  unfold GSHARE.history_update
  simp only [h0, h1, and_self, if_true]

/-- On a set-up table the internal update completes and rewrites exactly the counter
at the position of the history it is given. -/
theorem GSHARE.update_internal_of_setUp (g : GSHARE) (hs : g.SetUp) (PC : Nat)
    (resolveDir pred_taken : Bool) (nextPC : Nat) (h : SampleHist) :
    g.update_internal PC resolveDir pred_taken nextPC h =
      (.ok (),
       { g with
         table := g.table.set (g.position PC h.ghist)
           (counter_update resolveDir (g.table.getD (g.position PC h.ghist) 0)) }) := by
  have hlt := g.position_lt hs PC h.ghist
  obtain ⟨hidx, hu⟩ := g.get_index_of_setUp hs PC h.ghist
  unfold GSHARE.update_internal
  simp only [hidx, hu, vec_modify_of_lt _ _ _ hlt]

/-- On a set-up table, `update` for an identity with snapshot `h` completes: it
rewrites the counter at the position of the snapshot history and erases the snapshot. -/
theorem GSHARE.update_of_setUp (g : GSHARE) (hs : g.SetUp) (seq_no piece PC : Nat)
    (resolveDir predDir : Bool) (nextPC id : Nat) (h : SampleHist)
    (hid : GSHARE.get_unique_inst_id seq_no piece = .ok id)
    (hm : map_at g.pred_time_histories id = some h) :
    g.update seq_no piece PC resolveDir predDir nextPC =
      (.ok (), { g with
        table := g.table.set (g.position PC h.ghist)
          (counter_update resolveDir (g.table.getD (g.position PC h.ghist) 0)),
        pred_time_histories := map_erase g.pred_time_histories id }) := by
  unfold GSHARE.update
  simp only [hid, hm, g.update_internal_of_setUp hs]

/-- Without a snapshot for the identity, `update` throws and changes nothing. -/
theorem GSHARE.update_of_absent (g : GSHARE) (seq_no piece PC : Nat)
    (resolveDir predDir : Bool) (nextPC id : Nat)
    (hid : GSHARE.get_unique_inst_id seq_no piece = .ok id)
    (hm : map_at g.pred_time_histories id = none) :
    g.update seq_no piece PC resolveDir predDir nextPC = (.error .out_of_range, g) := by
  unfold GSHARE.update
  simp only [hid, hm]

theorem GSHARE.shipped_setUp : GSHARE.shipped.SetUp := by
  refine ⟨by decide, by decide, ?_⟩
  simp only [GSHARE.shipped, List.length_replicate]
  decide

theorem GSHARE.one_pending_setUp : GSHARE.one_pending.SetUp := GSHARE.shipped_setUp

theorem GSHARE.shipped_eq_fresh : GSHARE.fresh 12 4096 = GSHARE.shipped := by
  have h : vec_resize [] 4096 0 = .ok (List.replicate 4096 0) := by
    unfold vec_resize
    rw [if_pos (by decide)]
    rfl
  unfold GSHARE.fresh GSHARE.setup GSHARE.create
  simp only [h]
  rfl

theorem GSHARE.one_pending_reached :
    (GSHARE.shipped.run [.predict 1 0 5 false, .history_update 1 0 5 true 6]).state
      = GSHARE.one_pending := by
  have h1 := GSHARE.shipped.predict_of_setUp GSHARE.shipped_setUp 1 0 5 false 16 (by decide)
  simp only [GSHARE.run, run_calls, GSHARE.step, with_output, no_output, h1, Except.map]
  rw [GSHARE.history_update_of_valid _ (by decide) (by decide)]
  simp only [GSHARE.one_pending, GSHARE.shipped, map_emplace, map_at]
  rfl

theorem GSHARE.shipped_getD (i : Nat) : GSHARE.shipped.table.getD i 0 = 0 := by
  simp only [GSHARE.shipped, List.getD_eq_getElem?_getD, List.getElem?_replicate]
  split <;> rfl

theorem getElem?_of_lt_getD (v : List Int) (i : Nat) (h : i < v.length) :
    v[i]? = some (v.getD i 0) := by
  simp [List.getD_eq_getElem?_getD, List.getElem?_eq_getElem h]

/-! ## Claims on the GShare ledger protocol -/

/-- C2: when the identity of `(seq_no, piece)` has no pending snapshot, `GSHARE::update`
raises `std::out_of_range` (thrown by `pred_time_histories.at`) and leaves the whole
object, in particular the counter table, the live history and the ledger, as it was;
when the identity has a pending snapshot and the table is set up with a positive
`table_size`, `update` completes without fault. -/
theorem GSHARE.update_requires_snapshot (g : GSHARE) (seq_no piece PC : Nat)
    (resolveDir predDir : Bool) (nextPC id : Nat)
    (hid : GSHARE.get_unique_inst_id seq_no piece = .ok id) :
    (map_at g.pred_time_histories id = none →
      g.update seq_no piece PC resolveDir predDir nextPC = (.error .out_of_range, g)) ∧
    (map_at g.pred_time_histories id ≠ none → g.SetUp →
      ∃ g1, g.update seq_no piece PC resolveDir predDir nextPC = (.ok (), g1)) := by
  constructor
  · exact g.update_of_absent seq_no piece PC resolveDir predDir nextPC id hid
  · intro hsome hs
    cases hm : map_at g.pred_time_histories id with
    | none => exact absurd hm hsome
    | some h =>
      exact ⟨_, g.update_of_setUp hs seq_no piece PC resolveDir predDir nextPC id h hid hm⟩

/-- Witness of C2 on the shipped configuration: updating the never-predicted
instruction `(1, 0)` raises `std::out_of_range` and changes nothing, and updating it
once it is pending completes. -/
theorem GSHARE.update_requires_snapshot_witness :
    GSHARE.shipped.update 1 0 5 true false 6 = (.error .out_of_range, GSHARE.shipped) ∧
    ∃ g1, GSHARE.one_pending.update 1 0 5 true false 6 = (.ok (), g1) :=
  ⟨(GSHARE.update_requires_snapshot GSHARE.shipped 1 0 5 true false 6 16 (by decide)).1
      (by decide),
   (GSHARE.update_requires_snapshot GSHARE.one_pending 1 0 5 true false 6 16 (by decide)).2
      (by decide) GSHARE.one_pending_setUp⟩

/-- C3 (as amended): a `predict` for an identity that already has a pending snapshot
is not rejected.  On a set-up table it returns the threshold test of the counter at
the index of the live history, records the hint in `active_hist.tage_pred` and leaves
the ledger exactly as it was, so the snapshot of the first `predict` is the one that
stays. -/
theorem GSHARE.predict_pending_keeps_snapshot (g : GSHARE) (seq_no piece PC : Nat)
    (tage_pred : Bool) (id : Nat) (hs : g.SetUp)
    (hid : GSHARE.get_unique_inst_id seq_no piece = .ok id)
    (hp : map_at g.pred_time_histories id ≠ none) :
    ∃ (i : Nat) (c : Int),
      g.get_index PC g.active_hist.ghist = .ok (i : Int) ∧ g.table[i]? = some c ∧
      g.predict seq_no piece PC tage_pred =
        (.ok (decide (c ≥ 2)),
         { g with active_hist := { g.active_hist with tage_pred := tage_pred } }) := by
  refine ⟨g.position PC g.active_hist.ghist, g.table.getD (g.position PC g.active_hist.ghist) 0,
    (g.get_index_of_setUp hs PC g.active_hist.ghist).1,
    getElem?_of_lt_getD _ _ (g.position_lt hs PC g.active_hist.ghist), ?_⟩
  rw [g.predict_of_setUp hs seq_no piece PC tage_pred id hid]
  cases hm : map_at g.pred_time_histories id with
  | none => exact absurd hm hp
  | some h0 => simp only [map_emplace, hm]

/-- Witness of C3 (as amended) on the shipped configuration with `(1, 0)` pending. -/
theorem GSHARE.predict_pending_keeps_snapshot_witness :
    ∃ (i : Nat) (c : Int),
      GSHARE.one_pending.get_index 5 GSHARE.one_pending.active_hist.ghist = .ok (i : Int) ∧
      GSHARE.one_pending.table[i]? = some c ∧
      GSHARE.one_pending.predict 1 0 5 true =
        (.ok (decide (c ≥ 2)),
         { GSHARE.one_pending with
           active_hist := { GSHARE.one_pending.active_hist with tage_pred := true } }) :=
  GSHARE.predict_pending_keeps_snapshot GSHARE.one_pending 1 0 5 true 16
    GSHARE.one_pending_setUp (by decide) (by decide)

/-- Counterexample to C3 as stated: the shipped configuration, after `predict(1, 0)`
and one `history_update(taken)`, has `(1, 0)` pending since history `0` and the live
history `1`; a second `predict` for `(1, 0)` completes and returns a prediction, and
the snapshot stored for `(1, 0)` still holds history `0`, not the history `1` that
this `predict` used. -/
theorem GSHARE.second_predict_not_rejected :
    GSHARE.fresh 12 4096 = GSHARE.shipped ∧
    (GSHARE.shipped.run [.predict 1 0 5 false, .history_update 1 0 5 true 6]).state
      = GSHARE.one_pending ∧
    GSHARE.get_unique_inst_id 1 0 = .ok 16 ∧
    map_at GSHARE.one_pending.pred_time_histories 16 = some ⟨0, false⟩ ∧
    GSHARE.one_pending.active_hist.ghist = 1 ∧
    GSHARE.one_pending.predict 1 0 5 false = (.ok false, GSHARE.one_pending) := by
  refine ⟨GSHARE.shipped_eq_fresh, GSHARE.one_pending_reached, by decide, by decide,
    by decide, ?_⟩
  rw [GSHARE.one_pending.predict_of_setUp GSHARE.one_pending_setUp 1 0 5 false 16 (by decide)]
  have h : GSHARE.one_pending.table.getD
      (GSHARE.one_pending.position 5 GSHARE.one_pending.active_hist.ghist) 0 = 0 :=
    GSHARE.shipped_getD _
  rw [h]
  rfl

/-! ## Call sequences: unfolding lemmas -/

theorem run_calls_nil {σ κ : Type} (step : σ → κ → Except Fault (Option Bool) × σ) (s : σ) :
    run_calls step s [] = { outputs := [], fault := none, state := s } := rfl

theorem run_calls_cons_ok {σ κ : Type} (step : σ → κ → Except Fault (Option Bool) × σ)
    (s s1 : σ) (c : κ) (cs : List κ) (o : Option Bool) (h : step s c = (.ok o, s1)) :
    run_calls step s (c :: cs) =
      { outputs := o.toList ++ (run_calls step s1 cs).outputs,
        fault := (run_calls step s1 cs).fault,
        state := (run_calls step s1 cs).state } := by
  simp only [run_calls, h]

theorem run_calls_cons_error {σ κ : Type} (step : σ → κ → Except Fault (Option Bool) × σ)
    (s s1 : σ) (c : κ) (cs : List κ) (e : Fault) (h : step s c = (.error e, s1)) :
    run_calls step s (c :: cs) = { outputs := [], fault := some e, state := s1 } := by
  simp only [run_calls, h]

/-- A sequence that ran without fault splits into two runs without fault. -/
theorem run_calls_append {σ κ : Type} (step : σ → κ → Except Fault (Option Bool) × σ)
    (s : σ) (xs ys : List κ) (h : (run_calls step s xs).fault = none) :
    (run_calls step s (xs ++ ys)).fault = (run_calls step (run_calls step s xs).state ys).fault ∧
    (run_calls step s (xs ++ ys)).state = (run_calls step (run_calls step s xs).state ys).state := by
  induction xs generalizing s with
  | nil => exact ⟨rfl, rfl⟩
  | cons c cs ih =>
    rcases hc : step s c with ⟨r, s1⟩
    cases r with
    | error e =>
      rw [run_calls_cons_error step s s1 c cs e hc] at h
      exact absurd h (by simp)
    | ok o =>
      rw [run_calls_cons_ok step s s1 c cs o hc] at h
      have := ih s1 h
      rw [List.cons_append, run_calls_cons_ok step s s1 c (cs ++ ys) o hc,
        run_calls_cons_ok step s s1 c cs o hc]
      exact this

/-! ## GShare: keys of the ledger -/

theorem map_keys_emplace (m : List (Nat × SampleHist)) (k : Nat) (v : SampleHist)
    (h : k ∉ map_keys m) : map_keys (map_emplace m k v) = k :: map_keys m := by
  have hn := (map_at_eq_none_iff m k).mpr h
  simp [map_emplace, hn, map_keys]

theorem map_keys_erase (m : List (Nat × SampleHist)) (k : Nat) :
    map_keys (map_erase m k) = (map_keys m).filter (fun j => decide (j ≠ k)) := by
  induction m with
  | nil => rfl
  | cons e rest ih =>
    obtain ⟨k', v⟩ := e
    rw [map_erase_cons]
    by_cases h : k' = k
    · rw [if_pos h, ih]
      simp [map_keys, h]
    · rw [if_neg h]
      simp only [map_keys, List.map_cons] at ih ⊢
      rw [ih]
      simp [h]

theorem mem_map_keys_erase (m : List (Nat × SampleHist)) (k j : Nat) :
    j ∈ map_keys (map_erase m k) ↔ j ∈ map_keys m ∧ j ≠ k := by
  rw [map_keys_erase]
  simp

theorem nodup_map_keys_erase (m : List (Nat × SampleHist)) (k : Nat)
    (h : (map_keys m).Nodup) : (map_keys (map_erase m k)).Nodup := by
  rw [map_keys_erase]
  exact h.filter _

/-! ## GShare: what every step preserves -/

theorem vec_modify_length (v w : List Int) (i : Nat) (f : Int → Int)
    (h : vec_modify v i f = .ok w) : w.length = v.length := by
  unfold vec_modify at h
  split at h
  · cases h; simp
  · cases h

theorem GSHARE.predict_frame (g : GSHARE) (seq_no piece PC : Nat) (tage_pred : Bool) :
    (g.predict seq_no piece PC tage_pred).2.table = g.table ∧
    (g.predict seq_no piece PC tage_pred).2.table_size = g.table_size ∧
    (g.predict seq_no piece PC tage_pred).2.history_length = g.history_length ∧
    (g.predict seq_no piece PC tage_pred).2.active_hist.ghist = g.active_hist.ghist := by
  unfold GSHARE.predict
  split
  · exact ⟨rfl, rfl, rfl, rfl⟩
  · dsimp only
    split
    · exact ⟨rfl, rfl, rfl, rfl⟩
    · split <;> exact ⟨rfl, rfl, rfl, rfl⟩

theorem GSHARE.history_update_frame (g : GSHARE) (seq_no piece PC : Nat) (taken : Bool)
    (nextPC : Nat) :
    (g.history_update seq_no piece PC taken nextPC).2.table = g.table ∧
    (g.history_update seq_no piece PC taken nextPC).2.table_size = g.table_size ∧
    (g.history_update seq_no piece PC taken nextPC).2.history_length = g.history_length ∧
    (g.history_update seq_no piece PC taken nextPC).2.pred_time_histories
      = g.pred_time_histories := by
  unfold GSHARE.history_update
  dsimp only
  split <;> exact ⟨rfl, rfl, rfl, rfl⟩

theorem GSHARE.update_internal_frame (g : GSHARE) (PC : Nat) (resolveDir pred_taken : Bool)
    (nextPC : Nat) (h : SampleHist) :
    (g.update_internal PC resolveDir pred_taken nextPC h).2.table.length = g.table.length ∧
    (g.update_internal PC resolveDir pred_taken nextPC h).2.table_size = g.table_size ∧
    (g.update_internal PC resolveDir pred_taken nextPC h).2.history_length
      = g.history_length ∧
    (g.update_internal PC resolveDir pred_taken nextPC h).2.active_hist = g.active_hist ∧
    (g.update_internal PC resolveDir pred_taken nextPC h).2.pred_time_histories
      = g.pred_time_histories := by
  unfold GSHARE.update_internal
  split
  · exact ⟨rfl, rfl, rfl, rfl, rfl⟩
  · split
    · exact ⟨rfl, rfl, rfl, rfl, rfl⟩
    · rename_i t ht
      exact ⟨vec_modify_length _ _ _ _ ht, rfl, rfl, rfl, rfl⟩

theorem GSHARE.update_frame (g : GSHARE) (seq_no piece PC : Nat) (resolveDir predDir : Bool)
    (nextPC : Nat) :
    (g.update seq_no piece PC resolveDir predDir nextPC).2.table.length = g.table.length ∧
    (g.update seq_no piece PC resolveDir predDir nextPC).2.table_size = g.table_size ∧
    (g.update seq_no piece PC resolveDir predDir nextPC).2.history_length
      = g.history_length ∧
    (g.update seq_no piece PC resolveDir predDir nextPC).2.active_hist = g.active_hist := by
  unfold GSHARE.update
  split
  · exact ⟨rfl, rfl, rfl, rfl⟩
  · split
    · exact ⟨rfl, rfl, rfl, rfl⟩
    · rename_i key _ hist _
      have hf := g.update_internal_frame PC resolveDir predDir nextPC hist
      split
      · rename_i e g1 he
        rw [he] at hf
        exact ⟨hf.1, hf.2.1, hf.2.2.1, hf.2.2.2.1⟩
      · rename_i u g1 he
        rw [he] at hf
        exact ⟨hf.1, hf.2.1, hf.2.2.1, hf.2.2.2.1⟩

/-- No call changes `table_size`, `history_length` or the length of the table. -/
theorem GSHARE.step_frame (g : GSHARE) (c : GCall) :
    (g.step c).2.table.length = g.table.length ∧
    (g.step c).2.table_size = g.table_size ∧
    (g.step c).2.history_length = g.history_length := by
  cases c with
  | predict s p pc h =>
    have hf := g.predict_frame s p pc h
    exact ⟨congrArg List.length hf.1, hf.2.1, hf.2.2.1⟩
  | history_update s p pc d n =>
    have hf := g.history_update_frame s p pc d n
    exact ⟨congrArg List.length hf.1, hf.2.1, hf.2.2.1⟩
  | update s p pc d q n =>
    have hf := g.update_frame s p pc d q n
    exact ⟨hf.1, hf.2.1, hf.2.2.1⟩

theorem GSHARE.step_setUp (g : GSHARE) (c : GCall) (hs : g.SetUp) : (g.step c).2.SetUp := by
  obtain ⟨h1, h2, h3⟩ := g.step_frame c
  obtain ⟨a, b, d⟩ := hs
  exact ⟨h2 ▸ a, h2 ▸ b, by rw [h1, h2]; exact d⟩

theorem GSHARE.get_unique_inst_id_of_lt (seq_no piece : Nat) (h : piece < 16) :
    GSHARE.get_unique_inst_id seq_no piece
      = .ok (((seq_no * 16) % 18446744073709551616) ||| (piece &&& 15)) := by
  unfold GSHARE.get_unique_inst_id
  rw [if_pos h]

/-! ## GShare: the ledger along a call sequence -/

theorem predicted_ids_cons (c : GCall) (cs : List GCall) :
    predicted_ids (c :: cs) = c.predict_id.toList ++ predicted_ids cs := by
  unfold predicted_ids
  rw [List.filterMap_cons]
  cases c.predict_id <;> rfl

theorem updated_ids_cons (c : GCall) (cs : List GCall) :
    updated_ids (c :: cs) = c.update_id.toList ++ updated_ids cs := by
  unfold updated_ids
  rw [List.filterMap_cons]
  cases c.update_id <;> rfl

theorem predicted_ids_append (xs ys : List GCall) :
    predicted_ids (xs ++ ys) = predicted_ids xs ++ predicted_ids ys := by
  unfold predicted_ids
  exact List.filterMap_append _ _ _

theorem updated_ids_append (xs ys : List GCall) :
    updated_ids (xs ++ ys) = updated_ids xs ++ updated_ids ys := by
  unfold updated_ids
  exact List.filterMap_append _ _ _

theorem GSHARE.step_predict (g : GSHARE) (hs : g.SetUp) (s p pc : Nat) (h : Bool) (id : Nat)
    (hid : GSHARE.get_unique_inst_id s p = .ok id) :
    g.step (.predict s p pc h) =
      (.ok (some (decide (g.table.getD (g.position pc g.active_hist.ghist) 0 ≥ 2))),
       { g with
         active_hist := { g.active_hist with tage_pred := h },
         pred_time_histories := map_emplace g.pred_time_histories id
           { g.active_hist with tage_pred := h } }) := by
  simp only [GSHARE.step, with_output, g.predict_of_setUp hs s p pc h id hid, Except.map]

theorem GSHARE.step_history_update (g : GSHARE) (h0 : 0 ≤ g.history_length)
    (h1 : g.history_length < 64) (s p pc : Nat) (d : Bool) (n : Nat) :
    g.step (.history_update s p pc d n) =
      (.ok none, (g.history_update s p pc d n).2) := by
  simp only [GSHARE.step, no_output, g.history_update_of_valid h0 h1, Except.map]

theorem GSHARE.step_update (g : GSHARE) (hs : g.SetUp) (s p pc : Nat) (d q : Bool)
    (n id : Nat) (h : SampleHist) (hid : GSHARE.get_unique_inst_id s p = .ok id)
    (hm : map_at g.pred_time_histories id = some h) :
    g.step (.update s p pc d q n) =
      (.ok none,
       { g with
         table := g.table.set (g.position pc h.ghist)
           (counter_update d (g.table.getD (g.position pc h.ghist) 0)),
         pred_time_histories := map_erase g.pred_time_histories id }) := by
  simp only [GSHARE.step, no_output, g.update_of_setUp hs s p pc d q n id h hid hm, Except.map]

/-- The ledger invariant, from any set-up state: a sequence that follows the protocol
relative to the identities already pending runs without fault, and afterwards the keys
of the ledger are, without repetition, the identities that were pending or have been
predicted and have not been updated. -/
theorem GSHARE.run_ledger (calls : List GCall) : ∀ (g : GSHARE), g.SetUp →
    0 ≤ g.history_length → g.history_length < 64 →
    (map_keys g.pred_time_histories).Nodup →
    (∀ c ∈ calls, c.piece_ok) →
    (predicted_ids calls).Nodup →
    (∀ id ∈ predicted_ids calls, id ∉ map_keys g.pred_time_histories) →
    (updated_ids calls).Nodup →
    (∀ (before after : List GCall) (c : GCall) (id : Nat),
      calls = before ++ c :: after → c.update_id = some id →
      id ∈ map_keys g.pred_time_histories ∨ id ∈ predicted_ids before) →
    (g.run calls).fault = none ∧
    (map_keys (g.run calls).state.pred_time_histories).Nodup ∧
    ∀ id, id ∈ map_keys (g.run calls).state.pred_time_histories ↔
      (id ∈ map_keys g.pred_time_histories ∨ id ∈ predicted_ids calls) ∧
        id ∉ updated_ids calls := by
  induction calls with
  | nil =>
    intro g _ _ _ hk _ _ _ _ _
    refine ⟨rfl, hk, ?_⟩
    intro id
    simp [GSHARE.run, run_calls, predicted_ids, updated_ids]
  | cons c cs ih =>
    intro g hs h0 h1 hk hpiece hpn hpf hun hord
    have hpiece_cs : ∀ c' ∈ cs, c'.piece_ok := fun c' hc' => hpiece c' (List.mem_cons_of_mem _ hc')
    have hord_c := hord [] cs c
    rw [predicted_ids_cons] at hpn hpf
    rw [updated_ids_cons] at hun
    cases c with
    | predict s p pc h =>
      have hp : p < 16 := hpiece _ (List.mem_cons_self _ _)
      have hid := GSHARE.get_unique_inst_id_of_lt s p hp
      generalize ((s * 16) % 18446744073709551616) ||| (p &&& 15) = id at hid
      have hpid : (GCall.predict s p pc h).predict_id = some id := by
        simp [GCall.predict_id, hid, Except.toOption]
      have huid : (GCall.predict s p pc h).update_id = none := rfl
      rw [hpid] at hpn hpf
      rw [huid] at hun
      simp only [Option.toList, List.cons_append, List.nil_append] at hpn hpf hun
      have hfresh : id ∉ map_keys g.pred_time_histories := hpf id (List.mem_cons_self _ _)
      have hstep := g.step_predict hs s p pc h id hid
      have hs1 := g.step_setUp (.predict s p pc h) hs
      rw [hstep] at hs1
      have hkeys := map_keys_emplace g.pred_time_histories id
        { g.active_hist with tage_pred := h } hfresh
      obtain ⟨r1, r2, r3⟩ := ih _ hs1 h0 h1
        (by rw [hkeys]; exact List.nodup_cons.mpr ⟨hfresh, hk⟩)
        hpiece_cs (List.nodup_cons.mp hpn).2
        (by
          intro j hj
          rw [hkeys]
          intro hmem
          rcases List.mem_cons.mp hmem with e | e
          · exact (List.nodup_cons.mp hpn).1 (e ▸ hj)
          · exact hpf j (List.mem_cons_of_mem _ hj) e)
        hun
        (by
          intro before after c' j hsplit hc'
          have := hord (GCall.predict s p pc h :: before) after c' j
            (by rw [hsplit]; rfl) hc'
          rw [predicted_ids_cons, hpid] at this
          rw [hkeys]
          simp only [Option.toList, List.cons_append, List.nil_append, List.mem_cons] at this ⊢
          tauto)
      simp only [GSHARE.run] at r1 r2 r3 ⊢
      rw [run_calls_cons_ok _ _ _ _ _ _ hstep]
      refine ⟨r1, r2, ?_⟩
      intro j
      rw [r3 j, hkeys, predicted_ids_cons, updated_ids_cons, hpid, huid]
      simp only [Option.toList, List.cons_append, List.nil_append, List.mem_cons]
      tauto
    | history_update s p pc d n =>
      have hpid : (GCall.history_update s p pc d n).predict_id = none := rfl
      have huid : (GCall.history_update s p pc d n).update_id = none := rfl
      rw [hpid] at hpn hpf
      rw [huid] at hun
      simp only [Option.toList, List.nil_append] at hpn hpf hun
      have hstep := g.step_history_update h0 h1 s p pc d n
      have hs1 := g.step_setUp (.history_update s p pc d n) hs
      rw [hstep] at hs1
      have hf := g.history_update_frame s p pc d n
      obtain ⟨r1, r2, r3⟩ := ih _ hs1 (hf.2.2.1 ▸ h0) (hf.2.2.1 ▸ h1)
        (by rw [hf.2.2.2]; exact hk) hpiece_cs hpn
        (by rw [hf.2.2.2]; exact hpf) hun
        (by
          intro before after c' j hsplit hc'
          have := hord (GCall.history_update s p pc d n :: before) after c' j
            (by rw [hsplit]; rfl) hc'
          rw [predicted_ids_cons, hpid] at this
          rw [hf.2.2.2]
          simpa only [Option.toList, List.nil_append] using this)
      simp only [GSHARE.run] at r1 r2 r3 ⊢
      rw [run_calls_cons_ok _ _ _ _ _ _ hstep]
      refine ⟨r1, r2, ?_⟩
      intro j
      rw [r3 j, hf.2.2.2, predicted_ids_cons, updated_ids_cons, hpid, huid]
      simp only [Option.toList, List.nil_append]
    | update s p pc d q n =>
      have hp : p < 16 := hpiece _ (List.mem_cons_self _ _)
      have hid := GSHARE.get_unique_inst_id_of_lt s p hp
      generalize ((s * 16) % 18446744073709551616) ||| (p &&& 15) = id at hid
      have hpid : (GCall.update s p pc d q n).predict_id = none := rfl
      have huid : (GCall.update s p pc d q n).update_id = some id := by
        simp [GCall.update_id, hid, Except.toOption]
      rw [hpid] at hpn hpf
      rw [huid] at hun
      simp only [Option.toList, List.cons_append, List.nil_append] at hpn hpf hun
      have hin : id ∈ map_keys g.pred_time_histories := by
        rcases hord_c id rfl huid with e | e
        · exact e
        · simp [predicted_ids] at e
      have hsome : map_at g.pred_time_histories id ≠ none :=
        fun e => (map_at_eq_none_iff _ _).mp e hin
      cases hm : map_at g.pred_time_histories id with
      | none => exact absurd hm hsome
      | some hist =>
        have hstep := g.step_update hs s p pc d q n id hist hid hm
        have hs1 := g.step_setUp (.update s p pc d q n) hs
        rw [hstep] at hs1
        obtain ⟨r1, r2, r3⟩ := ih _ hs1 h0 h1
          (nodup_map_keys_erase _ _ hk) hpiece_cs hpn
          (by
            intro j hj hmem
            exact hpf j hj ((mem_map_keys_erase _ _ _).mp hmem).1)
          (List.nodup_cons.mp hun).2
          (by
            intro before after c' j hsplit hc'
            have := hord (GCall.update s p pc d q n :: before) after c' j
              (by rw [hsplit]; rfl) hc'
            rw [predicted_ids_cons, hpid] at this
            simp only [Option.toList, List.nil_append] at this
            rcases this with e | e
            · left
              refine (mem_map_keys_erase _ _ _).mpr ⟨e, ?_⟩
              intro hj
              apply (List.nodup_cons.mp hun).1
              rw [← hj, hsplit, updated_ids_append, updated_ids_cons, hc']
              simp
            · right; exact e)
        simp only [GSHARE.run] at r1 r2 r3 ⊢
        rw [run_calls_cons_ok _ _ _ _ _ _ hstep]
        refine ⟨r1, r2, ?_⟩
        intro j
        rw [r3 j, predicted_ids_cons, updated_ids_cons, hpid, huid]
        simp only [Option.toList, List.cons_append, List.nil_append, List.mem_cons,
          mem_map_keys_erase]
        constructor
        · rintro ⟨h | h, h'⟩
          · exact ⟨Or.inl h.1, fun e => e.elim h.2 h'⟩
          · refine ⟨Or.inr h, fun e => e.elim (fun e => ?_) h'⟩
            exact hpf j h (e ▸ hin)
        · rintro ⟨h | h, h'⟩
          · exact ⟨Or.inl ⟨h, fun e => h' (Or.inl e)⟩, fun e => h' (Or.inr e)⟩
          · exact ⟨Or.inr h, fun e => h' (Or.inr e)⟩

theorem predict_before_update_split (calls : List GCall) (h : predict_before_update calls)
    (before after : List GCall) (c : GCall) (id : Nat)
    (hsplit : calls = before ++ c :: after) (hc : c.update_id = some id) :
    id ∈ predicted_ids before := by
  have hlen : before.length < calls.length := by
    rw [hsplit, List.length_append, List.length_cons]; omega
  have hget : calls[before.length]? = some c := by
    rw [hsplit, List.getElem?_append_right (Nat.le_refl _), Nat.sub_self]
    exact List.getElem?_cons_zero
  have htake : calls.take before.length = before := by
    rw [hsplit]; simp
  have := h before.length hlen id (by rw [hget]; simpa using hc)
  rwa [htake] at this

theorem predict_before_update_initial (done rest : List GCall)
    (h : predict_before_update (done ++ rest)) : predict_before_update done := by
  intro i hi id hid
  have hlen : i < (done ++ rest).length := by
    rw [List.length_append]; omega
  have hget : (done ++ rest)[i]? = done[i]? := List.getElem?_append_left hi
  have := h i hlen id (by rw [hget]; exact hid)
  rwa [List.take_append_of_le_length (Nat.le_of_lt hi)] at this

theorem GSHARE.fresh_eq (history_length table_size : Int) (h : 0 ≤ table_size) :
    GSHARE.fresh history_length table_size =
      { table := List.replicate table_size.toNat 0, history_length := history_length,
        table_size := table_size, active_hist := { ghist := 0, tage_pred := false },
        pred_time_histories := [] } := by
  have hv : vec_resize [] table_size 0 = .ok (List.replicate table_size.toNat 0) := by
    unfold vec_resize
    rw [if_pos h]
    simp
  unfold GSHARE.fresh GSHARE.setup GSHARE.create
  simp only [hv]

theorem GSHARE.fresh_setUp (history_length table_size : Int) (h0 : 0 < table_size)
    (h1 : table_size < 2147483648) : (GSHARE.fresh history_length table_size).SetUp := by
  rw [GSHARE.fresh_eq _ _ (le_of_lt h0)]
  exact ⟨h0, h1, List.length_replicate _ _⟩

/-- C4: start from a freshly set-up `GSHARE` (positive `table_size`, history length in
`0 .. 63`) and take any call sequence of `predict`, `history_update` and `update` in
which the predicted identities are pairwise distinct, no identity is updated twice and
every `update` comes after the `predict` of its identity.  Then at every intermediate
point the run has not faulted and the keys of `pred_time_histories` are, without
repetition, exactly the identities predicted and not yet updated; and when every
predicted identity has been updated the ledger is empty at the end. -/
theorem GSHARE.ledger_cleanliness (history_length table_size : Int) (calls : List GCall)
    (hts : 0 < table_size) (hts1 : table_size < 2147483648)
    (hhl : 0 ≤ history_length) (hhl1 : history_length < 64)
    (hpiece : ∀ c ∈ calls, c.piece_ok)
    (hdistinct : (predicted_ids calls).Nodup)
    (honce : (updated_ids calls).Nodup)
    (horder : predict_before_update calls) :
    (∀ done rest, calls = done ++ rest →
      ((GSHARE.fresh history_length table_size).run done).fault = none ∧
      (map_keys
        ((GSHARE.fresh history_length table_size).run done).state.pred_time_histories).Nodup ∧
      ∀ id, id ∈ map_keys
          ((GSHARE.fresh history_length table_size).run done).state.pred_time_histories ↔
        id ∈ predicted_ids done ∧ id ∉ updated_ids done) ∧
    ((∀ id ∈ predicted_ids calls, id ∈ updated_ids calls) →
      ((GSHARE.fresh history_length table_size).run calls).state.pred_time_histories = []) := by
  have hs := GSHARE.fresh_setUp history_length table_size hts hts1
  have hfl : (GSHARE.fresh history_length table_size).history_length = history_length := by
    rw [GSHARE.fresh_eq _ _ (le_of_lt hts)]
  have hfk : (GSHARE.fresh history_length table_size).pred_time_histories = [] := by
    rw [GSHARE.fresh_eq _ _ (le_of_lt hts)]
  have key : ∀ done rest, calls = done ++ rest →
      ((GSHARE.fresh history_length table_size).run done).fault = none ∧
      (map_keys
        ((GSHARE.fresh history_length table_size).run done).state.pred_time_histories).Nodup ∧
      ∀ id, id ∈ map_keys
          ((GSHARE.fresh history_length table_size).run done).state.pred_time_histories ↔
        id ∈ predicted_ids done ∧ id ∉ updated_ids done := by
    intro done rest hsplit
    subst hsplit
    rw [predicted_ids_append] at hdistinct
    rw [updated_ids_append] at honce
    obtain ⟨r1, r2, r3⟩ := GSHARE.run_ledger done _ hs (by rw [hfl]; exact hhl)
      (by rw [hfl]; exact hhl1)
      (by rw [hfk]; exact List.nodup_nil)
      (fun c hc => hpiece c (List.mem_append_left _ hc))
      (List.Nodup.of_append_left hdistinct)
      (by rw [hfk]; intro id _ hmem; simp [map_keys] at hmem)
      (List.Nodup.of_append_left honce)
      (by
        intro before after c id hsp hc
        right
        exact predict_before_update_split done (predict_before_update_initial done rest horder)
          before after c id hsp hc)
    refine ⟨r1, r2, ?_⟩
    intro id
    rw [r3 id, hfk]
    simp [map_keys]
  refine ⟨key, ?_⟩
  intro hall
  obtain ⟨_, _, r3⟩ := key calls [] (List.append_nil calls).symm
  have hnil : map_keys
      ((GSHARE.fresh history_length table_size).run calls).state.pred_time_histories = [] := by
    apply List.eq_nil_iff_forall_not_mem.mpr
    intro id hmem
    have := (r3 id).mp hmem
    exact this.2 (hall id this.1)
  simpa [map_keys] using hnil

/-- Witness of C4: the shipped configuration run on two instructions in flight. -/
theorem GSHARE.ledger_cleanliness_witness :
    (∀ done rest, GSHARE.two_in_flight = done ++ rest →
      ((GSHARE.fresh 12 4096).run done).fault = none ∧
      (map_keys ((GSHARE.fresh 12 4096).run done).state.pred_time_histories).Nodup ∧
      ∀ id, id ∈ map_keys ((GSHARE.fresh 12 4096).run done).state.pred_time_histories ↔
        id ∈ predicted_ids done ∧ id ∉ updated_ids done) ∧
    ((∀ id ∈ predicted_ids GSHARE.two_in_flight, id ∈ updated_ids GSHARE.two_in_flight) →
      ((GSHARE.fresh 12 4096).run GSHARE.two_in_flight).state.pred_time_histories = []) :=
  GSHARE.ledger_cleanliness 12 4096 GSHARE.two_in_flight (by decide) (by decide) (by decide)
    (by decide) (by decide) (by decide) (by decide) (by decide)

/-! ## GShare: a pending snapshot survives the calls for other identities -/

/-- A property that every step preserves on the calls of a sequence holds in the state
the sequence reaches (also when the sequence stops at a fault). -/
theorem run_calls_invariant {σ κ : Type} (step : σ → κ → Except Fault (Option Bool) × σ)
    (P : σ → Prop) (Q : κ → Prop) (hstep : ∀ s c, Q c → P s → P (step s c).2) :
    ∀ (cs : List κ) (s : σ), (∀ c ∈ cs, Q c) → P s → P (run_calls step s cs).state := by
  intro cs
  induction cs with
  | nil => intro s _ hp; exact hp
  | cons c cs ih =>
    intro s hq hp
    have h1 := hstep s c (hq c (List.mem_cons_self _ _)) hp
    rcases hc : step s c with ⟨r, s1⟩
    rw [hc] at h1
    cases r with
    | error e =>
      rw [run_calls_cons_error step s s1 c cs e hc]
      exact h1
    | ok o =>
      rw [run_calls_cons_ok step s s1 c cs o hc]
      exact ih s1 (fun c' hc' => hq c' (List.mem_cons_of_mem _ hc')) h1

theorem GSHARE.predict_ledger (g : GSHARE) (seq_no piece PC : Nat) (tage_pred : Bool)
    (j : Nat) (hj : GSHARE.get_unique_inst_id seq_no piece ≠ .ok j) :
    map_at (g.predict seq_no piece PC tage_pred).2.pred_time_histories j
      = map_at g.pred_time_histories j := by
  unfold GSHARE.predict
  split
  · rfl
  · rename_i id hid
    have hne : j ≠ id := fun e => hj (e ▸ hid)
    dsimp only
    split
    · exact map_at_emplace_other _ _ _ _ hne
    · split <;> exact map_at_emplace_other _ _ _ _ hne

theorem GSHARE.update_ledger (g : GSHARE) (seq_no piece PC : Nat) (resolveDir predDir : Bool)
    (nextPC : Nat) (j : Nat) (hj : GSHARE.get_unique_inst_id seq_no piece ≠ .ok j) :
    map_at (g.update seq_no piece PC resolveDir predDir nextPC).2.pred_time_histories j
      = map_at g.pred_time_histories j := by
  unfold GSHARE.update
  split
  · rfl
  · rename_i id hid
    have hne : j ≠ id := fun e => hj (e ▸ hid)
    split
    · rfl
    · rename_i hist _
      have hf := g.update_internal_frame PC resolveDir predDir nextPC hist
      split
      · rename_i e g1 he
        rw [he] at hf
        exact congrArg (fun l => map_at l j) hf.2.2.2.2
      · rename_i u g1 he
        rw [he] at hf
        dsimp only
        rw [map_at_erase_other _ _ _ hne]
        exact congrArg (fun l => map_at l j) hf.2.2.2.2

theorem GSHARE.step_keeps_snapshot (g : GSHARE) (c : GCall) (id : Nat)
    (hc : c.inst_id ≠ some id) :
    map_at (g.step c).2.pred_time_histories id = map_at g.pred_time_histories id := by
  cases c with
  | predict s p pc h =>
    have hj : GSHARE.get_unique_inst_id s p ≠ .ok id := by
      intro e; apply hc; simp [GCall.inst_id, e, Except.toOption]
    exact g.predict_ledger s p pc h id hj
  | history_update s p pc d n =>
    exact congrArg (fun l => map_at l id) (g.history_update_frame s p pc d n).2.2.2
  | update s p pc d q n =>
    have hj : GSHARE.get_unique_inst_id s p ≠ .ok id := by
      intro e; apply hc; simp [GCall.inst_id, e, Except.toOption]
    exact g.update_ledger s p pc d q n id hj

/-- Calls that do not concern `id` keep its snapshot, the set-up table and `table_size`. -/
theorem GSHARE.run_keeps_snapshot (g : GSHARE) (mid : List GCall) (id : Nat) (h : SampleHist)
    (hmid : ∀ c ∈ mid, c.inst_id ≠ some id) (hs : g.SetUp)
    (hm : map_at g.pred_time_histories id = some h) :
    map_at (g.run mid).state.pred_time_histories id = some h ∧
    (g.run mid).state.SetUp ∧ (g.run mid).state.table_size = g.table_size := by
  have := run_calls_invariant GSHARE.step
    (fun s => map_at s.pred_time_histories id = some h ∧ s.SetUp ∧ s.table_size = g.table_size)
    (fun c => c.inst_id ≠ some id)
    (by
      intro s c hc hp
      refine ⟨?_, s.step_setUp c hp.2.1, ?_⟩
      · rw [s.step_keeps_snapshot c id hc]; exact hp.1
      · rw [(s.step_frame c).2.1]; exact hp.2.2)
    mid g hmid ⟨hm, hs, rfl⟩
  exact this

theorem GSHARE.position_congr (g g2 : GSHARE) (h : g2.table_size = g.table_size)
    (pc ghr : Nat) : g2.position pc ghr = g.position pc ghr := by
  unfold GSHARE.position
  rw [h]

theorem GSHARE.one_pending_predict :
    GSHARE.one_pending.predict 1 0 5 false = (.ok false, GSHARE.one_pending) := by
  rw [GSHARE.one_pending.predict_of_setUp GSHARE.one_pending_setUp 1 0 5 false 16 (by decide)]
  have h : GSHARE.one_pending.table.getD
      (GSHARE.one_pending.position 5 GSHARE.one_pending.active_hist.ghist) 0 = 0 :=
    GSHARE.shipped_getD _
  rw [h]
  rfl

theorem GSHARE.one_pending_update :
    GSHARE.one_pending.update 1 0 5 true false 6 =
      (.ok (), { GSHARE.one_pending with
        table := (List.replicate 4096 0).set 5 1, pred_time_histories := [] }) := by
  rw [GSHARE.one_pending.update_of_setUp GSHARE.one_pending_setUp 1 0 5 true false 6 16
    ⟨0, false⟩ (by decide) (by decide)]
  have hp : GSHARE.one_pending.position 5 0 = 5 := by decide
  have h : GSHARE.one_pending.table.getD 5 0 = 0 := GSHARE.shipped_getD _
  simp only [hp, h]
  rfl

/-! ## C1: the update uses the history captured at predict time -/

/-- C1 (as amended): let `g` be set up, let identity `idA` of `(seq_no, piece)` have no
pending snapshot, call `predict` for it at `pc` while the live history is
`g.active_hist.ghist`, then any sequence `mid` of `history_update` calls and of
`predict` / `update` calls for other identities, reaching `g2`.  Then `update` for
`(seq_no, piece)` at `pc` completes, replaces the counter `c` at the index
`get_index(pc, history at predict time)` by one clamped step toward `resolved`, leaves
every other counter as it is in `g2` and erases the snapshot, whatever the live history
of `g2` is. -/
theorem GSHARE.update_uses_predict_time_history (g : GSHARE) (seq_no piece pc : Nat)
    (hint resolved predDir : Bool) (nextPC idA : Nat) (mid : List GCall) (g2 : GSHARE)
    (hs : g.SetUp)
    (hid : GSHARE.get_unique_inst_id seq_no piece = .ok idA)
    (hfresh : map_at g.pred_time_histories idA = none)
    (hmid : ∀ c ∈ mid, c.inst_id ≠ some idA)
    (hg2 : g2 = ((g.predict seq_no piece pc hint).2.run mid).state) :
    ∃ (i : Nat) (c : Int),
      g.get_index pc g.active_hist.ghist = .ok (i : Int) ∧
      g2.table[i]? = some c ∧
      g2.update seq_no piece pc resolved predDir nextPC =
        (.ok (),
         { g2 with
           table := g2.table.set i (counter_update resolved c),
           pred_time_histories := map_erase g2.pred_time_histories idA }) := by
  have hpred := g.predict_of_setUp hs seq_no piece pc hint idA hid
  have hs1 := g.step_setUp (.predict seq_no piece pc hint) hs
  have hstep := g.step_predict hs seq_no piece pc hint idA hid
  rw [hstep] at hs1
  rw [hpred] at hg2
  obtain ⟨k1, k2, k3⟩ := GSHARE.run_keeps_snapshot _ mid idA
    { g.active_hist with tage_pred := hint } hmid hs1
    (map_at_emplace_self _ _ _ hfresh)
  rw [← hg2] at k1 k2 k3
  have hpos : g2.position pc g.active_hist.ghist = g.position pc g.active_hist.ghist :=
    GSHARE.position_congr g g2 k3 pc _
  refine ⟨g.position pc g.active_hist.ghist, g2.table.getD (g.position pc g.active_hist.ghist) 0,
    (g.get_index_of_setUp hs pc g.active_hist.ghist).1, ?_, ?_⟩
  · apply getElem?_of_lt_getD
    rw [← hpos]
    exact g2.position_lt k2 pc _
  · rw [g2.update_of_setUp k2 seq_no piece pc resolved predDir nextPC idA _ hid k1]
    simp only [hpos]

/-- Witness of C1 (as amended), the scenario of the specification: on the shipped
configuration A = `(1, 0)` predicts with history `0`, `history_update(taken)` makes the
history `1`, B = `(2, 0)` predicts, then A is updated. -/
theorem GSHARE.update_uses_predict_time_history_witness :
    ∃ (i : Nat) (c : Int),
      GSHARE.shipped.get_index 5 GSHARE.shipped.active_hist.ghist = .ok (i : Int) ∧
      ((GSHARE.shipped.predict 1 0 5 false).2.run
        [.history_update 1 0 5 true 6, .predict 2 0 5 false]).state.table[i]? = some c ∧
      ((GSHARE.shipped.predict 1 0 5 false).2.run
        [.history_update 1 0 5 true 6, .predict 2 0 5 false]).state.update 1 0 5 true false 6 =
        (.ok (),
         { ((GSHARE.shipped.predict 1 0 5 false).2.run
              [.history_update 1 0 5 true 6, .predict 2 0 5 false]).state with
           table := ((GSHARE.shipped.predict 1 0 5 false).2.run
              [.history_update 1 0 5 true 6, .predict 2 0 5 false]).state.table.set i
                (counter_update true c),
           pred_time_histories := map_erase ((GSHARE.shipped.predict 1 0 5 false).2.run
              [.history_update 1 0 5 true 6, .predict 2 0 5 false]).state.pred_time_histories
                16 }) :=
  GSHARE.update_uses_predict_time_history GSHARE.shipped 1 0 5 false true false 6 16
    [.history_update 1 0 5 true 6, .predict 2 0 5 false] _
    GSHARE.shipped_setUp (by decide) (by decide) (by decide) rfl

/-- Counterexample to C1 as stated: on the shipped configuration, after `predict(1, 0)`
and one `history_update(taken)`, `(1, 0)` is already pending with history `0` when
`predict(1, 0)` is made at `pc = 5` while the live history is `1`; the following `update(1, 0)` at `pc = 5` increments the counter at
index `5 = get_index(5, 0)` and leaves the counter at index `4 = get_index(5, 1)`,
the index of the history this `predict` saw, at `0`. -/
theorem GSHARE.update_after_second_predict :
    (GSHARE.shipped.run [.predict 1 0 5 false, .history_update 1 0 5 true 6]).state
      = GSHARE.one_pending ∧
    GSHARE.one_pending.active_hist.ghist = 1 ∧
    GSHARE.one_pending.get_index 5 1 = .ok 4 ∧
    GSHARE.one_pending.get_index 5 0 = .ok 5 ∧
    (GSHARE.one_pending.predict 1 0 5 false).1 = .ok false ∧
    ((GSHARE.one_pending.predict 1 0 5 false).2.update 1 0 5 true false 6).1 = .ok () ∧
    ((GSHARE.one_pending.predict 1 0 5 false).2.update 1 0 5 true false 6).2.table[4]?
      = some 0 ∧
    ((GSHARE.one_pending.predict 1 0 5 false).2.update 1 0 5 true false 6).2.table[5]?
      = some 1 := by
  rw [GSHARE.one_pending_predict, GSHARE.one_pending_update]
  refine ⟨GSHARE.one_pending_reached, by decide, by decide, by decide, rfl, rfl, ?_, ?_⟩
  · simp only [List.getElem?_set, List.getElem?_replicate]; decide
  · simp only [List.getElem?_set, List.length_replicate]; decide

/-! ## Saturating counters stay in `[0, 3]` -/

theorem counter_update_range (d : Bool) (x : Int) (h : 0 ≤ x ∧ x ≤ 3) :
    0 ≤ counter_update d x ∧ counter_update d x ≤ 3 := by
  unfold counter_update
  split <;> split <;> omega

theorem TOURNAMENT_PREDICTOR.saturating_increment_range (x : Int) (h : 0 ≤ x ∧ x ≤ 3) :
    0 ≤ saturating_increment x ∧ saturating_increment x ≤ 3 := by
  unfold saturating_increment
  split <;> omega

theorem TOURNAMENT_PREDICTOR.saturating_decrement_range (x : Int) (h : 0 ≤ x ∧ x ≤ 3) :
    0 ≤ saturating_decrement x ∧ saturating_decrement x ≤ 3 := by
  unfold saturating_decrement
  split <;> omega

theorem counters_in_range_replicate (n : Nat) (x : Int) (h : 0 ≤ x ∧ x ≤ 3) :
    counters_in_range (List.replicate n x) := by
  intro y hy
  rw [List.eq_of_mem_replicate hy]
  exact h

theorem vec_modify_range (v w : List Int) (i : Nat) (f : Int → Int)
    (hf : ∀ x, 0 ≤ x ∧ x ≤ 3 → 0 ≤ f x ∧ f x ≤ 3) (hv : counters_in_range v)
    (h : vec_modify v i f = .ok w) : counters_in_range w := by
  unfold vec_modify at h
  split at h
  · rename_i x hx
    cases h
    intro y hy
    rcases List.mem_or_eq_of_mem_set hy with e | e
    · exact hv y e
    · rw [e]
      exact hf x (hv x (List.getElem?_mem hx))
  · cases h

theorem vec_resize_range (v w : List Int) (n : Int) (x : Int) (hx : 0 ≤ x ∧ x ≤ 3)
    (hv : counters_in_range v) (h : vec_resize v n x = .ok w) : counters_in_range w := by
  unfold vec_resize at h
  split at h
  · cases h
    intro y hy
    rcases List.mem_append.mp hy with e | e
    · exact hv y (List.mem_of_mem_take e)
    · rw [List.eq_of_mem_replicate e]; exact hx
  · cases h

theorem BHTPredictor.bht_create_range (table_size : Int) (b : BHTPredictor)
    (h : BHTPredictor.create table_size = .ok b) : counters_in_range b.table := by
  unfold BHTPredictor.create at h
  split at h
  · rename_i t ht
    cases h
    exact vec_resize_range [] t table_size 0 (by decide) (by intro y hy; cases hy) ht
  · cases h

theorem BHTPredictor.bht_step_range (b : BHTPredictor) (c : BCall)
    (h : counters_in_range b.table) : counters_in_range (b.step c).2.table := by
  cases c with
  | predict s p pc hint =>
    simp only [BHTPredictor.step, with_output, BHTPredictor.predict]
    split
    · exact h
    · split <;> exact h
  | history_update s p pc d n => exact h
  | update s p pc d q n =>
    simp only [BHTPredictor.step, no_output, BHTPredictor.update]
    split
    · exact h
    · split
      · exact h
      · rename_i t ht
        exact vec_modify_range _ _ _ _ (counter_update_range d) h ht

theorem GSHARE.fresh_range (history_length table_size : Int) :
    counters_in_range (GSHARE.fresh history_length table_size).table := by
  unfold GSHARE.fresh GSHARE.setup
  split
  · rename_i t ht
    exact vec_resize_range _ t _ 0 (by decide) (by intro y hy; cases hy) ht
  · intro y hy; cases hy

theorem GSHARE.update_internal_range (g : GSHARE) (PC : Nat) (resolveDir pred_taken : Bool)
    (nextPC : Nat) (hist : SampleHist) (h : counters_in_range g.table) :
    counters_in_range (g.update_internal PC resolveDir pred_taken nextPC hist).2.table := by
  unfold GSHARE.update_internal
  split
  · exact h
  · split
    · exact h
    · rename_i t ht
      exact vec_modify_range _ _ _ _ (counter_update_range resolveDir) h ht

theorem GSHARE.gshare_step_range (g : GSHARE) (c : GCall) (h : counters_in_range g.table) :
    counters_in_range (g.step c).2.table := by
  cases c with
  | predict s p pc hint =>
    have hf := (g.predict_frame s p pc hint).1
    simp only [GSHARE.step, with_output]
    rw [hf]; exact h
  | history_update s p pc d n =>
    have hf := (g.history_update_frame s p pc d n).1
    simp only [GSHARE.step, no_output]
    rw [hf]; exact h
  | update s p pc d q n =>
    simp only [GSHARE.step, no_output, GSHARE.update]
    split
    · exact h
    · split
      · exact h
      · rename_i hist _
        have hr := g.update_internal_range pc d q n hist h
        split
        · rename_i e g1 he
          rw [he] at hr; exact hr
        · rename_i u g1 he
          rw [he] at hr; exact hr

/-! ## Tournament predictor: indices and member functions -/

theorem TOURNAMENT_PREDICTOR.local_index_eq (pc : Nat) :
    local_index pc = pc % 2 ^ 14 ∧ local_index pc < 16384 := by
  have h : (1 <<< LOG_LOCAL_PREDICTOR_SIZE : Nat) = 16384 := by decide
  unfold local_index u32_of_u64
  rw [h]
  omega

theorem TOURNAMENT_PREDICTOR.chooser_index_eq (pc : Nat) :
    chooser_index pc = pc % 2 ^ 14 ∧ chooser_index pc < 16384 := by
  have h : (1 <<< LOG_CHOOSER_SIZE : Nat) = 16384 := by decide
  unfold chooser_index u32_of_u64
  rw [h]
  omega

theorem TOURNAMENT_PREDICTOR.global_index_eq (t : TOURNAMENT_PREDICTOR) (pc : Nat) :
    t.global_index pc = (pc ^^^ (t.ghr &&& 4095)) % 2 ^ 14 ∧ t.global_index pc < 16384 := by
  have h : (1 <<< LOG_GLOBAL_PREDICTOR_SIZE : Nat) = 16384 := by decide
  have hm : history_mask = 4095 := by decide
  unfold global_index u32_of_u64
  rw [h, hm]
  omega

theorem TOURNAMENT_PREDICTOR.sized_lengths (t : TOURNAMENT_PREDICTOR) (hs : t.Sized) :
    t.local_predictor_table.length = 16384 ∧ t.global_predictor_table.length = 16384 ∧
    t.chooser_table.length = 16384 := by
  have h1 : (1 <<< LOG_LOCAL_PREDICTOR_SIZE : Nat) = 16384 := by decide
  have h2 : (1 <<< LOG_GLOBAL_PREDICTOR_SIZE : Nat) = 16384 := by decide
  have h3 : (1 <<< LOG_CHOOSER_SIZE : Nat) = 16384 := by decide
  obtain ⟨a, b, c⟩ := hs
  exact ⟨a.trans h1, b.trans h2, c.trans h3⟩

/-- With the three reads in bounds, `get_cond_dir_prediction` completes, returns the
global threshold test when the chooser counter is at least `2` and the local one
otherwise, and leaves the state as it is. -/
theorem TOURNAMENT_PREDICTOR.get_cond_dir_prediction_of_reads (t : TOURNAMENT_PREDICTOR)
    (pc : Nat) (lc gc cc : Int)
    (hl : t.local_predictor_table[local_index pc]? = some lc)
    (hg : t.global_predictor_table[t.global_index pc]? = some gc)
    (hc : t.chooser_table[chooser_index pc]? = some cc) :
    t.get_cond_dir_prediction pc =
      (.ok (if cc ≥ 2 then decide (gc ≥ 2) else decide (lc ≥ 2)), t) := by
  unfold get_cond_dir_prediction vec_read
  simp only [hl, hg, hc]
  by_cases h : cc ≥ 2 <;> simp [h]

theorem vec_modify_of_read (v : List Int) (i : Nat) (f : Int → Int) (x : Int)
    (h : v[i]? = some x) : vec_modify v i f = .ok (v.set i (f x)) := by
  unfold vec_modify
  simp only [h]

theorem vec_read_of_read (v : List Int) (i : Nat) (x : Int)
    (h : v[i]? = some x) : vec_read v i = .ok x := by
  unfold vec_read
  simp only [h]

/-- With the local and global reads in bounds and the chooser step completing,
`update_predictor` completes; the resulting state is explicit. -/
theorem TOURNAMENT_PREDICTOR.update_predictor_of_reads (t : TOURNAMENT_PREDICTOR)
    (pc : Nat) (taken pred : Bool) (lc gc : Int) (chooser : List Int)
    (hl : t.local_predictor_table[local_index pc]? = some lc)
    (hg : t.global_predictor_table[t.global_index pc]? = some gc)
    (hc : update_chooser t.chooser_table (chooser_index pc)
      (decide (lc ≥ 2) == taken) (decide (gc ≥ 2) == taken) = .ok chooser) :
    t.update_predictor pc taken pred =
      (.ok (),
       { local_predictor_table := t.local_predictor_table.set (local_index pc)
           ((if taken then saturating_increment else saturating_decrement) lc),
         global_predictor_table := t.global_predictor_table.set (t.global_index pc)
           ((if taken then saturating_increment else saturating_decrement) gc),
         chooser_table := chooser,
         ghr := ((t.ghr * 2) % 18446744073709551616) ||| (if taken then 1 else 0) }) := by
  unfold update_predictor
  simp only [vec_read_of_read _ _ _ hl, vec_read_of_read _ _ _ hg, hc,
    vec_modify_of_read _ _ _ _ hl, vec_modify_of_read _ _ _ _ hg]

theorem TOURNAMENT_PREDICTOR.reads_of_sized (t : TOURNAMENT_PREDICTOR) (hs : t.Sized)
    (pc : Nat) :
    t.local_predictor_table[local_index pc]?
      = some (t.local_predictor_table.getD (local_index pc) 0) ∧
    t.global_predictor_table[t.global_index pc]?
      = some (t.global_predictor_table.getD (t.global_index pc) 0) ∧
    t.chooser_table[chooser_index pc]?
      = some (t.chooser_table.getD (chooser_index pc) 0) := by
  obtain ⟨a, b, c⟩ := t.sized_lengths hs
  refine ⟨getElem?_of_lt_getD _ _ ?_, getElem?_of_lt_getD _ _ ?_, getElem?_of_lt_getD _ _ ?_⟩
  · rw [a]; exact (local_index_eq pc).2
  · rw [b]; exact (t.global_index_eq pc).2
  · rw [c]; exact (chooser_index_eq pc).2

theorem TOURNAMENT_PREDICTOR.update_chooser_of_read (chooser : List Int) (i : Nat) (c : Int)
    (lcorrect gcorrect : Bool) (h : chooser[i]? = some c) :
    update_chooser chooser i lcorrect gcorrect =
      .ok (if gcorrect && !lcorrect then chooser.set i (saturating_increment c)
           else if !gcorrect && lcorrect then chooser.set i (saturating_decrement c)
           else chooser) := by
  unfold update_chooser
  split
  · exact vec_modify_of_read _ _ _ _ h
  · split
    · exact vec_modify_of_read _ _ _ _ h
    · rfl

theorem TOURNAMENT_PREDICTOR.create_sized : create.Sized := by
  unfold Sized create
  simp only [List.length_replicate, and_self]

theorem TOURNAMENT_PREDICTOR.create_getD (i : Nat) :
    create.local_predictor_table.getD i 0 ≤ 1 ∧ create.global_predictor_table.getD i 0 ≤ 1 ∧
    create.chooser_table.getD i 0 ≤ 1 := by
  simp only [create, List.getD_eq_getElem?_getD, List.getElem?_replicate]
  refine ⟨?_, ?_, ?_⟩ <;> split <;> simp

theorem TOURNAMENT_PREDICTOR.update_chooser_range (chooser w : List Int) (i : Nat)
    (lcorrect gcorrect : Bool) (hv : counters_in_range chooser)
    (h : update_chooser chooser i lcorrect gcorrect = .ok w) : counters_in_range w := by
  unfold update_chooser at h
  split at h
  · exact vec_modify_range _ _ _ _ saturating_increment_range hv h
  · split at h
    · exact vec_modify_range _ _ _ _ saturating_decrement_range hv h
    · cases h; exact hv

theorem TOURNAMENT_PREDICTOR.step_fn_range (taken : Bool) (x : Int) (h : 0 ≤ x ∧ x ≤ 3) :
    0 ≤ (if taken then saturating_increment else saturating_decrement) x ∧
    (if taken then saturating_increment else saturating_decrement) x ≤ 3 := by
  cases taken
  · exact saturating_decrement_range x h
  · exact saturating_increment_range x h

/-- The three tables keep their counters in `[0, 3]` across `update_predictor`, also
in the state of a faulting call. -/
theorem TOURNAMENT_PREDICTOR.update_predictor_range (t : TOURNAMENT_PREDICTOR) (pc : Nat)
    (taken pred : Bool)
    (h : counters_in_range t.local_predictor_table ∧
      counters_in_range t.global_predictor_table ∧ counters_in_range t.chooser_table) :
    counters_in_range (t.update_predictor pc taken pred).2.local_predictor_table ∧
    counters_in_range (t.update_predictor pc taken pred).2.global_predictor_table ∧
    counters_in_range (t.update_predictor pc taken pred).2.chooser_table := by
  obtain ⟨h1, h2, h3⟩ := h
  unfold update_predictor
  split
  · exact ⟨h1, h2, h3⟩
  · split
    · exact ⟨h1, h2, h3⟩
    · dsimp only
      split
      · exact ⟨h1, h2, h3⟩
      · rename_i chooser hch
        have h3' := update_chooser_range _ _ _ _ _ h3 hch
        split
        · exact ⟨h1, h2, h3'⟩
        · rename_i loc hloc
          have h1' := vec_modify_range _ _ _ _ (step_fn_range taken) h1 hloc
          split
          · exact ⟨h1', h2, h3'⟩
          · rename_i glob hglob
            exact ⟨h1', vec_modify_range _ _ _ _ (step_fn_range taken) h2 hglob, h3'⟩

theorem TOURNAMENT_PREDICTOR.get_cond_dir_prediction_state (t : TOURNAMENT_PREDICTOR)
    (pc : Nat) : (t.get_cond_dir_prediction pc).2 = t := by
  unfold get_cond_dir_prediction
  split
  · rfl
  · split
    · rfl
    · split <;> rfl

theorem TOURNAMENT_PREDICTOR.tournament_step_range (t : TOURNAMENT_PREDICTOR) (c : TCall)
    (h : counters_in_range t.local_predictor_table ∧
      counters_in_range t.global_predictor_table ∧ counters_in_range t.chooser_table) :
    counters_in_range (t.step c).2.local_predictor_table ∧
    counters_in_range (t.step c).2.global_predictor_table ∧
    counters_in_range (t.step c).2.chooser_table := by
  cases c with
  | get_cond_dir_prediction pc =>
    simp only [step, with_output, get_cond_dir_prediction_state]
    exact h
  | update_predictor pc d q =>
    simp only [step, no_output]
    exact t.update_predictor_range pc d q h

theorem TOURNAMENT_PREDICTOR.tournament_create_range :
    counters_in_range create.local_predictor_table ∧
    counters_in_range create.global_predictor_table ∧
    counters_in_range create.chooser_table :=
  ⟨counters_in_range_replicate _ 1 (by decide), counters_in_range_replicate _ 1 (by decide),
   counters_in_range_replicate _ 1 (by decide)⟩

/-! ## C5: the range invariant of the saturating counters -/

/-- C5: in each of the three strategies, starting from the initial state (counters `0`
for `BHTPredictor` and `GSHARE`, `1` for `TOURNAMENT_PREDICTOR`), every counter of every
table, the tournament chooser included, lies in `[0, 3]` after every sequence of calls
with arbitrary arguments; the increment leaves `3` and the decrement leaves `0`
unchanged; and ten consecutive saturating increments of a counter that starts at `0`
yield `3`. -/
theorem counters_stay_in_range :
    (∀ (table_size : Int) (b : BHTPredictor) (calls : List BCall),
      BHTPredictor.create table_size = .ok b → counters_in_range (b.run calls).state.table) ∧
    (∀ (history_length table_size : Int) (calls : List GCall),
      counters_in_range ((GSHARE.fresh history_length table_size).run calls).state.table) ∧
    (∀ (calls : List TCall),
      counters_in_range (TOURNAMENT_PREDICTOR.create.run calls).state.local_predictor_table ∧
      counters_in_range (TOURNAMENT_PREDICTOR.create.run calls).state.global_predictor_table ∧
      counters_in_range (TOURNAMENT_PREDICTOR.create.run calls).state.chooser_table) ∧
    (counter_update true 3 = 3 ∧ counter_update false 0 = 0 ∧
      TOURNAMENT_PREDICTOR.saturating_increment 3 = 3 ∧
      TOURNAMENT_PREDICTOR.saturating_decrement 0 = 0) ∧
    (TOURNAMENT_PREDICTOR.saturating_increment^[10] 0 = 3 ∧ (counter_update true)^[10] 0 = 3) := by
  refine ⟨?_, ?_, ?_, ⟨by decide, by decide, by decide, by decide⟩, ⟨by decide, by decide⟩⟩
  · intro table_size b calls hb
    exact run_calls_invariant BHTPredictor.step (fun s => counters_in_range s.table)
      (fun _ => True) (fun s c _ hp => s.bht_step_range c hp) calls b (fun _ _ => trivial)
      (BHTPredictor.bht_create_range table_size b hb)
  · intro history_length table_size calls
    exact run_calls_invariant GSHARE.step (fun s => counters_in_range s.table)
      (fun _ => True) (fun s c _ hp => s.gshare_step_range c hp) calls _ (fun _ _ => trivial)
      (GSHARE.fresh_range history_length table_size)
  · intro calls
    exact run_calls_invariant TOURNAMENT_PREDICTOR.step
      (fun s => counters_in_range s.local_predictor_table ∧
        counters_in_range s.global_predictor_table ∧ counters_in_range s.chooser_table)
      (fun _ => True) (fun s c _ hp => s.tournament_step_range c hp) calls _ (fun _ _ => trivial)
      TOURNAMENT_PREDICTOR.tournament_create_range

/-- Witness of C5: the shipped bimodal table after ten taken updates at one address. -/
theorem counters_stay_in_range_witness :
    counters_in_range
      (BHTPredictor.shipped.run (List.replicate 10 (.update 0 0 5 true false 6))).state.table :=
  counters_stay_in_range.1 1024 BHTPredictor.shipped _ (by
    unfold BHTPredictor.create vec_resize
    rw [if_pos (by decide)]
    rfl)

/-! ## Bimodal predictor: member functions on a non-empty table -/

theorem BHTPredictor.create_eq (table_size : Int) (h : 0 ≤ table_size) :
    BHTPredictor.create table_size = .ok { table := List.replicate table_size.toNat 0 } := by
  have hv : vec_resize [] table_size 0 = .ok (List.replicate table_size.toNat 0) := by
    unfold vec_resize
    rw [if_pos h]
    simp
  unfold BHTPredictor.create
  simp only [hv]

theorem BHTPredictor.get_index_of_nonempty (b : BHTPredictor) (h0 : 0 < b.table.length)
    (h1 : b.table.length < 2147483648) (address : Nat) :
    b.get_index address = .ok ((address % b.table.length : Nat) : Int) ∧
    u64_of_int ((address % b.table.length : Nat) : Int) = address % b.table.length := by
  have hlt := Nat.mod_lt address h0
  constructor
  · unfold BHTPredictor.get_index
    rw [if_neg (by omega), int_of_u64_small _ (by omega)]
  · exact u64_of_int_natCast _ (by omega)

theorem BHTPredictor.predict_of_nonempty (b : BHTPredictor) (h0 : 0 < b.table.length)
    (h1 : b.table.length < 2147483648) (seq_no piece pc : Nat) (hint : Bool) :
    b.predict seq_no piece pc hint =
      (.ok (decide (b.table.getD (pc % b.table.length) 0 ≥ 2)), b) := by
  obtain ⟨hi, hu⟩ := b.get_index_of_nonempty h0 h1 pc
  unfold BHTPredictor.predict
  simp only [hi, hu, vec_read_of_lt _ _ (Nat.mod_lt pc h0)]

theorem BHTPredictor.update_of_nonempty (b : BHTPredictor) (h0 : 0 < b.table.length)
    (h1 : b.table.length < 2147483648) (seq_no piece pc : Nat) (resolve_dir pred_dir : Bool)
    (next_pc : Nat) :
    b.update seq_no piece pc resolve_dir pred_dir next_pc =
      (.ok (),
       { table := b.table.set (pc % b.table.length)
           (counter_update resolve_dir (b.table.getD (pc % b.table.length) 0)) }) := by
  obtain ⟨hi, hu⟩ := b.get_index_of_nonempty h0 h1 pc
  unfold BHTPredictor.update
  simp only [hi, hu, vec_modify_of_lt _ _ _ (Nat.mod_lt pc h0)]

theorem getD_set_self (v : List Int) (i : Nat) (x : Int) (h : i < v.length) :
    (v.set i x).getD i 0 = x := by
  simp [List.getD_eq_getElem?_getD, List.getElem?_set, h]

theorem getD_mem_range (v : List Int) (i : Nat) (h : i < v.length)
    (hr : counters_in_range v) : 0 ≤ v.getD i 0 ∧ v.getD i 0 ≤ 3 :=
  hr _ (List.getElem?_mem (getElem?_of_lt_getD v i h))

theorem counter_update_twice (x : Int) (h : 0 ≤ x) :
    counter_update true (counter_update true x) ≥ 2 := by
  unfold counter_update
  simp only [if_true]
  split_ifs <;> omega

/-! ## C6: bimodal learning -/

/-- C6: for a `BHTPredictor` with a non-empty table whose counters lie in `[0, 3]`
(in particular all `0`), `predict` at `pc` returns exactly the test "counter at
`pc % table.size()` is at least `2`", and after two consecutive `update` calls at `pc`
with `resolve_dir = true` (which complete) `predict` at `pc` returns `true`. -/
theorem BHTPredictor.learns_taken (b : BHTPredictor) (pc : Nat)
    (s1 p1 n1 s2 p2 n2 s3 p3 : Nat) (d1 d2 hint : Bool)
    (hpos : 0 < b.table.length) (hlen : b.table.length < 2147483648)
    (hr : counters_in_range b.table) :
    (∃ c, b.table[pc % b.table.length]? = some c ∧
      b.predict s3 p3 pc hint = (.ok (decide (c ≥ 2)), b)) ∧
    (∃ b1 b2, b.update s1 p1 pc true d1 n1 = (.ok (), b1) ∧
      b1.update s2 p2 pc true d2 n2 = (.ok (), b2) ∧
      b2.predict s3 p3 pc hint = (.ok true, b2)) := by
  have hi := Nat.mod_lt pc hpos
  constructor
  · exact ⟨_, getElem?_of_lt_getD _ _ hi, b.predict_of_nonempty hpos hlen s3 p3 pc hint⟩
  · have hl1 : (b.table.set (pc % b.table.length)
        (counter_update true (b.table.getD (pc % b.table.length) 0))).length
          = b.table.length := List.length_set _ _ _
    refine ⟨_, _, b.update_of_nonempty hpos hlen s1 p1 pc true d1 n1,
      BHTPredictor.update_of_nonempty _ (by rw [hl1]; exact hpos)
        (by rw [hl1]; exact hlen) s2 p2 pc true d2 n2, ?_⟩
    · rw [BHTPredictor.predict_of_nonempty _
        (by simp only [List.length_set]; exact hpos)
        (by simp only [List.length_set]; exact hlen) s3 p3 pc hint]
      simp only [List.length_set]
      rw [getD_set_self _ _ _ (by simp only [List.length_set]; exact hi),
        getD_set_self _ _ _ hi]
      have := counter_update_twice (b.table.getD (pc % b.table.length) 0)
        (getD_mem_range _ _ hi hr).1
      simp only [this, decide_True]

/-- Witness of C6 on the shipped `BHTPredictor(1024)` with all counters `0`. -/
theorem BHTPredictor.learns_taken_witness :
    (∃ c, BHTPredictor.shipped.table[5 % BHTPredictor.shipped.table.length]? = some c ∧
      BHTPredictor.shipped.predict 3 0 5 false = (.ok (decide (c ≥ 2)), BHTPredictor.shipped)) ∧
    (∃ b1 b2, BHTPredictor.shipped.update 1 0 5 true false 6 = (.ok (), b1) ∧
      b1.update 2 0 5 true false 6 = (.ok (), b2) ∧
      b2.predict 3 0 5 false = (.ok true, b2)) :=
  BHTPredictor.learns_taken BHTPredictor.shipped 5 1 0 6 2 0 6 3 0 false false false
    (by simp only [BHTPredictor.shipped, List.length_replicate]; decide)
    (by simp only [BHTPredictor.shipped, List.length_replicate]; decide)
    (counters_in_range_replicate _ 0 (by decide))

/-! ## C7: the prediction of a fresh predictor -/

theorem getElem?_replicate_of_lt (n i : Nat) (x : Int) (h : i < n) :
    (List.replicate n x)[i]? = some x := by
  rw [List.getElem?_replicate, if_pos h]

theorem getD_replicate_self (n i : Nat) (x : Int) : (List.replicate n x).getD i x = x := by
  simp only [List.getD_eq_getElem?_getD, List.getElem?_replicate]
  split <;> rfl

theorem TOURNAMENT_PREDICTOR.create_reads (pc : Nat) :
    create.local_predictor_table[local_index pc]? = some 1 ∧
    create.global_predictor_table[create.global_index pc]? = some 1 ∧
    create.chooser_table[chooser_index pc]? = some 1 := by
  have h1 : (1 <<< LOG_LOCAL_PREDICTOR_SIZE : Nat) = 16384 := by decide
  have h2 : (1 <<< LOG_GLOBAL_PREDICTOR_SIZE : Nat) = 16384 := by decide
  have h3 : (1 <<< LOG_CHOOSER_SIZE : Nat) = 16384 := by decide
  refine ⟨?_, ?_, ?_⟩
  · exact getElem?_replicate_of_lt _ _ _ (h1 ▸ (local_index_eq pc).2)
  · exact getElem?_replicate_of_lt _ _ _ (h2 ▸ (create.global_index_eq pc).2)
  · exact getElem?_replicate_of_lt _ _ _ (h3 ▸ (chooser_index_eq pc).2)

/-- C7: right after construction (and `setup()`), with no update applied, the
prediction is `false` for every `pc`: `BHTPredictor::predict` and `GSHARE::predict`
(for every `seq_no`, `piece < 16` and hint) on a table of positive size whose counters
start at `0`, and `TOURNAMENT_PREDICTOR::get_cond_dir_prediction`, whose chooser and
local counters start at `1`, below the threshold `2`, so that the local sub-prediction
is the one selected. -/
theorem fresh_state_predicts_not_taken :
    (∀ (table_size : Int) (b : BHTPredictor) (seq_no piece pc : Nat) (hint : Bool),
      0 < table_size → table_size < 2147483648 → BHTPredictor.create table_size = .ok b →
      b.predict seq_no piece pc hint = (.ok false, b)) ∧
    (∀ (history_length table_size : Int) (seq_no piece pc : Nat) (hint : Bool),
      0 < table_size → table_size < 2147483648 → piece < 16 →
      ((GSHARE.fresh history_length table_size).predict seq_no piece pc hint).1 = .ok false) ∧
    (∀ (pc : Nat),
      TOURNAMENT_PREDICTOR.create.chooser_table[TOURNAMENT_PREDICTOR.chooser_index pc]?
        = some 1 ∧
      TOURNAMENT_PREDICTOR.create.local_predictor_table[TOURNAMENT_PREDICTOR.local_index pc]?
        = some 1 ∧
      TOURNAMENT_PREDICTOR.create.get_cond_dir_prediction pc
        = (.ok false, TOURNAMENT_PREDICTOR.create)) := by
  refine ⟨?_, ?_, ?_⟩
  · intro table_size b seq_no piece pc hint h0 h1 hb
    rw [BHTPredictor.create_eq _ (le_of_lt h0)] at hb
    cases hb
    have hlen : (List.replicate table_size.toNat (0 : Int)).length = table_size.toNat :=
      List.length_replicate _ _
    rw [BHTPredictor.predict_of_nonempty _ (by rw [hlen]; omega) (by rw [hlen]; omega)]
    simp only [getD_replicate_self]
    rfl
  · intro history_length table_size seq_no piece pc hint h0 h1 hp
    have hs := GSHARE.fresh_setUp history_length table_size h0 h1
    have hid := GSHARE.get_unique_inst_id_of_lt seq_no piece hp
    rw [GSHARE.predict_of_setUp _ hs seq_no piece pc hint _ hid]
    have ht : (GSHARE.fresh history_length table_size).table
        = List.replicate table_size.toNat 0 := by
      rw [GSHARE.fresh_eq _ _ (le_of_lt h0)]
    simp only [ht, getD_replicate_self]
    rfl
  · intro pc
    obtain ⟨hl, hg, hc⟩ := TOURNAMENT_PREDICTOR.create_reads pc
    refine ⟨hc, hl, ?_⟩
    rw [TOURNAMENT_PREDICTOR.get_cond_dir_prediction_of_reads _ pc 1 1 1 hl hg hc]
    rfl

/-- Witness of C7 on the shipped configurations `BHTPredictor(1024)` and
`GSHARE(12, 4096)`. -/
theorem fresh_state_predicts_not_taken_witness :
    BHTPredictor.shipped.predict 1 0 5 true = (.ok false, BHTPredictor.shipped) ∧
    ((GSHARE.fresh 12 4096).predict 1 0 5 true).1 = .ok false :=
  ⟨fresh_state_predicts_not_taken.1 1024 BHTPredictor.shipped 1 0 5 true (by decide) (by decide)
      (BHTPredictor.create_eq 1024 (by decide)),
   fresh_state_predicts_not_taken.2.1 12 4096 1 0 5 true (by decide) (by decide)
      (by decide)⟩

/-! ## C8, C9: the chooser step of `update_predictor` -/

theorem TOURNAMENT_PREDICTOR.disagreeing_reads :
    disagreeing.local_predictor_table[local_index 0]? = some 1 ∧
    disagreeing.global_predictor_table[disagreeing.global_index 0]? = some 2 ∧
    disagreeing.chooser_table[chooser_index 0]? = some 1 := by
  have h1 : local_index 0 = 0 := by decide
  have h2 : disagreeing.global_index 0 = 1 := by decide
  have h3 : chooser_index 0 = 0 := by decide
  rw [h1, h2, h3]
  simp only [disagreeing, List.getElem?_set, List.getElem?_replicate, List.length_replicate]
  decide

/-- With the three reads in bounds `update_predictor` completes; the state it reaches,
chooser included, is explicit. -/
theorem TOURNAMENT_PREDICTOR.update_predictor_explicit (t : TOURNAMENT_PREDICTOR) (pc : Nat)
    (taken pred : Bool) (lc gc cc : Int)
    (hl : t.local_predictor_table[local_index pc]? = some lc)
    (hg : t.global_predictor_table[t.global_index pc]? = some gc)
    (hc : t.chooser_table[chooser_index pc]? = some cc) :
    t.update_predictor pc taken pred =
      (.ok (),
       { local_predictor_table := t.local_predictor_table.set (local_index pc)
           ((if taken then saturating_increment else saturating_decrement) lc),
         global_predictor_table := t.global_predictor_table.set (t.global_index pc)
           ((if taken then saturating_increment else saturating_decrement) gc),
         chooser_table :=
           if (decide (gc ≥ 2) == taken) && !(decide (lc ≥ 2) == taken) then
             t.chooser_table.set (chooser_index pc) (saturating_increment cc)
           else if !(decide (gc ≥ 2) == taken) && (decide (lc ≥ 2) == taken) then
             t.chooser_table.set (chooser_index pc) (saturating_decrement cc)
           else t.chooser_table,
         ghr := ((t.ghr * 2) % 18446744073709551616) ||| (if taken then 1 else 0) }) :=
  t.update_predictor_of_reads pc taken pred lc gc _ hl hg
    (update_chooser_of_read t.chooser_table (chooser_index pc) cc _ _ hc)

theorem TOURNAMENT_PREDICTOR.alternating_step_1 :
    create.update_predictor 0 true false = (.ok (), alternating_1) := by
  rw [update_predictor_explicit create 0 true false 1 1 1 (create_reads 0).1
    (create_reads 0).2.1 (create_reads 0).2.2]
  rfl

theorem TOURNAMENT_PREDICTOR.alternating_reads_1 :
    alternating_1.local_predictor_table[local_index 0]? = some 2 ∧
    alternating_1.global_predictor_table[alternating_1.global_index 0]? = some 1 ∧
    alternating_1.chooser_table[chooser_index 0]? = some 1 := by
  have h1 : local_index 0 = 0 := by decide
  have h2 : alternating_1.global_index 0 = 1 := by decide
  have h3 : chooser_index 0 = 0 := by decide
  rw [h1, h2, h3]
  simp only [alternating_1, create, List.getElem?_set, List.getElem?_replicate,
    List.length_replicate, List.length_set]
  decide

theorem TOURNAMENT_PREDICTOR.alternating_step_2 :
    alternating_1.update_predictor 0 false false = (.ok (), alternating_2) := by
  rw [update_predictor_explicit alternating_1 0 false false 2 1 1 alternating_reads_1.1
    alternating_reads_1.2.1 alternating_reads_1.2.2]
  rfl

theorem TOURNAMENT_PREDICTOR.alternating_reads_2 :
    alternating_2.local_predictor_table[local_index 0]? = some 1 ∧
    alternating_2.global_predictor_table[alternating_2.global_index 0]? = some 1 ∧
    alternating_2.chooser_table[chooser_index 0]? = some 2 := by
  have h1 : local_index 0 = 0 := by decide
  have h2 : alternating_2.global_index 0 = 2 := by decide
  have h3 : chooser_index 0 = 0 := by decide
  rw [h1, h2, h3]
  simp only [alternating_2, alternating_1, create, List.getElem?_set,
    List.getElem?_replicate, List.length_replicate, List.length_set]
  decide

theorem TOURNAMENT_PREDICTOR.alternating_step_3 :
    alternating_2.update_predictor 0 true false = (.ok (), alternating_3) := by
  rw [update_predictor_explicit alternating_2 0 true false 1 1 2 alternating_reads_2.1
    alternating_reads_2.2.1 alternating_reads_2.2.2]
  rfl

theorem TOURNAMENT_PREDICTOR.alternating_reads_3 :
    alternating_3.local_predictor_table[local_index 0]? = some 2 ∧
    alternating_3.global_predictor_table[alternating_3.global_index 0]? = some 1 ∧
    alternating_3.chooser_table[chooser_index 0]? = some 2 := by
  have h1 : local_index 0 = 0 := by decide
  have h2 : alternating_3.global_index 0 = 5 := by decide
  have h3 : chooser_index 0 = 0 := by decide
  rw [h1, h2, h3]
  simp only [alternating_3, alternating_2, alternating_1, create, List.getElem?_set,
    List.getElem?_replicate, List.length_replicate, List.length_set]
  decide

theorem TOURNAMENT_PREDICTOR.alternating_step_4 :
    alternating_3.update_predictor 0 false false = (.ok (), alternating_4) := by
  rw [update_predictor_explicit alternating_3 0 false false 2 1 2 alternating_reads_3.1
    alternating_reads_3.2.1 alternating_reads_3.2.2]
  rfl

theorem TOURNAMENT_PREDICTOR.alternating_reads_4 :
    alternating_4.local_predictor_table[local_index 0]? = some 1 ∧
    alternating_4.global_predictor_table[alternating_4.global_index 0]? = some 1 ∧
    alternating_4.chooser_table[chooser_index 0]? = some 3 := by
  have h1 : local_index 0 = 0 := by decide
  have h2 : alternating_4.global_index 0 = 10 := by decide
  have h3 : chooser_index 0 = 0 := by decide
  rw [h1, h2, h3]
  simp only [alternating_4, alternating_3, alternating_2, alternating_1, create,
    List.getElem?_set, List.getElem?_replicate, List.length_replicate, List.length_set]
  decide

theorem TOURNAMENT_PREDICTOR.alternating_step_5 :
    alternating_4.update_predictor 0 true false = (.ok (), alternating_5) := by
  rw [update_predictor_explicit alternating_4 0 true false 1 1 3 alternating_reads_4.1
    alternating_reads_4.2.1 alternating_reads_4.2.2]
  rfl

theorem TOURNAMENT_PREDICTOR.alternating_reads_5 :
    alternating_5.local_predictor_table[local_index 0]? = some 2 ∧
    alternating_5.global_predictor_table[alternating_5.global_index 0]? = some 1 ∧
    alternating_5.chooser_table[chooser_index 0]? = some 3 := by
  have h1 : local_index 0 = 0 := by decide
  have h2 : alternating_5.global_index 0 = 21 := by decide
  have h3 : chooser_index 0 = 0 := by decide
  rw [h1, h2, h3]
  simp only [alternating_5, alternating_4, alternating_3, alternating_2, alternating_1,
    create, List.getElem?_set, List.getElem?_replicate, List.length_replicate,
    List.length_set]
  decide

/-- The five alternating calls run without fault from the constructed predictor and
reach `alternating_5`. -/
theorem TOURNAMENT_PREDICTOR.alternating_reached :
    (create.run alternating_calls).fault = none ∧
    (create.run alternating_calls).state = alternating_5 := by
  simp only [run, alternating_calls, run_calls, step, no_output, alternating_step_1,
    alternating_step_2, alternating_step_3, alternating_step_4, alternating_step_5,
    Except.map, and_self]

/-- C8 (as amended): when the local sub-prediction `lc >= 2` and the global
sub-prediction `gc >= 2` recomputed in `update_predictor` disagree and the global one
equals `taken`, `update_predictor(pc, taken, pred)` completes and replaces the chooser
counter `c` at index `pc % 2^14` by `c + 1` when `c < 3` and leaves it as it is when
`c >= 3`; no other chooser entry changes. -/
theorem TOURNAMENT_PREDICTOR.chooser_moves_toward_global (t : TOURNAMENT_PREDICTOR)
    (pc : Nat) (taken pred : Bool) (lc gc c : Int)
    (hl : t.local_predictor_table[local_index pc]? = some lc)
    (hg : t.global_predictor_table[t.global_index pc]? = some gc)
    (hc : t.chooser_table[pc % 2 ^ 14]? = some c)
    (hdis : decide (lc ≥ 2) ≠ decide (gc ≥ 2))
    (hglob : decide (gc ≥ 2) = taken) :
    (t.update_predictor pc taken pred).1 = .ok () ∧
    (t.update_predictor pc taken pred).2.chooser_table
      = t.chooser_table.set (pc % 2 ^ 14) (if c < 3 then c + 1 else c) := by
  rw [← (chooser_index_eq pc).1] at hc ⊢
  have hloc : (decide (lc ≥ 2) == taken) = false := by
    rw [← hglob]
    cases h1 : decide (lc ≥ 2) <;> cases h2 : decide (gc ≥ 2) <;> simp_all
  have hgl : (decide (gc ≥ 2) == taken) = true := by
    rw [hglob]; simp
  have hch := update_chooser_of_read t.chooser_table (chooser_index pc) c
    (decide (lc ≥ 2) == taken) (decide (gc ≥ 2) == taken) hc
  rw [hloc, hgl] at hch
  simp only [Bool.not_false, Bool.and_self, if_true] at hch
  have hloc' : (decide (lc ≥ 2) == taken) = false := hloc
  rw [t.update_predictor_of_reads pc taken pred lc gc _ hl hg (by rw [hloc, hgl]; exact hch)]
  exact ⟨rfl, rfl⟩

/-- Witness of C8 (as amended): a chooser counter at `1` moves to `2`. -/
theorem TOURNAMENT_PREDICTOR.chooser_moves_toward_global_witness :
    (disagreeing.update_predictor 0 true false).1 = .ok () ∧
    (disagreeing.update_predictor 0 true false).2.chooser_table
      = disagreeing.chooser_table.set (0 % 2 ^ 14) (if (1 : Int) < 3 then 1 + 1 else 1) :=
  chooser_moves_toward_global disagreeing 0 true false 1 2 1
    disagreeing_reads.1 disagreeing_reads.2.1
    (by simp only [disagreeing, List.getElem?_replicate]; decide)
    (by decide) (by decide)

/-- Counterexample to C8 as stated: after a branch at address `0` has resolved
alternately taken and not taken five times, the local sub-prediction is taken, the
global one is not-taken and the chooser counter at index `0` is `3`; the branch then
resolves not taken, so the two sub-predictions disagree and the global one equals the
outcome, and after `update_predictor(0, false, _)` the chooser counter is still `3`,
not `4`. -/
theorem TOURNAMENT_PREDICTOR.saturated_chooser_not_incremented :
    (create.run alternating_calls).fault = none ∧
    (create.run alternating_calls).state = alternating_5 ∧
    alternating_5.local_predictor_table[local_index 0]? = some 2 ∧
    alternating_5.global_predictor_table[alternating_5.global_index 0]? = some 1 ∧
    alternating_5.chooser_table[0 % 2 ^ 14]? = some 3 ∧
    (alternating_5.update_predictor 0 false true).1 = .ok () ∧
    (alternating_5.update_predictor 0 false true).2.chooser_table[0 % 2 ^ 14]?
      = some 3 := by
  obtain ⟨hl, hg, hc⟩ := alternating_reads_5
  have hc0 : alternating_5.chooser_table[0 % 2 ^ 14]? = some 3 := hc
  refine ⟨alternating_reached.1, alternating_reached.2, hl, hg, hc0, ?_, ?_⟩
  · rw [update_predictor_explicit alternating_5 0 false true 2 1 3 hl hg hc]
  · rw [update_predictor_explicit alternating_5 0 false true 2 1 3 hl hg hc]
    have h3 : chooser_index 0 = 0 := by decide
    have hcond : ((decide ((1 : Int) ≥ 2) == false) && !(decide ((2 : Int) ≥ 2) == false))
        = true := by decide
    simp only [hcond, if_true, h3]
    simp only [alternating_5, alternating_4, alternating_3, alternating_2, alternating_1,
      create, List.getElem?_set, List.length_replicate, List.length_set]
    decide

/-- C9: when the local sub-prediction `lc >= 2` and the global sub-prediction `gc >= 2`
recomputed in `update_predictor` agree (both equal to the outcome or both different
from it), `update_predictor` completes and leaves the whole chooser table unchanged. -/
theorem TOURNAMENT_PREDICTOR.chooser_unchanged_on_agreement (t : TOURNAMENT_PREDICTOR)
    (pc : Nat) (taken pred : Bool) (lc gc : Int)
    (hl : t.local_predictor_table[local_index pc]? = some lc)
    (hg : t.global_predictor_table[t.global_index pc]? = some gc)
    (hagree : decide (lc ≥ 2) = decide (gc ≥ 2)) :
    (t.update_predictor pc taken pred).1 = .ok () ∧
    (t.update_predictor pc taken pred).2.chooser_table = t.chooser_table := by
  have hch : update_chooser t.chooser_table (chooser_index pc)
      (decide (lc ≥ 2) == taken) (decide (gc ≥ 2) == taken) = .ok t.chooser_table := by
    rw [hagree]
    unfold update_chooser
    cases (decide (gc ≥ 2) == taken) <;> rfl
  rw [t.update_predictor_of_reads pc taken pred lc gc _ hl hg hch]
  exact ⟨rfl, rfl⟩

/-- Witness of C9 on the freshly constructed predictor: both sub-predictions are
not-taken, and the chooser table is unchanged for a taken outcome (both wrong). -/
theorem TOURNAMENT_PREDICTOR.chooser_unchanged_on_agreement_witness :
    (create.update_predictor 0 true false).1 = .ok () ∧
    (create.update_predictor 0 true false).2.chooser_table = create.chooser_table :=
  chooser_unchanged_on_agreement create 0 true false 1 1
    (create_reads 0).1 (create_reads 0).2.1 (by decide)

/-! ## C10: the chooser selects the returned sub-prediction -/

/-- C10: in every state whose tables have the constructor's lengths,
`get_cond_dir_prediction(pc)` completes, leaves the state unchanged and returns the
global sub-prediction `global_table[(pc xor (ghr and 4095)) mod 2^14] >= 2` when the
chooser counter at `pc mod 2^14` is at least `2`, and the local sub-prediction
`local_table[pc mod 2^14] >= 2` otherwise. -/
theorem TOURNAMENT_PREDICTOR.prediction_selected_by_chooser (t : TOURNAMENT_PREDICTOR)
    (pc : Nat) (hs : t.Sized) :
    ∃ lc gc cc : Int,
      t.local_predictor_table[pc % 2 ^ 14]? = some lc ∧
      t.global_predictor_table[(pc ^^^ (t.ghr &&& 4095)) % 2 ^ 14]? = some gc ∧
      t.chooser_table[pc % 2 ^ 14]? = some cc ∧
      t.get_cond_dir_prediction pc =
        (.ok (if cc ≥ 2 then decide (gc ≥ 2) else decide (lc ≥ 2)), t) := by
  obtain ⟨hl, hg, hc⟩ := t.reads_of_sized hs pc
  refine ⟨_, _, _, ?_, ?_, ?_, t.get_cond_dir_prediction_of_reads pc _ _ _ hl hg hc⟩
  · rw [← (local_index_eq pc).1]; exact hl
  · rw [← (t.global_index_eq pc).1]; exact hg
  · rw [← (chooser_index_eq pc).1]; exact hc

/-- Witness of C10 on the freshly constructed predictor. -/
theorem TOURNAMENT_PREDICTOR.prediction_selected_by_chooser_witness :
    ∃ lc gc cc : Int,
      create.local_predictor_table[5 % 2 ^ 14]? = some lc ∧
      create.global_predictor_table[(5 ^^^ (create.ghr &&& 4095)) % 2 ^ 14]? = some gc ∧
      create.chooser_table[5 % 2 ^ 14]? = some cc ∧
      create.get_cond_dir_prediction 5 =
        (.ok (if cc ≥ 2 then decide (gc ≥ 2) else decide (lc ≥ 2)), create) :=
  prediction_selected_by_chooser create 5 create_sized

/-! ## C11: both base predictors learn from every resolved branch -/

/-- In 64 bits, `(x << 1) | bit` is `(x << 1) + bit`. -/
theorem shift_or_bit (x : Nat) (b : Bool) :
    ((x * 2) % 18446744073709551616) ||| (if b then 1 else 0)
      = (x * 2) % 18446744073709551616 + (if b then 1 else 0) := by
  have h : (x * 2) % 18446744073709551616 = 2 ^ 1 * (x % 9223372036854775808) := by omega
  have hb : (if b then 1 else 0) < 2 ^ 1 := by cases b <;> decide
  rw [h]
  exact (Nat.mul_add_lt_is_or hb _).symm

theorem GSHARE.history_update_value (g : GSHARE) (h0 : 0 ≤ g.history_length)
    (h1 : g.history_length < 64) (seq_no piece PC : Nat) (taken : Bool) (nextPC : Nat) :
    (g.history_update seq_no piece PC taken nextPC).2.active_hist.ghist =
      (((g.active_hist.ghist * 2) % 18446744073709551616) ||| (if taken then 1 else 0))
        % 2 ^ g.history_length.toNat := by
  rw [g.history_update_of_valid h0 h1]
  simp only [Nat.and_pow_two_sub_one_eq_mod]
  cases taken
  · simp
  · simp

theorem pow_toNat_dvd (n : Int) (h0 : 0 ≤ n) (h1 : n < 64) :
    2 ^ n.toNat ∣ 18446744073709551616 := by
  have : 18446744073709551616 = 2 ^ 64 := by norm_num
  rw [this]
  exact Nat.pow_dvd_pow 2 (by omega)

/-- C12: for a `GSHARE` with `0 <= history_length < 64`, every live history value `h`
and every direction bit `b`, `history_update` completes and sets the live history to
`((h << 1) | b) mod 2^history_length` (the shift in 64 bits; the same value as
`(2 h + b) mod 2^history_length`), which is below `2^history_length`; and in every
state reached from the fresh predictor by any call sequence the live history is below
`2^history_length`. -/
theorem GSHARE.history_advance :
    (∀ (g : GSHARE) (seq_no piece PC : Nat) (b : Bool) (nextPC : Nat),
      0 ≤ g.history_length → g.history_length < 64 →
      (g.history_update seq_no piece PC b nextPC).1 = .ok () ∧
      (g.history_update seq_no piece PC b nextPC).2.active_hist.ghist =
        (((g.active_hist.ghist * 2) % 18446744073709551616) ||| (if b then 1 else 0))
          % 2 ^ g.history_length.toNat ∧
      (g.history_update seq_no piece PC b nextPC).2.active_hist.ghist =
        (g.active_hist.ghist * 2 + (if b then 1 else 0)) % 2 ^ g.history_length.toNat ∧
      (g.history_update seq_no piece PC b nextPC).2.active_hist.ghist
        < 2 ^ g.history_length.toNat) ∧
    (∀ (history_length table_size : Int) (calls : List GCall),
      0 ≤ history_length → history_length < 64 →
      ((GSHARE.fresh history_length table_size).run calls).state.active_hist.ghist
        < 2 ^ history_length.toNat) := by
  constructor
  · intro g seq_no piece PC b nextPC h0 h1
    have hv := g.history_update_value h0 h1 seq_no piece PC b nextPC
    have hpos : 0 < 2 ^ g.history_length.toNat := Nat.two_pow_pos _
    refine ⟨?_, hv, ?_, ?_⟩
    · rw [g.history_update_of_valid h0 h1]
    · rw [hv, shift_or_bit, Nat.add_mod, Nat.mod_mod_of_dvd _ (pow_toNat_dvd _ h0 h1),
        ← Nat.add_mod]
    · rw [hv]; exact Nat.mod_lt _ hpos
  · intro history_length table_size calls h0 h1
    have hinv := run_calls_invariant GSHARE.step
      (fun s => s.history_length = history_length ∧
        s.active_hist.ghist < 2 ^ history_length.toNat)
      (fun _ => True)
      (by
        intro s c _ hp
        obtain ⟨hl, hlt⟩ := hp
        refine ⟨by rw [(s.step_frame c).2.2]; exact hl, ?_⟩
        cases c with
        | predict sq p pc h =>
          simp only [GSHARE.step, with_output]
          rw [(s.predict_frame sq p pc h).2.2.2]; exact hlt
        | history_update sq p pc d n =>
          simp only [GSHARE.step, no_output]
          rw [s.history_update_value (hl ▸ h0) (hl ▸ h1), hl]
          exact Nat.mod_lt _ (Nat.two_pow_pos _)
        | update sq p pc d q n =>
          simp only [GSHARE.step, no_output]
          rw [(s.update_frame sq p pc d q n).2.2.2]; exact hlt)
      calls (GSHARE.fresh history_length table_size) (fun _ _ => trivial)
      (by
        unfold GSHARE.fresh GSHARE.setup GSHARE.create
        split
        · exact ⟨rfl, Nat.two_pow_pos _⟩
        · exact ⟨rfl, Nat.two_pow_pos _⟩)
    exact hinv.2

/-- Witness of C12 on the shipped configuration with `(1, 0)` pending and history `1`:
a taken `history_update` gives `3`, and the history stays below `2^12` along a run. -/
theorem GSHARE.history_advance_witness :
    ((GSHARE.one_pending.history_update 1 0 5 true 6).1 = .ok () ∧
      (GSHARE.one_pending.history_update 1 0 5 true 6).2.active_hist.ghist =
        (((GSHARE.one_pending.active_hist.ghist * 2) % 18446744073709551616)
          ||| (if true then 1 else 0)) % 2 ^ GSHARE.one_pending.history_length.toNat ∧
      (GSHARE.one_pending.history_update 1 0 5 true 6).2.active_hist.ghist =
        (GSHARE.one_pending.active_hist.ghist * 2 + (if true then 1 else 0))
          % 2 ^ GSHARE.one_pending.history_length.toNat ∧
      (GSHARE.one_pending.history_update 1 0 5 true 6).2.active_hist.ghist
        < 2 ^ GSHARE.one_pending.history_length.toNat) ∧
    ((GSHARE.fresh 12 4096).run GSHARE.two_in_flight).state.active_hist.ghist
      < 2 ^ (12 : Int).toNat :=
  ⟨GSHARE.history_advance.1 GSHARE.one_pending 1 0 5 true 6 (by decide) (by decide),
   GSHARE.history_advance.2 12 4096 GSHARE.two_in_flight (by decide) (by decide)⟩

/-! ## C13: the tournament history register -/

theorem TOURNAMENT_PREDICTOR.update_predictor_sized (t : TOURNAMENT_PREDICTOR) (hs : t.Sized)
    (pc : Nat) (taken pred : Bool) :
    (t.update_predictor pc taken pred).1 = .ok () ∧
    (t.update_predictor pc taken pred).2.Sized ∧
    (t.update_predictor pc taken pred).2.ghr = shifted_history t.ghr taken := by
  obtain ⟨hl, hg, hc⟩ := t.reads_of_sized hs pc
  rw [t.update_predictor_explicit pc taken pred _ _ _ hl hg hc]
  refine ⟨rfl, ?_, rfl⟩
  obtain ⟨a, b, c⟩ := hs
  refine ⟨?_, ?_, ?_⟩
  · simp only [List.length_set]; exact a
  · simp only [List.length_set]; exact b
  · dsimp only
    split
    · simp only [List.length_set]; exact c
    · split
      · simp only [List.length_set]; exact c
      · exact c

theorem TOURNAMENT_PREDICTOR.get_cond_dir_prediction_sized (t : TOURNAMENT_PREDICTOR)
    (hs : t.Sized) (pc : Nat) :
    ∃ b, t.get_cond_dir_prediction pc = (.ok b, t) := by
  obtain ⟨hl, hg, hc⟩ := t.reads_of_sized hs pc
  exact ⟨_, t.get_cond_dir_prediction_of_reads pc _ _ _ hl hg hc⟩

/-- From a state with tables of the constructor's lengths no call sequence faults, the
lengths are kept and the history register is the unmasked fold of the outcomes. -/
theorem TOURNAMENT_PREDICTOR.run_sized (calls : List TCall) :
    ∀ (t : TOURNAMENT_PREDICTOR), t.Sized →
      (t.run calls).fault = none ∧ (t.run calls).state.Sized ∧
      (t.run calls).state.ghr = history_after t.ghr calls := by
  induction calls with
  | nil => intro t hs; exact ⟨rfl, hs, rfl⟩
  | cons c cs ih =>
    intro t hs
    cases c with
    | get_cond_dir_prediction pc =>
      obtain ⟨b, hb⟩ := t.get_cond_dir_prediction_sized hs pc
      have hstep : t.step (.get_cond_dir_prediction pc) = (.ok (some b), t) := by
        simp only [step, with_output, hb, Except.map]
      simp only [run]
      rw [run_calls_cons_ok _ _ _ _ _ _ hstep]
      exact ih t hs
    | update_predictor pc d q =>
      obtain ⟨h1, h2, h3⟩ := t.update_predictor_sized hs pc d q
      have hstep : t.step (.update_predictor pc d q)
          = (.ok none, (t.update_predictor pc d q).2) := by
        simp only [step, no_output, h1, Except.map]
      simp only [run]
      rw [run_calls_cons_ok _ _ _ _ _ _ hstep]
      obtain ⟨r1, r2, r3⟩ := ih _ h2
      refine ⟨r1, r2, ?_⟩
      simp only [run] at r3
      rw [r3, h3]
      rfl

theorem TOURNAMENT_PREDICTOR.shifted_history_lt (ghr : Nat) (taken : Bool) :
    shifted_history ghr taken < 18446744073709551616 := by
  unfold shifted_history
  rw [shift_or_bit]
  cases taken
  · simp only [Bool.false_eq_true, if_false]; omega
  · simp only [if_true]; omega

theorem TOURNAMENT_PREDICTOR.history_after_lt (calls : List TCall) :
    ∀ ghr, ghr < 18446744073709551616 → history_after ghr calls < 18446744073709551616 := by
  induction calls with
  | nil => intro ghr h; exact h
  | cons c cs ih =>
    intro ghr h
    cases c with
    | get_cond_dir_prediction pc => exact ih ghr h
    | update_predictor pc d q => exact ih _ (shifted_history_lt ghr d)

/-- C13 (as amended): `update_predictor` shifts `ghr` left and inserts the outcome in the
low bit without masking it to the history width: in every state reached from the
constructed predictor no call has faulted, `ghr` is the 64-bit value
`(ghr << 1) | taken` folded over the resolved outcomes, it is below `2^64`, and only the
value `ghr & history_mask` that enters the global index is below
`2^GLOBAL_HISTORY_LENGTH = 4096`. -/
theorem TOURNAMENT_PREDICTOR.history_register_unmasked (calls : List TCall) :
    (create.run calls).fault = none ∧
    (create.run calls).state.ghr = history_after 0 calls ∧
    (create.run calls).state.ghr < 2 ^ 64 ∧
    (create.run calls).state.ghr &&& history_mask < 2 ^ GLOBAL_HISTORY_LENGTH ∧
    (2 : Nat) ^ GLOBAL_HISTORY_LENGTH = 4096 := by
  obtain ⟨r1, _, r3⟩ := run_sized calls create create_sized
  have h0 : create.ghr = 0 := rfl
  rw [h0] at r3
  refine ⟨r1, r3, ?_, ?_, by decide⟩
  · rw [r3]
    exact history_after_lt calls 0 (by decide)
  · exact Nat.and_lt_two_pow _ (by decide)

/-- Counterexample to C13 as stated: after thirteen taken resolutions from the
constructed predictor the run has not faulted and `ghr` is `8191`, which is not below
`2^GLOBAL_HISTORY_LENGTH = 4096`. -/
theorem TOURNAMENT_PREDICTOR.history_register_exceeds_width :
    (create.run thirteen_taken).fault = none ∧
    (create.run thirteen_taken).state.ghr = 8191 ∧
    ¬ (create.run thirteen_taken).state.ghr < 2 ^ GLOBAL_HISTORY_LENGTH := by
  obtain ⟨r1, _, r3⟩ := run_sized thirteen_taken create create_sized
  have h : history_after create.ghr thirteen_taken = 8191 := by decide
  rw [h] at r3
  refine ⟨r1, r3, ?_⟩
  rw [r3]
  decide

/-! ## C14: what `setup` accepts -/

theorem GSHARE.setup_of_nonneg (history_length table_size : Int) (h : 0 ≤ table_size) :
    (GSHARE.create history_length table_size).setup =
      (.ok (), { GSHARE.create history_length table_size with
        table := List.replicate table_size.toNat 0 }) := by
  have hv : vec_resize [] table_size 0 = .ok (List.replicate table_size.toNat 0) := by
    unfold vec_resize
    rw [if_pos h]
    simp
  unfold GSHARE.setup GSHARE.create
  simp only [hv]

theorem GSHARE.setup_of_neg (history_length table_size : Int) (h : table_size < 0) :
    (GSHARE.create history_length table_size).setup =
      (.error .length_error, GSHARE.create history_length table_size) := by
  have hv : vec_resize [] table_size 0 = .error .length_error := by
    unfold vec_resize
    rw [if_neg (by omega)]
  unfold GSHARE.setup GSHARE.create
  simp only [hv]

theorem BHTPredictor.create_of_neg (table_size : Int) (h : table_size < 0) :
    BHTPredictor.create table_size = .error .length_error := by
  have hv : vec_resize [] table_size 0 = .error .length_error := by
    unfold vec_resize
    rw [if_neg (by omega)]
  unfold BHTPredictor.create
  simp only [hv]

/-- On a freshly set-up `GSHARE` with a positive `table_size`, `predict` completes with
`false` and the `update` of the instruction just predicted completes. -/
theorem GSHARE.fresh_predict_then_update (history_length table_size : Int)
    (seq_no piece pc nextPC : Nat) (hint d q : Bool) (h0 : 0 < table_size)
    (h1 : table_size < 2147483648) (hp : piece < 16) :
    ((GSHARE.fresh history_length table_size).predict seq_no piece pc hint).1 = .ok false ∧
    (((GSHARE.fresh history_length table_size).predict seq_no piece pc hint).2.update
      seq_no piece pc d q nextPC).1 = .ok () := by
  have hs := GSHARE.fresh_setUp history_length table_size h0 h1
  have hid := GSHARE.get_unique_inst_id_of_lt seq_no piece hp
  have hpr := GSHARE.predict_of_setUp _ hs seq_no piece pc hint _ hid
  have ht : (GSHARE.fresh history_length table_size).table
      = List.replicate table_size.toNat 0 := by
    rw [GSHARE.fresh_eq _ _ (le_of_lt h0)]
  have hl : (GSHARE.fresh history_length table_size).pred_time_histories = [] := by
    rw [GSHARE.fresh_eq _ _ (le_of_lt h0)]
  rw [hpr]
  constructor
  · simp only [ht, getD_replicate_self]
    rfl
  · have hs1 : GSHARE.SetUp
        { GSHARE.fresh history_length table_size with
          active_hist :=
            { (GSHARE.fresh history_length table_size).active_hist with tage_pred := hint },
          pred_time_histories :=
            map_emplace (GSHARE.fresh history_length table_size).pred_time_histories
              (((seq_no * 16) % 18446744073709551616) ||| (piece &&& 15))
              { (GSHARE.fresh history_length table_size).active_hist with
                tage_pred := hint } } := hs
    rw [GSHARE.update_of_setUp _ hs1 seq_no piece pc d q nextPC _ _ hid
      (map_at_emplace_self _ _ _ (by rw [hl]; rfl))]

theorem GSHARE.get_index_of_zero (g : GSHARE) (h : g.table_size = 0) (pc ghr : Nat) :
    g.get_index pc ghr = .error .undefined_behaviour := by
  unfold GSHARE.get_index
  rw [h]
  rfl

theorem GSHARE.predict_of_zero (g : GSHARE) (h : g.table_size = 0) (seq_no piece pc : Nat)
    (hint : Bool) (hp : piece < 16) :
    (g.predict seq_no piece pc hint).1 = .error .undefined_behaviour := by
  have hid := GSHARE.get_unique_inst_id_of_lt seq_no piece hp
  have hz : ∀ (a : SampleHist) (l : List (Nat × SampleHist)),
      GSHARE.get_index { g with active_hist := a, pred_time_histories := l } pc
        g.active_hist.ghist = .error .undefined_behaviour :=
    fun a l => GSHARE.get_index_of_zero _ h pc _
  unfold GSHARE.predict
  simp only [hid, hz]

/-- C14 (as amended): neither predictor validates its table size.  `GSHARE::setup`
completes for every `table_size >= 0`, zero and non-powers of two included, leaving a
table of `table_size` zero counters, and fails only for a negative `table_size`, with
the `std::length_error` of `vector::resize`.  After `setup` with a positive
`table_size`, power of two or not, `predict` and the matching `update` complete, with
the index `(ghr xor (pc & (table_size - 1))) mod table_size`; after `setup` with
`table_size = 0`, `predict` divides by zero.  The `BHTPredictor` constructor sizes its
table in the same way, `BHTPredictor::setup` always completes without doing anything,
and on a `BHTPredictor` built with `table_size = 0` `predict` and `update` divide by
zero. -/
theorem setup_validates_nothing :
    (∀ (history_length table_size : Int), 0 ≤ table_size →
      (GSHARE.create history_length table_size).setup =
        (.ok (), { GSHARE.create history_length table_size with
          table := List.replicate table_size.toNat 0 })) ∧
    (∀ (history_length table_size : Int), table_size < 0 →
      (GSHARE.create history_length table_size).setup =
        (.error .length_error, GSHARE.create history_length table_size)) ∧
    (∀ (history_length table_size : Int) (seq_no piece pc nextPC : Nat) (hint d q : Bool),
      0 < table_size → table_size < 2147483648 → piece < 16 →
      ((GSHARE.create history_length table_size).setup.2.predict seq_no piece pc hint).1
        = .ok false ∧
      (((GSHARE.create history_length table_size).setup.2.predict seq_no piece pc hint).2.update
        seq_no piece pc d q nextPC).1 = .ok () ∧
      ∀ ghr : Nat, (GSHARE.create history_length table_size).setup.2.get_index pc ghr
        = .ok (((ghr ^^^ (pc &&& (table_size.toNat - 1))) % table_size.toNat : Nat) : Int)) ∧
    (∀ (history_length : Int) (seq_no piece pc : Nat) (hint : Bool), piece < 16 →
      ((GSHARE.create history_length 0).setup.2.predict seq_no piece pc hint).1
        = .error .undefined_behaviour) ∧
    (∀ (table_size : Int), 0 ≤ table_size →
      BHTPredictor.create table_size = .ok { table := List.replicate table_size.toNat 0 }) ∧
    (∀ (table_size : Int), table_size < 0 →
      BHTPredictor.create table_size = .error .length_error) ∧
    (∀ (b : BHTPredictor), b.setup = (.ok (), b)) ∧
    (∀ (b : BHTPredictor) (seq_no piece pc next_pc : Nat) (hint d q : Bool),
      BHTPredictor.create 0 = .ok b →
      (b.setup.2.predict seq_no piece pc hint).1 = .error .undefined_behaviour ∧
      (b.setup.2.update seq_no piece pc d q next_pc).1 = .error .undefined_behaviour) := by
  refine ⟨GSHARE.setup_of_nonneg, GSHARE.setup_of_neg, ?_, ?_, BHTPredictor.create_eq,
    BHTPredictor.create_of_neg, fun _ => rfl, ?_⟩
  · intro history_length table_size seq_no piece pc nextPC hint d q h0 h1 hp
    have h := GSHARE.fresh_predict_then_update history_length table_size seq_no piece pc
      nextPC hint d q h0 h1 hp
    have hs := GSHARE.fresh_setUp history_length table_size h0 h1
    refine ⟨h.1, h.2, ?_⟩
    intro ghr
    have hi := (GSHARE.get_index_of_setUp _ hs pc ghr).1
    have hts : (GSHARE.fresh history_length table_size).table_size = table_size := by
      rw [GSHARE.fresh_eq _ _ (le_of_lt h0)]
    unfold GSHARE.position at hi
    rw [hts] at hi
    exact hi
  · intro history_length seq_no piece pc hint hp
    have hts : (GSHARE.create history_length 0).setup.2.table_size = 0 := by
      rw [GSHARE.setup_of_nonneg _ _ (le_refl 0)]
      rfl
    exact GSHARE.predict_of_zero _ hts seq_no piece pc hint hp
  · intro b seq_no piece pc next_pc hint d q hb
    rw [BHTPredictor.create_eq 0 (le_refl 0)] at hb
    cases hb
    exact ⟨rfl, rfl⟩

/-- Witness of C14 (as amended): a `GSHARE` with `table_size = 6` is set up and then
predicts and updates, one with `table_size = -1` is not set up, and a `BHTPredictor`
built with `table_size = 0` divides by zero in `predict`. -/
theorem setup_validates_nothing_witness :
    (GSHARE.create 12 6).setup =
      (.ok (), { GSHARE.create 12 6 with table := List.replicate (6 : Int).toNat 0 }) ∧
    (GSHARE.create 12 (-1)).setup = (.error .length_error, GSHARE.create 12 (-1)) ∧
    (((GSHARE.create 12 6).setup.2.predict 1 0 5 false).1 = .ok false ∧
      (((GSHARE.create 12 6).setup.2.predict 1 0 5 false).2.update 1 0 5 true false 6).1
        = .ok () ∧
      ∀ ghr : Nat, (GSHARE.create 12 6).setup.2.get_index 5 ghr
        = .ok (((ghr ^^^ (5 &&& ((6 : Int).toNat - 1))) % (6 : Int).toNat : Nat) : Int)) ∧
    ((BHTPredictor.setup { table := List.replicate (0 : Int).toNat 0 }).2.predict 1 0 5 false).1
      = .error .undefined_behaviour :=
  ⟨setup_validates_nothing.1 12 6 (by decide), setup_validates_nothing.2.1 12 (-1) (by decide),
   setup_validates_nothing.2.2.1 12 6 1 0 5 6 false true false (by decide) (by decide)
     (by decide),
   (setup_validates_nothing.2.2.2.2.2.2.2 _ 1 0 5 6 false true false
     (setup_validates_nothing.2.2.2.2.1 0 (by decide))).1⟩

/-- Counterexample to C14 as stated: `setup()` completes for `table_size = 3`, which is
not a power of two, and `predict` and `update` then run on that table; `setup()`
completes for `table_size = 0`; and a `BHTPredictor` built with `table_size = 0` is
constructed and set up without any error. -/
theorem setup_accepts_bad_table_size :
    (GSHARE.create 12 3).setup.1 = .ok () ∧
    (GSHARE.create 12 3).setup.2.table = [0, 0, 0] ∧
    ((GSHARE.create 12 3).setup.2.predict 1 0 5 false).1 = .ok false ∧
    (((GSHARE.create 12 3).setup.2.predict 1 0 5 false).2.update 1 0 5 true false 6).1
      = .ok () ∧
    (GSHARE.create 12 0).setup.1 = .ok () ∧
    BHTPredictor.create 0 = .ok { table := [] } ∧
    (BHTPredictor.setup { table := [] }).1 = .ok () := by
  decide

/-! ## C15: the instruction identity -/

theorem and_fifteen (x : Nat) : x &&& 15 = x % 16 := by
  have h := Nat.and_pow_two_sub_one_eq_mod x 4
  norm_num at h
  exact h

theorem shift_or_piece (a piece : Nat) (hp : piece < 16) : (16 * a) ||| piece = 16 * a + piece := by
  have h := Nat.mul_add_lt_is_or (i := 4) (b := piece) (by norm_num; exact hp) a
  norm_num at h
  exact h.symm

/-- For `seq_no < 2^60` and `piece < 16` the identity is `16 * seq_no + piece`. -/
theorem GSHARE.get_unique_inst_id_value (seq_no piece : Nat) (hs : seq_no < 2 ^ 60)
    (hp : piece < 16) : GSHARE.get_unique_inst_id seq_no piece = .ok (16 * seq_no + piece) := by
  rw [GSHARE.get_unique_inst_id_of_lt seq_no piece hp, and_fifteen]
  have h1 : (seq_no * 16) % 18446744073709551616 = 16 * seq_no := by omega
  have h2 : piece % 16 = piece := Nat.mod_eq_of_lt hp
  rw [h1, h2, shift_or_piece _ _ hp]

/-- C15: `get_unique_inst_id(seq_no, piece)` fails its assertion when `piece >= 16` and
otherwise returns `(seq_no << 4) | piece` computed in 64 bits; for `seq_no < 2^60` and
`piece < 16` the identity decodes back (`id >> 4 = seq_no`, `id & 15 = piece`), so
distinct pairs in that range get distinct identities. -/
theorem GSHARE.inst_id_encoding :
    (∀ (seq_no piece : Nat), 16 ≤ piece →
      GSHARE.get_unique_inst_id seq_no piece = .error .assertion_failed) ∧
    (∀ (seq_no piece : Nat), piece < 16 →
      GSHARE.get_unique_inst_id seq_no piece
        = .ok (((seq_no <<< 4) % 2 ^ 64) ||| piece)) ∧
    (∀ (seq_no piece id : Nat), seq_no < 2 ^ 60 → piece < 16 →
      GSHARE.get_unique_inst_id seq_no piece = .ok id →
      id >>> 4 = seq_no ∧ id &&& 15 = piece) ∧
    (∀ (s1 p1 s2 p2 : Nat), s1 < 2 ^ 60 → p1 < 16 → s2 < 2 ^ 60 → p2 < 16 →
      GSHARE.get_unique_inst_id s1 p1 = GSHARE.get_unique_inst_id s2 p2 →
      s1 = s2 ∧ p1 = p2) := by
  refine ⟨?_, ?_, ?_, ?_⟩
  · intro seq_no piece hp
    unfold GSHARE.get_unique_inst_id
    rw [if_neg (by omega)]
  · intro seq_no piece hp
    rw [GSHARE.get_unique_inst_id_of_lt seq_no piece hp, and_fifteen,
      Nat.mod_eq_of_lt hp, Nat.shiftLeft_eq]
    norm_num
  · intro seq_no piece id hs hp hid
    rw [GSHARE.get_unique_inst_id_value seq_no piece hs hp] at hid
    cases hid
    rw [Nat.shiftRight_eq_div_pow, and_fifteen]
    constructor
    · norm_num; omega
    · omega
  · intro s1 p1 s2 p2 hs1 hp1 hs2 hp2 h
    rw [GSHARE.get_unique_inst_id_value s1 p1 hs1 hp1,
      GSHARE.get_unique_inst_id_value s2 p2 hs2 hp2] at h
    have h' : 16 * s1 + p1 = 16 * s2 + p2 := by
      injection h
    omega

/-- Witness of C15: `(1, 3)` is encoded as `19` and decoded back, and `piece = 16` fails
the assertion. -/
theorem GSHARE.inst_id_encoding_witness :
    GSHARE.get_unique_inst_id 1 16 = .error .assertion_failed ∧
    GSHARE.get_unique_inst_id 1 3 = .ok (((1 <<< 4) % 2 ^ 64) ||| 3) ∧
    ((19 : Nat) >>> 4 = 1 ∧ (19 : Nat) &&& 15 = 3) :=
  ⟨GSHARE.inst_id_encoding.1 1 16 (by decide),
   GSHARE.inst_id_encoding.2.1 1 3 (by decide),
   GSHARE.inst_id_encoding.2.2.1 1 3 19 (by decide) (by decide) (by decide)⟩

/-! ## C17: which calls write which state -/

theorem BHTPredictor.predict_state (b : BHTPredictor) (seq_no piece pc : Nat) (hint : Bool) :
    (b.predict seq_no piece pc hint).2 = b := by
  unfold BHTPredictor.predict
  split
  · rfl
  · split <;> rfl

/-- C17: `predict` leaves every counter table and the global history value unchanged
(`BHTPredictor::predict` and `get_cond_dir_prediction` leave the whole state unchanged,
`GSHARE::predict` the table and the live history value); `history_update` leaves every
counter table and the ledger unchanged (for `BHTPredictor` it completes and changes
nothing at all); and `GSHARE::update` leaves the live history unchanged.  All of this
holds whether or not the call faults. -/
theorem only_update_learns :
    (∀ (b : BHTPredictor) (seq_no piece pc : Nat) (hint : Bool),
      (b.predict seq_no piece pc hint).2 = b) ∧
    (∀ (g : GSHARE) (seq_no piece PC : Nat) (tage_pred : Bool),
      (g.predict seq_no piece PC tage_pred).2.table = g.table ∧
      (g.predict seq_no piece PC tage_pred).2.active_hist.ghist = g.active_hist.ghist) ∧
    (∀ (t : TOURNAMENT_PREDICTOR) (pc : Nat), (t.get_cond_dir_prediction pc).2 = t) ∧
    (∀ (b : BHTPredictor) (seq_no piece pc : Nat) (resolve_dir : Bool) (next_pc : Nat),
      b.history_update seq_no piece pc resolve_dir next_pc = (.ok (), b)) ∧
    (∀ (g : GSHARE) (seq_no piece PC : Nat) (taken : Bool) (nextPC : Nat),
      (g.history_update seq_no piece PC taken nextPC).2.table = g.table ∧
      (g.history_update seq_no piece PC taken nextPC).2.pred_time_histories
        = g.pred_time_histories) ∧
    (∀ (g : GSHARE) (seq_no piece PC : Nat) (resolveDir predDir : Bool) (nextPC : Nat),
      (g.update seq_no piece PC resolveDir predDir nextPC).2.active_hist = g.active_hist) := by
  refine ⟨BHTPredictor.predict_state, ?_, TOURNAMENT_PREDICTOR.get_cond_dir_prediction_state,
    fun _ _ _ _ _ _ => rfl, ?_, ?_⟩
  · intro g seq_no piece PC tage_pred
    have h := g.predict_frame seq_no piece PC tage_pred
    exact ⟨h.1, h.2.2.2⟩
  · intro g seq_no piece PC taken nextPC
    have h := g.history_update_frame seq_no piece PC taken nextPC
    exact ⟨h.1, h.2.2.2⟩
  · intro g seq_no piece PC resolveDir predDir nextPC
    exact (g.update_frame seq_no piece PC resolveDir predDir nextPC).2.2.2

/-! ## C18: the tournament global index is recomputed from the current history -/

theorem TOURNAMENT_PREDICTOR.run_predictions (t : TOURNAMENT_PREDICTOR) (mid : List TCall)
    (hmid : ∀ c ∈ mid, c.is_prediction = true) : (t.run mid).state = t := by
  exact run_calls_invariant TOURNAMENT_PREDICTOR.step (fun s => s = t)
    (fun c => c.is_prediction = true)
    (by
      intro s c hc hp
      cases c with
      | get_cond_dir_prediction pc =>
        simp only [step, with_output, get_cond_dir_prediction_state]
        exact hp
      | update_predictor pc d q => cases hc)
    mid t hmid rfl

theorem TOURNAMENT_PREDICTOR.other_branch_step :
    create.update_predictor 2 true false = (.ok (), after_other_branch) := by
  rw [update_predictor_explicit create 2 true false 1 1 1 (create_reads 2).1
    (create_reads 2).2.1 (create_reads 2).2.2]
  rfl

theorem TOURNAMENT_PREDICTOR.other_branch_reads :
    after_other_branch.local_predictor_table[local_index 0]? = some 1 ∧
    after_other_branch.global_predictor_table[after_other_branch.global_index 0]? = some 1 ∧
    after_other_branch.chooser_table[chooser_index 0]? = some 1 := by
  have h1 : local_index 0 = 0 := by decide
  have h2 : after_other_branch.global_index 0 = 1 := by decide
  have h3 : chooser_index 0 = 0 := by decide
  rw [h1, h2, h3]
  simp only [after_other_branch, create, List.getElem?_set, List.getElem?_replicate,
    List.length_replicate, List.length_set]
  decide

/-- C18: let the tables have the constructor's lengths and let only predictions, no
`update_predictor`, occur between `get_cond_dir_prediction(pc)` and
`update_predictor(pc, taken, pred)`.  The prediction reads the local counter `lc` at
`pc mod 2^14`, the global counter `gc` at `(pc xor (ghr and 4095)) mod 2^14` and the
chooser counter `cc`, and returns `gc >= 2` or `lc >= 2` as `cc >= 2` or not.  The later
`update_predictor` completes and works on those same values: it compares the
sub-predictions `lc >= 2` and `gc >= 2` with `taken` to move the chooser, and it writes
the steps of `lc` and `gc` at the two indices the prediction read.  The condition is
needed: from the constructed predictor the prediction of address `0` reads the global
counter at index `0`; after `update_predictor(2, true, _)` for another branch,
`update_predictor(0, true, _)` reads and writes the global counter at index `1` and
leaves the one at index `0` as it was. -/
theorem TOURNAMENT_PREDICTOR.global_index_not_snapshotted :
    (∀ (t : TOURNAMENT_PREDICTOR) (pc : Nat) (taken pred : Bool) (mid : List TCall),
      t.Sized → (∀ c ∈ mid, c.is_prediction = true) →
      ∃ lc gc cc : Int,
        t.local_predictor_table[pc % 2 ^ 14]? = some lc ∧
        t.global_predictor_table[(pc ^^^ (t.ghr &&& 4095)) % 2 ^ 14]? = some gc ∧
        t.chooser_table[pc % 2 ^ 14]? = some cc ∧
        (t.get_cond_dir_prediction pc).1
          = .ok (if cc ≥ 2 then decide (gc ≥ 2) else decide (lc ≥ 2)) ∧
        ((t.get_cond_dir_prediction pc).2.run mid).state.update_predictor pc taken pred =
          (.ok (),
           { local_predictor_table := t.local_predictor_table.set (pc % 2 ^ 14)
               (if taken then saturating_increment lc else saturating_decrement lc),
             global_predictor_table :=
               t.global_predictor_table.set ((pc ^^^ (t.ghr &&& 4095)) % 2 ^ 14)
                 (if taken then saturating_increment gc else saturating_decrement gc),
             chooser_table :=
               if (decide (gc ≥ 2) == taken) && !(decide (lc ≥ 2) == taken) then
                 t.chooser_table.set (pc % 2 ^ 14) (saturating_increment cc)
               else if !(decide (gc ≥ 2) == taken) && (decide (lc ≥ 2) == taken) then
                 t.chooser_table.set (pc % 2 ^ 14) (saturating_decrement cc)
               else t.chooser_table,
             ghr := ((t.ghr * 2) % 18446744073709551616) ||| (if taken then 1 else 0) })) ∧
    ((0 ^^^ (create.ghr &&& 4095)) % 2 ^ 14 = 0 ∧
      create.global_predictor_table[0]? = some 1 ∧
      (create.get_cond_dir_prediction 0).1 = .ok false ∧
      ((create.get_cond_dir_prediction 0).2.run [.update_predictor 2 true false]).fault
        = none ∧
      ((create.get_cond_dir_prediction 0).2.run [.update_predictor 2 true false]).state
        = after_other_branch ∧
      after_other_branch.global_predictor_table[0]? = some 1 ∧
      after_other_branch.global_predictor_table[1]? = some 1 ∧
      (after_other_branch.update_predictor 0 true false).1 = .ok () ∧
      (after_other_branch.update_predictor 0 true false).2.global_predictor_table[0]?
        = some 1 ∧
      (after_other_branch.update_predictor 0 true false).2.global_predictor_table[1]?
        = some 2) := by
  constructor
  · intro t pc taken pred mid hs hmid
    have h : ((t.get_cond_dir_prediction pc).2.run mid).state = t := by
      rw [get_cond_dir_prediction_state]
      exact t.run_predictions mid hmid
    obtain ⟨hl, hg, hc⟩ := t.reads_of_sized hs pc
    generalize t.local_predictor_table.getD (local_index pc) 0 = lc at hl
    generalize t.global_predictor_table.getD (t.global_index pc) 0 = gc at hg
    generalize t.chooser_table.getD (chooser_index pc) 0 = cc at hc
    rw [h, t.update_predictor_explicit pc taken pred lc gc cc hl hg hc,
      t.get_cond_dir_prediction_of_reads pc lc gc cc hl hg hc]
    have e1 := (local_index_eq pc).1
    have e2 := (t.global_index_eq pc).1
    have e3 := (chooser_index_eq pc).1
    rw [e1] at hl ⊢
    rw [e2] at hg ⊢
    rw [e3] at hc ⊢
    refine ⟨lc, gc, cc, hl, hg, hc, rfl, ?_⟩
    cases taken <;> rfl
  · have hpred : create.get_cond_dir_prediction 0 = (.ok false, create) := by
      rw [create.get_cond_dir_prediction_of_reads 0 1 1 1 (create_reads 0).1
        (create_reads 0).2.1 (create_reads 0).2.2]
      rfl
    have hstep : create.step (.update_predictor 2 true false)
        = (.ok none, after_other_branch) := by
      simp only [step, no_output, other_branch_step, Except.map]
    have hrun : create.run [.update_predictor 2 true false]
        = { outputs := [], fault := none, state := after_other_branch } := by
      simp only [run]
      rw [run_calls_cons_ok _ _ _ _ _ _ hstep]
      rfl
    obtain ⟨hl, hg, hc⟩ := other_branch_reads
    have hupd := update_predictor_explicit after_other_branch 0 true false 1 1 1 hl hg hc
    have h2 : after_other_branch.global_index 0 = 1 := by decide
    rw [hpred, hrun, hupd]
    refine ⟨by decide, ?_, rfl, rfl, rfl, ?_, ?_, rfl, ?_, ?_⟩
    · simp only [create, List.getElem?_replicate]; decide
    · simp only [after_other_branch, create, List.getElem?_set, List.getElem?_replicate,
        List.length_replicate]
      decide
    · simp only [after_other_branch, create, List.getElem?_set, List.getElem?_replicate,
        List.length_replicate]
      decide
    · simp only [h2, after_other_branch, create, List.getElem?_set, List.getElem?_replicate,
        List.length_replicate, List.length_set]
      decide
    · simp only [h2, after_other_branch, create, List.getElem?_set, List.getElem?_replicate,
        List.length_replicate, List.length_set]
      decide

/-- Witness of C18: two other predictions between the prediction and the taken update
of the branch at address `5` on the constructed predictor. -/
theorem TOURNAMENT_PREDICTOR.global_index_not_snapshotted_witness :
    ∃ lc gc cc : Int,
      create.local_predictor_table[5 % 2 ^ 14]? = some lc ∧
      create.global_predictor_table[(5 ^^^ (create.ghr &&& 4095)) % 2 ^ 14]? = some gc ∧
      create.chooser_table[5 % 2 ^ 14]? = some cc ∧
      (create.get_cond_dir_prediction 5).1
        = .ok (if cc ≥ 2 then decide (gc ≥ 2) else decide (lc ≥ 2)) ∧
      ((create.get_cond_dir_prediction 5).2.run
          [.get_cond_dir_prediction 7, .get_cond_dir_prediction 9]).state.update_predictor
            5 true false =
        (.ok (),
         { local_predictor_table := create.local_predictor_table.set (5 % 2 ^ 14)
             (if true then saturating_increment lc else saturating_decrement lc),
           global_predictor_table :=
             create.global_predictor_table.set ((5 ^^^ (create.ghr &&& 4095)) % 2 ^ 14)
               (if true then saturating_increment gc else saturating_decrement gc),
           chooser_table :=
             if (decide (gc ≥ 2) == true) && !(decide (lc ≥ 2) == true) then
               create.chooser_table.set (5 % 2 ^ 14) (saturating_increment cc)
             else if !(decide (gc ≥ 2) == true) && (decide (lc ≥ 2) == true) then
               create.chooser_table.set (5 % 2 ^ 14) (saturating_decrement cc)
             else create.chooser_table,
           ghr := ((create.ghr * 2) % 18446744073709551616) ||| (if true then 1 else 0) }) :=
  global_index_not_snapshotted.1 create 5 true false
    [.get_cond_dir_prediction 7, .get_cond_dir_prediction 9] create_sized (by decide)

/-! ## C19: every table access is in bounds -/

/-- For a positive `table_size` the index is the natural number
`(ghr ^ (pc & (table_size - 1))) % table_size`, below `table_size`. -/
theorem GSHARE.get_index_of_pos (g : GSHARE) (h0 : 0 < g.table_size)
    (h1 : g.table_size < 2147483648) (pc ghr : Nat) :
    g.get_index pc ghr = .ok (g.position pc ghr : Int) ∧
    g.position pc ghr < g.table_size.toNat := by
  have hs : GSHARE.SetUp { g with table := List.replicate g.table_size.toNat 0 } :=
    ⟨h0, h1, List.length_replicate _ _⟩
  have hi := GSHARE.get_index_of_setUp _ hs pc ghr
  have hl := GSHARE.position_lt _ hs pc ghr
  rw [List.length_replicate] at hl
  exact ⟨hi.1, hl⟩

theorem GSHARE.predict_no_undefined (g : GSHARE) (hs : g.SetUp) (seq_no piece PC : Nat)
    (tage_pred : Bool) :
    (g.predict seq_no piece PC tage_pred).1 ≠ .error .undefined_behaviour := by
  by_cases hp : piece < 16
  · rw [g.predict_of_setUp hs seq_no piece PC tage_pred _
      (GSHARE.get_unique_inst_id_of_lt seq_no piece hp)]
    intro h; cases h
  · have hid : GSHARE.get_unique_inst_id seq_no piece = .error .assertion_failed := by
      unfold GSHARE.get_unique_inst_id
      rw [if_neg hp]
    unfold GSHARE.predict
    simp only [hid]
    intro h; cases h

theorem GSHARE.update_no_undefined (g : GSHARE) (hs : g.SetUp) (seq_no piece PC : Nat)
    (resolveDir predDir : Bool) (nextPC : Nat) :
    (g.update seq_no piece PC resolveDir predDir nextPC).1 ≠ .error .undefined_behaviour := by
  by_cases hp : piece < 16
  · have hid := GSHARE.get_unique_inst_id_of_lt seq_no piece hp
    cases hm : map_at g.pred_time_histories
        (((seq_no * 16) % 18446744073709551616) ||| (piece &&& 15)) with
    | none =>
      rw [g.update_of_absent seq_no piece PC resolveDir predDir nextPC _ hid hm]
      intro h; cases h
    | some hist =>
      rw [g.update_of_setUp hs seq_no piece PC resolveDir predDir nextPC _ hist hid hm]
      intro h; cases h
  · have hid : GSHARE.get_unique_inst_id seq_no piece = .error .assertion_failed := by
      unfold GSHARE.get_unique_inst_id
      rw [if_neg hp]
    unfold GSHARE.update
    simp only [hid]
    intro h; cases h

theorem BHTPredictor.step_nonempty (b : BHTPredictor) (c : BCall) (h0 : 0 < b.table.length)
    (h1 : b.table.length < 2147483648) :
    (∃ o, (b.step c).1 = .ok o) ∧ (b.step c).2.table.length = b.table.length := by
  cases c with
  | predict s p pc h =>
    have hp := b.predict_of_nonempty h0 h1 s p pc h
    refine ⟨⟨some (decide (b.table.getD (pc % b.table.length) 0 ≥ 2)), ?_⟩, ?_⟩
    · show (with_output (b.predict s p pc h)).1 = _
      rw [hp]; rfl
    · show (with_output (b.predict s p pc h)).2.table.length = _
      rw [hp]; rfl
  | history_update s p pc d n => exact ⟨⟨_, rfl⟩, rfl⟩
  | update s p pc d q n =>
    have hu := b.update_of_nonempty h0 h1 s p pc d q n
    refine ⟨⟨none, ?_⟩, ?_⟩
    · show (no_output (b.update s p pc d q n)).1 = _
      rw [hu]; rfl
    · show (no_output (b.update s p pc d q n)).2.table.length = _
      rw [hu]; exact List.length_set _ _ _

theorem BHTPredictor.run_nonempty (calls : List BCall) :
    ∀ (b : BHTPredictor), 0 < b.table.length → b.table.length < 2147483648 →
      (b.run calls).fault = none ∧ (b.run calls).state.table.length = b.table.length := by
  induction calls with
  | nil => intro b _ _; exact ⟨rfl, rfl⟩
  | cons c cs ih =>
    intro b h0 h1
    obtain ⟨⟨o, ho⟩, hlen⟩ := b.step_nonempty c h0 h1
    have hstep : b.step c = (.ok o, (b.step c).2) := by
      rw [← ho]
    simp only [BHTPredictor.run]
    rw [run_calls_cons_ok _ _ _ _ _ _ hstep]
    obtain ⟨r1, r2⟩ := ih (b.step c).2 (by rw [hlen]; exact h0) (by rw [hlen]; exact h1)
    exact ⟨r1, by simp only [BHTPredictor.run] at r2; rw [r2, hlen]⟩

/-- C19: (bimodal) on a non-empty table the index `address % table.size()` is a valid
position and `predict` and `update` complete, in every state reached from a predictor
built with a positive `table_size`; (GShare) for a positive `table_size`, power of two
or not, and any `pc` and history value, `get_index` is
`(ghr xor (pc & (table_size - 1))) mod table_size`, in `[0, table_size)`, and on a
table sized by `setup` neither `predict` nor `update` reads or writes outside the
table, in every state reached from the fresh predictor; (tournament) the local, global
and chooser indices are below `2^14`, the length of the constructor's tables, and from
the constructed predictor no call sequence faults. -/
theorem table_accesses_in_bounds :
    (∀ (b : BHTPredictor) (pc seq_no piece next_pc : Nat) (hint d q : Bool),
      0 < b.table.length → b.table.length < 2147483648 →
      (∃ i : Nat, b.get_index pc = .ok (i : Int) ∧ i < b.table.length) ∧
      (∃ r, (b.predict seq_no piece pc hint).1 = .ok r) ∧
      (b.update seq_no piece pc d q next_pc).1 = .ok ()) ∧
    (∀ (table_size : Int) (b : BHTPredictor) (calls : List BCall),
      0 < table_size → table_size < 2147483648 → BHTPredictor.create table_size = .ok b →
      (b.run calls).fault = none ∧ 0 < (b.run calls).state.table.length) ∧
    (∀ (g : GSHARE) (pc ghr : Nat), 0 < g.table_size → g.table_size < 2147483648 →
      ∃ i : Nat, g.get_index pc ghr = .ok (i : Int) ∧
        i = (ghr ^^^ (pc &&& (g.table_size.toNat - 1))) % g.table_size.toNat ∧
        i < g.table_size.toNat) ∧
    (∀ (g : GSHARE) (seq_no piece PC nextPC : Nat) (hint d q : Bool), g.SetUp →
      (g.predict seq_no piece PC hint).1 ≠ .error .undefined_behaviour ∧
      (g.update seq_no piece PC d q nextPC).1 ≠ .error .undefined_behaviour) ∧
    (∀ (history_length table_size : Int) (calls : List GCall),
      0 < table_size → table_size < 2147483648 →
      ((GSHARE.fresh history_length table_size).run calls).state.SetUp) ∧
    (∀ (t : TOURNAMENT_PREDICTOR) (pc : Nat),
      TOURNAMENT_PREDICTOR.local_index pc < 2 ^ 14 ∧ t.global_index pc < 2 ^ 14 ∧
      TOURNAMENT_PREDICTOR.chooser_index pc < 2 ^ 14) ∧
    (∀ (t : TOURNAMENT_PREDICTOR) (pc : Nat) (taken pred : Bool), t.Sized →
      (∃ r, (t.get_cond_dir_prediction pc).1 = .ok r) ∧
      (t.update_predictor pc taken pred).1 = .ok ()) ∧
    (∀ (calls : List TCall),
      (TOURNAMENT_PREDICTOR.create.run calls).fault = none ∧
      (TOURNAMENT_PREDICTOR.create.run calls).state.Sized) := by
  refine ⟨?_, ?_, ?_, ?_, ?_, ?_, ?_, ?_⟩
  · intro b pc seq_no piece next_pc hint d q h0 h1
    refine ⟨⟨pc % b.table.length, (b.get_index_of_nonempty h0 h1 pc).1, Nat.mod_lt _ h0⟩,
      ⟨_, by rw [b.predict_of_nonempty h0 h1]⟩, by rw [b.update_of_nonempty h0 h1]⟩
  · intro table_size b calls h0 h1 hb
    rw [BHTPredictor.create_eq _ (le_of_lt h0)] at hb
    cases hb
    have hlen : (List.replicate table_size.toNat (0 : Int)).length = table_size.toNat :=
      List.length_replicate _ _
    obtain ⟨r1, r2⟩ := BHTPredictor.run_nonempty calls
      { table := List.replicate table_size.toNat 0 }
      (by rw [hlen]; omega) (by rw [hlen]; omega)
    exact ⟨r1, by rw [r2, hlen]; omega⟩
  · intro g pc ghr h0 h1
    obtain ⟨hi, hl⟩ := g.get_index_of_pos h0 h1 pc ghr
    exact ⟨_, hi, rfl, hl⟩
  · intro g seq_no piece PC nextPC hint d q hs
    exact ⟨g.predict_no_undefined hs seq_no piece PC hint,
      g.update_no_undefined hs seq_no piece PC d q nextPC⟩
  · intro history_length table_size calls h0 h1
    exact run_calls_invariant GSHARE.step (fun s => s.SetUp) (fun _ => True)
      (fun s c _ hp => s.step_setUp c hp) calls _ (fun _ _ => trivial)
      (GSHARE.fresh_setUp history_length table_size h0 h1)
  · intro t pc
    have e : (2 : Nat) ^ 14 = 16384 := by norm_num
    rw [e]
    exact ⟨(TOURNAMENT_PREDICTOR.local_index_eq pc).2, (t.global_index_eq pc).2,
      (TOURNAMENT_PREDICTOR.chooser_index_eq pc).2⟩
  · intro t pc taken pred hs
    obtain ⟨r, hr⟩ := t.get_cond_dir_prediction_sized hs pc
    exact ⟨⟨r, by rw [hr]⟩, (t.update_predictor_sized hs pc taken pred).1⟩
  · intro calls
    obtain ⟨r1, r2, _⟩ := TOURNAMENT_PREDICTOR.run_sized calls _
      TOURNAMENT_PREDICTOR.create_sized
    exact ⟨r1, r2⟩

/-- Witness of C19: the shipped bimodal table, and the `GSHARE` index for a table size
that is not a power of two with a history value above it. -/
theorem table_accesses_in_bounds_witness :
    ((∃ i : Nat, BHTPredictor.shipped.get_index 5000 = .ok (i : Int) ∧
        i < BHTPredictor.shipped.table.length) ∧
      (∃ r, (BHTPredictor.shipped.predict 1 0 5000 false).1 = .ok r) ∧
      (BHTPredictor.shipped.update 1 0 5000 true false 6).1 = .ok ()) ∧
    (∃ i : Nat, (GSHARE.create 12 6).get_index 5 4095 = .ok (i : Int) ∧
      i = (4095 ^^^ (5 &&& ((GSHARE.create 12 6).table_size.toNat - 1)))
        % (GSHARE.create 12 6).table_size.toNat ∧
      i < (GSHARE.create 12 6).table_size.toNat) :=
  ⟨table_accesses_in_bounds.1 BHTPredictor.shipped 5000 1 0 6 false true false
      (by simp only [BHTPredictor.shipped, List.length_replicate]; decide)
      (by simp only [BHTPredictor.shipped, List.length_replicate]; decide),
   table_accesses_in_bounds.2.2.1 (GSHARE.create 12 6) 5 4095 (by decide) (by decide)⟩

/-! ## C16: the auxiliary hint has no influence -/

theorem run_calls_map {σ κ : Type} (step : σ → κ → Except Fault (Option Bool) × σ)
    (f : κ → κ) (hf : ∀ s c, step s c = step s (f c)) :
    ∀ (cs : List κ) (s : σ), run_calls step s cs = run_calls step s (cs.map f) := by
  intro cs
  induction cs with
  | nil => intro s; rfl
  | cons c cs ih =>
    intro s
    rw [List.map_cons]
    rcases hc : step s c with ⟨r, s1⟩
    have hc' : step s (f c) = (r, s1) := by rw [← hf]; exact hc
    cases r with
    | error e =>
      rw [run_calls_cons_error step s s1 c cs e hc,
        run_calls_cons_error step s s1 (f c) (cs.map f) e hc']
    | ok o =>
      rw [run_calls_cons_ok step s s1 c cs o hc,
        run_calls_cons_ok step s s1 (f c) (cs.map f) o hc', ih s1]

theorem BHTPredictor.step_erase_hint (b : BHTPredictor) (c : BCall) :
    b.step c = b.step c.erase_hint := by
  cases c <;> rfl

theorem map_at_histories (m1 : List (Nat × SampleHist)) :
    ∀ (m2 : List (Nat × SampleHist)) (k : Nat), ledger_histories m1 = ledger_histories m2 →
      (map_at m1 k).map SampleHist.ghist = (map_at m2 k).map SampleHist.ghist := by
  induction m1 with
  | nil =>
    intro m2 k h
    cases m2 with
    | nil => rfl
    | cons e rest => simp [ledger_histories] at h
  | cons e1 rest1 ih =>
    intro m2 k h
    cases m2 with
    | nil => simp [ledger_histories] at h
    | cons e2 rest2 =>
      obtain ⟨k1, v1⟩ := e1
      obtain ⟨k2, v2⟩ := e2
      simp only [ledger_histories, List.map_cons, List.cons.injEq, Prod.mk.injEq] at h
      obtain ⟨⟨hk, hv⟩, hrest⟩ := h
      subst hk
      rw [map_at_cons, map_at_cons]
      by_cases hkk : k1 = k
      · rw [if_pos hkk, if_pos hkk]
        simp only [Option.map_some', hv]
      · rw [if_neg hkk, if_neg hkk]
        exact ih rest2 k hrest

theorem ledger_histories_emplace (m1 m2 : List (Nat × SampleHist)) (k : Nat)
    (v1 v2 : SampleHist) (h : ledger_histories m1 = ledger_histories m2)
    (hv : v1.ghist = v2.ghist) :
    ledger_histories (map_emplace m1 k v1) = ledger_histories (map_emplace m2 k v2) := by
  have hm := map_at_histories m1 m2 k h
  unfold map_emplace
  cases h1 : map_at m1 k with
  | none =>
    cases h2 : map_at m2 k with
    | none => simp only [ledger_histories, List.map_cons, hv] at h ⊢; rw [h]
    | some w => rw [h1, h2] at hm; simp at hm
  | some w1 =>
    cases h2 : map_at m2 k with
    | none => rw [h1, h2] at hm; simp at hm
    | some w2 => exact h

theorem ledger_histories_erase (m : List (Nat × SampleHist)) (k : Nat) :
    ledger_histories (map_erase m k)
      = (ledger_histories m).filter (fun e => decide (e.1 ≠ k)) := by
  induction m with
  | nil => rfl
  | cons e rest ih =>
    obtain ⟨k', v⟩ := e
    rw [map_erase_cons]
    by_cases h : k' = k
    · rw [if_pos h, ih]
      simp [ledger_histories, h]
    · rw [if_neg h]
      simp only [ledger_histories, List.map_cons] at ih ⊢
      rw [ih]
      simp [h]

theorem map_keys_of_histories (m : List (Nat × SampleHist)) :
    map_keys m = (ledger_histories m).map Prod.fst := by
  simp [map_keys, ledger_histories]
theorem GSHARE.predict_hint_equiv (g1 g2 : GSHARE) (h : g1.hint_equiv g2)
    (s p pc : Nat) (h1 h2 : Bool) :
    (g1.predict s p pc h1).1 = (g2.predict s p pc h2).1 ∧
    (g1.predict s p pc h1).2.hint_equiv (g2.predict s p pc h2).2 := by
  obtain ⟨t1, hl1, ts1, ⟨gh1, tp1⟩, m1⟩ := g1
  obtain ⟨t2, hl2, ts2, ⟨gh2, tp2⟩, m2⟩ := g2
  obtain ⟨ht, hhl, hts, hgh, hm⟩ := h
  simp only at ht hhl hts hgh hm
  subst ht hhl hts hgh
  simp only [GSHARE.predict, GSHARE.get_index]
  cases hid : GSHARE.get_unique_inst_id s p with
  | error e => exact ⟨rfl, rfl, rfl, rfl, rfl, hm⟩
  | ok id =>
    have hle := ledger_histories_emplace m1 m2 id ⟨gh1, h1⟩ ⟨gh1, h2⟩ hm rfl
    by_cases hz : u64_of_int ts1 = 0
    · simp only [hz, if_true]
      exact ⟨trivial, rfl, rfl, rfl, rfl, hle⟩
    · simp only [hz, if_false]
      generalize vec_read t1 _ = r
      cases r with
      | error e => exact ⟨rfl, rfl, rfl, rfl, rfl, hle⟩
      | ok v => exact ⟨rfl, rfl, rfl, rfl, rfl, hle⟩

theorem GSHARE.update_internal_hint_equiv (g1 g2 : GSHARE) (h : g1.hint_equiv g2)
    (pc : Nat) (d q : Bool) (n : Nat) (w1 w2 : SampleHist) (hw : w1.ghist = w2.ghist) :
    (g1.update_internal pc d q n w1).1 = (g2.update_internal pc d q n w2).1 ∧
    (g1.update_internal pc d q n w1).2.hint_equiv (g2.update_internal pc d q n w2).2 := by
  obtain ⟨t1, hl1, ts1, ⟨gh1, tp1⟩, m1⟩ := g1
  obtain ⟨t2, hl2, ts2, ⟨gh2, tp2⟩, m2⟩ := g2
  obtain ⟨ht, hhl, hts, hgh, hm⟩ := h
  simp only at ht hhl hts hgh hm
  subst ht hhl hts hgh
  simp only [GSHARE.update_internal, GSHARE.get_index, hw]
  by_cases hz : u64_of_int ts1 = 0
  · simp only [hz, if_true]
    exact ⟨trivial, rfl, rfl, rfl, rfl, hm⟩
  · simp only [hz, if_false]
    generalize vec_modify t1 _ _ = r
    cases r with
    | error e => exact ⟨rfl, rfl, rfl, rfl, rfl, hm⟩
    | ok v => exact ⟨rfl, rfl, rfl, rfl, rfl, hm⟩

theorem GSHARE.update_hint_equiv (g1 g2 : GSHARE) (h : g1.hint_equiv g2)
    (s p pc : Nat) (d q : Bool) (n : Nat) :
    (g1.update s p pc d q n).1 = (g2.update s p pc d q n).1 ∧
    (g1.update s p pc d q n).2.hint_equiv (g2.update s p pc d q n).2 := by
  cases hid : GSHARE.get_unique_inst_id s p with
  | error e =>
    unfold GSHARE.update
    simp only [hid]
    exact ⟨trivial, h⟩
  | ok id =>
    have hma := map_at_histories g1.pred_time_histories g2.pred_time_histories id h.2.2.2.2
    cases hm1 : map_at g1.pred_time_histories id with
    | none =>
      cases hm2 : map_at g2.pred_time_histories id with
      | none =>
        unfold GSHARE.update
        simp only [hid, hm1, hm2]
        exact ⟨trivial, h⟩
      | some w => rw [hm1, hm2] at hma; simp at hma
    | some w1 =>
      cases hm2 : map_at g2.pred_time_histories id with
      | none => rw [hm1, hm2] at hma; simp at hma
      | some w2 =>
        rw [hm1, hm2] at hma
        simp only [Option.map_some', Option.some.injEq] at hma
        obtain ⟨hr, hs⟩ := GSHARE.update_internal_hint_equiv g1 g2 h pc d q n w1 w2 hma
        rcases hu1 : g1.update_internal pc d q n w1 with ⟨r1, s1⟩
        rcases hu2 : g2.update_internal pc d q n w2 with ⟨r2, s2⟩
        rw [hu1, hu2] at hr hs
        simp only at hr hs
        subst hr
        unfold GSHARE.update
        simp only [hid, hm1, hm2, hu1, hu2]
        cases r1 with
        | error e => exact ⟨rfl, hs⟩
        | ok u =>
          obtain ⟨a, b, c, e, f⟩ := hs
          refine ⟨rfl, a, b, c, e, ?_⟩
          simp only [ledger_histories_erase]
          rw [f]

theorem GSHARE.history_update_hint_equiv (g1 g2 : GSHARE) (h : g1.hint_equiv g2)
    (s p pc : Nat) (d : Bool) (n : Nat) :
    (g1.history_update s p pc d n).1 = (g2.history_update s p pc d n).1 ∧
    (g1.history_update s p pc d n).2.hint_equiv (g2.history_update s p pc d n).2 := by
  obtain ⟨t1, hl1, ts1, ⟨gh1, tp1⟩, m1⟩ := g1
  obtain ⟨t2, hl2, ts2, ⟨gh2, tp2⟩, m2⟩ := g2
  obtain ⟨ht, hhl, hts, hgh, hm⟩ := h
  simp only at ht hhl hts hgh hm
  subst ht hhl hts hgh
  simp only [GSHARE.history_update]
  split
  · exact ⟨rfl, rfl, rfl, rfl, rfl, hm⟩
  · exact ⟨rfl, rfl, rfl, rfl, rfl, hm⟩

theorem GSHARE.step_hint_equiv (g1 g2 : GSHARE) (h : g1.hint_equiv g2) (c1 c2 : GCall)
    (hc : c1.erase_hint = c2.erase_hint) :
    (g1.step c1).1 = (g2.step c2).1 ∧ (g1.step c1).2.hint_equiv (g2.step c2).2 := by
  cases c1 with
  | predict s p pc h1 =>
    cases c2 with
    | predict s' p' pc' h2 =>
      simp only [GCall.erase_hint, GCall.predict.injEq, and_true] at hc
      obtain ⟨rfl, rfl, rfl⟩ := hc
      obtain ⟨a, b⟩ := GSHARE.predict_hint_equiv g1 g2 h s p pc h1 h2
      exact ⟨congrArg (Except.map some) a, b⟩
    | history_update s' p' pc' d' n' => cases hc
    | update s' p' pc' d' q' n' => cases hc
  | history_update s p pc d n =>
    cases c2 with
    | predict s' p' pc' h2 => cases hc
    | history_update s' p' pc' d' n' =>
      cases hc
      obtain ⟨a, b⟩ := GSHARE.history_update_hint_equiv g1 g2 h s p pc d n
      exact ⟨congrArg (Except.map (fun _ => none)) a, b⟩
    | update s' p' pc' d' q' n' => cases hc
  | update s p pc d q n =>
    cases c2 with
    | predict s' p' pc' h2 => cases hc
    | history_update s' p' pc' d' n' => cases hc
    | update s' p' pc' d' q' n' =>
      cases hc
      obtain ⟨a, b⟩ := GSHARE.update_hint_equiv g1 g2 h s p pc d q n
      exact ⟨congrArg (Except.map (fun _ => none)) a, b⟩

/-- Two runs from states that agree up to the stored hints, on call sequences that agree
up to the hints, return the same predictions, stop at the same fault or not at all, and
reach states that agree up to the stored hints. -/
theorem GSHARE.run_hint_equiv (calls1 : List GCall) :
    ∀ (calls2 : List GCall) (g1 g2 : GSHARE), g1.hint_equiv g2 →
      calls1.map GCall.erase_hint = calls2.map GCall.erase_hint →
      (g1.run calls1).outputs = (g2.run calls2).outputs ∧
      (g1.run calls1).fault = (g2.run calls2).fault ∧
      (g1.run calls1).state.hint_equiv (g2.run calls2).state := by
  induction calls1 with
  | nil =>
    intro calls2 g1 g2 h hc
    cases calls2 with
    | nil => exact ⟨rfl, rfl, h⟩
    | cons c cs => simp at hc
  | cons c1 cs1 ih =>
    intro calls2 g1 g2 h hc
    cases calls2 with
    | nil => simp at hc
    | cons c2 cs2 =>
      simp only [List.map_cons, List.cons.injEq] at hc
      obtain ⟨hr, hs⟩ := GSHARE.step_hint_equiv g1 g2 h c1 c2 hc.1
      rcases hst1 : g1.step c1 with ⟨r1, s1⟩
      rcases hst2 : g2.step c2 with ⟨r2, s2⟩
      rw [hst1, hst2] at hr hs
      simp only at hr hs
      subst hr
      simp only [GSHARE.run]
      cases r1 with
      | error e =>
        rw [run_calls_cons_error _ _ _ _ _ _ hst1, run_calls_cons_error _ _ _ _ _ _ hst2]
        exact ⟨rfl, rfl, hs⟩
      | ok o =>
        rw [run_calls_cons_ok _ _ _ _ _ _ hst1, run_calls_cons_ok _ _ _ _ _ _ hst2]
        obtain ⟨a, b, c⟩ := ih cs2 s1 s2 hs hc.2
        simp only [GSHARE.run] at a b c
        exact ⟨by rw [a], b, c⟩

/-- C16: for `BHTPredictor` and `GSHARE`, two runs from the same state on call sequences
that differ only in the values of the auxiliary hint of `predict` return the same
prediction from every `predict`, stop at the same fault or not at all, and end with the
same counter table, the same live history value, the same pending identities and the
same stored history for each of them. -/
theorem hint_is_unused :
    (∀ (b : BHTPredictor) (calls1 calls2 : List BCall),
      calls1.map BCall.erase_hint = calls2.map BCall.erase_hint →
      (b.run calls1).outputs = (b.run calls2).outputs ∧
      (b.run calls1).fault = (b.run calls2).fault ∧
      (b.run calls1).state.table = (b.run calls2).state.table) ∧
    (∀ (g : GSHARE) (calls1 calls2 : List GCall),
      calls1.map GCall.erase_hint = calls2.map GCall.erase_hint →
      (g.run calls1).outputs = (g.run calls2).outputs ∧
      (g.run calls1).fault = (g.run calls2).fault ∧
      (g.run calls1).state.table = (g.run calls2).state.table ∧
      (g.run calls1).state.active_hist.ghist = (g.run calls2).state.active_hist.ghist ∧
      map_keys (g.run calls1).state.pred_time_histories
        = map_keys (g.run calls2).state.pred_time_histories ∧
      ledger_histories (g.run calls1).state.pred_time_histories
        = ledger_histories (g.run calls2).state.pred_time_histories) := by
  constructor
  · intro b calls1 calls2 hc
    have h1 := run_calls_map BHTPredictor.step BCall.erase_hint
      (fun s c => s.step_erase_hint c) calls1 b
    have h2 := run_calls_map BHTPredictor.step BCall.erase_hint
      (fun s c => s.step_erase_hint c) calls2 b
    simp only [BHTPredictor.run]
    rw [h1, h2, hc]
    exact ⟨rfl, rfl, rfl⟩
  · intro g calls1 calls2 hc
    obtain ⟨a, b, c⟩ := GSHARE.run_hint_equiv calls1 calls2 g g ⟨rfl, rfl, rfl, rfl, rfl⟩ hc
    obtain ⟨c1, _, _, c4, c5⟩ := c
    refine ⟨a, b, c1, c4, ?_, c5⟩
    rw [map_keys_of_histories, map_keys_of_histories, c5]

/-- Witness of C16: the two-instruction scenario on the shipped `GSHARE` with every hint
`false` and with every hint `true`. -/
theorem hint_is_unused_witness :
    (GSHARE.shipped.run GSHARE.two_in_flight).outputs
      = (GSHARE.shipped.run GSHARE.two_in_flight_hinted).outputs ∧
    (GSHARE.shipped.run GSHARE.two_in_flight).state.table
      = (GSHARE.shipped.run GSHARE.two_in_flight_hinted).state.table :=
  ⟨(hint_is_unused.2 GSHARE.shipped GSHARE.two_in_flight GSHARE.two_in_flight_hinted
      (by decide)).1,
   (hint_is_unused.2 GSHARE.shipped GSHARE.two_in_flight GSHARE.two_in_flight_hinted
      (by decide)).2.2.1⟩

/-! ## C20: only the low 12 history bits matter -/

theorem TOURNAMENT_PREDICTOR.and_history_mask (x : Nat) : x &&& history_mask = x % 4096 := by
  have h : history_mask = 2 ^ 12 - 1 := by decide
  rw [h, Nat.and_pow_two_sub_one_eq_mod]

theorem TOURNAMENT_PREDICTOR.global_index_of_mod (t m : TOURNAMENT_PREDICTOR)
    (h : m.ghr = t.ghr % 4096) (pc : Nat) : m.global_index pc = t.global_index pc := by
  unfold global_index
  rw [and_history_mask, and_history_mask, h, Nat.mod_mod]

theorem TOURNAMENT_PREDICTOR.shifted_history_mod (x : Nat) (b : Bool) :
    shifted_history (x % 4096) b % 4096 = shifted_history x b % 4096 := by
  unfold shifted_history
  rw [shift_or_bit, shift_or_bit]
  omega

/-- One step of the source and of the masked variant from states with the same tables
and registers equal modulo `4096`: same outcome, same tables, registers equal modulo
`4096` again. -/
theorem TOURNAMENT_PREDICTOR.step_masked_sim (t m : TOURNAMENT_PREDICTOR) (hs : t.Sized)
    (h1 : m.local_predictor_table = t.local_predictor_table)
    (h2 : m.global_predictor_table = t.global_predictor_table)
    (h3 : m.chooser_table = t.chooser_table) (h4 : m.ghr = t.ghr % 4096) (c : TCall) :
    ∃ o, (t.step c).1 = .ok o ∧ (m.step_masked c).1 = .ok o ∧
      (t.step c).2.Sized ∧
      (m.step_masked c).2.local_predictor_table = (t.step c).2.local_predictor_table ∧
      (m.step_masked c).2.global_predictor_table = (t.step c).2.global_predictor_table ∧
      (m.step_masked c).2.chooser_table = (t.step c).2.chooser_table ∧
      (m.step_masked c).2.ghr = (t.step c).2.ghr % 4096 := by
  have hgi := global_index_of_mod t m h4
  cases c with
  | get_cond_dir_prediction pc =>
    obtain ⟨hl, hg, hc⟩ := t.reads_of_sized hs pc
    have ht := t.get_cond_dir_prediction_of_reads pc _ _ _ hl hg hc
    have hm := m.get_cond_dir_prediction_of_reads pc _ _ _ (by rw [h1]; exact hl)
      (by rw [h2, hgi]; exact hg) (by rw [h3]; exact hc)
    simp only [step, step_masked, with_output, ht, hm, Except.map]
    exact ⟨_, rfl, rfl, hs, h1, h2, h3, h4⟩
  | update_predictor pc d q =>
    obtain ⟨hl, hg, hc⟩ := t.reads_of_sized hs pc
    have ht := t.update_predictor_explicit pc d q _ _ _ hl hg hc
    have hm := m.update_predictor_explicit pc d q _ _ _ (by rw [h1]; exact hl)
      (by rw [h2, hgi]; exact hg) (by rw [h3]; exact hc)
    have hsz := (t.update_predictor_sized hs pc d q).2.1
    rw [ht] at hsz
    simp only [step, step_masked, no_output, update_predictor_masked, ht, hm, Except.map]
    refine ⟨none, rfl, rfl, hsz, ?_, ?_, ?_, ?_⟩
    · rw [h1]
    · rw [h2, hgi]
    · rw [h3]
    · rw [and_history_mask, h4]
      exact shifted_history_mod t.ghr d

theorem TOURNAMENT_PREDICTOR.run_masked_sim (calls : List TCall) :
    ∀ (t m : TOURNAMENT_PREDICTOR), t.Sized →
      m.local_predictor_table = t.local_predictor_table →
      m.global_predictor_table = t.global_predictor_table →
      m.chooser_table = t.chooser_table → m.ghr = t.ghr % 4096 →
      (t.run calls).outputs = (m.run_masked calls).outputs ∧
      (t.run calls).fault = none ∧ (m.run_masked calls).fault = none ∧
      (m.run_masked calls).state.local_predictor_table
        = (t.run calls).state.local_predictor_table ∧
      (m.run_masked calls).state.global_predictor_table
        = (t.run calls).state.global_predictor_table ∧
      (m.run_masked calls).state.chooser_table = (t.run calls).state.chooser_table ∧
      (m.run_masked calls).state.ghr = (t.run calls).state.ghr % 4096 := by
  induction calls with
  | nil =>
    intro t m _ h1 h2 h3 h4
    exact ⟨rfl, rfl, rfl, h1, h2, h3, h4⟩
  | cons c cs ih =>
    intro t m hs h1 h2 h3 h4
    obtain ⟨o, a, b, hs', k1, k2, k3, k4⟩ := t.step_masked_sim m hs h1 h2 h3 h4 c
    have hst : t.step c = (.ok o, (t.step c).2) := by rw [← a]
    have hsm : m.step_masked c = (.ok o, (m.step_masked c).2) := by rw [← b]
    simp only [run, run_masked]
    rw [run_calls_cons_ok _ _ _ _ _ _ hst, run_calls_cons_ok _ _ _ _ _ _ hsm]
    obtain ⟨r0, r1, r2, r3, r4, r5, r6⟩ := ih _ _ hs' k1 k2 k3 k4
    simp only [run, run_masked] at r0 r1 r2 r3 r4 r5 r6
    exact ⟨by rw [r0], r1, r2, r3, r4, r5, r6⟩

/-- C20: the `TOURNAMENT_PREDICTOR` as written, whose `ghr = (ghr << 1) | taken` is
computed in 64 bits and never masked, and the variant that masks `ghr` to
`GLOBAL_HISTORY_LENGTH = 12` bits after every update behave alike: on every call
sequence from the constructed predictor both complete every call, return the same
predictions and hold the same local, global and chooser tables, and the register of the
variant is `ghr mod 4096`. -/
theorem TOURNAMENT_PREDICTOR.masked_variant_equivalent (calls : List TCall) :
    (create.run calls).outputs = (create.run_masked calls).outputs ∧
    (create.run calls).fault = none ∧ (create.run_masked calls).fault = none ∧
    (create.run_masked calls).state.local_predictor_table
      = (create.run calls).state.local_predictor_table ∧
    (create.run_masked calls).state.global_predictor_table
      = (create.run calls).state.global_predictor_table ∧
    (create.run_masked calls).state.chooser_table = (create.run calls).state.chooser_table ∧
    (create.run_masked calls).state.ghr = (create.run calls).state.ghr % 4096 :=
  run_masked_sim calls create create create_sized rfl rfl rfl rfl
